import Mathlib

/-!
Verification of the PetukhPlusPlus toolchain (lexer, parser, semantic
analyzer, RPN/POLIZ bytecode generator, stack VM) against its
natural-language specification.

The C++ sources are embedded shallowly:

* machine integers (`int64_t`) are modelled as `Int`; signed overflow is
  undefined behaviour in C++, so the unbounded model agrees with every
  defined execution;
* host IEEE-754 `double` values are not modelled (floating point is outside
  the embedding): a double value carries the single uninterpreted tag
  `HostFloat.host`.  No theorem below depends on the contents of a double;
* `std::vector` stacks ("back" = top) are modelled as Lean lists with the
  head as the top; `std::map` is modelled as an association list (the C++
  code never observes the key ordering, only lookup/insert);
* exceptions (`throw std::runtime_error`) become an explicit error result;
* the VM main loop and the recursive-descent parser run on explicit fuel;
  all other recursion is structural.
-/

namespace Petukh

/-! ## Instructions (src/rpn/RPNInstruction.h) -/

inductive OpCode where
  | PUSH_INT
  | PUSH_DOUBLE
  | PUSH_STRING
  | LOAD
  | STORE
  | LOAD_INDEX
  | STORE_INDEX
  | NEW_ARRAY
  | ADD
  | SUB
  | MUL
  | DIV
  | MOD
  | NEG
  | EQ
  | NEQ
  | LT
  | GT
  | LE
  | GE
  | NOT
  | JMP
  | JZ
  | CALL
  | RET
  | POP
  | LABEL
deriving DecidableEq, Repr

structure Instruction where
  op : OpCode
  arg : String := ""
deriving DecidableEq, Repr

/-! ## Values (src/vm/Value.h) -/

/-- Uninterpreted stand-in for a host `double`.  The repository disclaims
floating-point conformance beyond host semantics, and no claim below
inspects a double, so the payload is a single tag. -/
inductive HostFloat where
  | host
deriving DecidableEq, Repr

inductive Value where
  | none
  | int (i : Int)
  | double (d : HostFloat)
  | str (s : String)
  | arr (a : List Value)

/-- Value.MakeArray: `n` zero-int elements. -/
def Value.MakeArray (n : Nat) : Value :=
  Value.arr (List.replicate n (Value.int 0))

/-- Value::IsZero.  For doubles the C++ code compares with `0.0`; host
doubles are unmodelled, so that branch is fixed (arbitrarily) to `false`;
no theorem below exercises it. -/
def Value.IsZero : Value → Bool
  | Value.int i => i == 0
  | Value.double _ => false
  | Value.str s => s == ""
  | Value.arr a => a.isEmpty
  | Value.none => true

/-- Digits-prefix accumulator used by `stollModel` and `cinReadInt`:
consumes the longest digit run, returning its value. -/
def takeDigits (acc : Nat) : List Char → Nat
  | [] => acc
  | c :: rest => if c.isDigit then takeDigits (acc * 10 + (c.toNat - 48)) rest else acc

def hasDigitHead : List Char → Bool
  | [] => false
  | c :: _ => c.isDigit

/-- Model of `std::stoll`: skip whitespace, optional sign, then a digit run
(at least one digit required, trailing junk ignored).  Out-of-range input
throws in C++; with unbounded `Int` that case does not arise. -/
def stollModel (s : String) : Option Int :=
  let cs := s.data.dropWhile (fun c => c.isWhitespace)
  match cs with
  | '-' :: rest => if hasDigitHead rest then Option.some (-(takeDigits 0 rest : Int)) else Option.none
  | '+' :: rest => if hasDigitHead rest then Option.some ((takeDigits 0 rest : Int)) else Option.none
  | rest => if hasDigitHead rest then Option.some ((takeDigits 0 rest : Int)) else Option.none

def Value.AsInt : Value → Int
  | Value.int i => i
  | Value.double _ => 0
  | Value.str s => (stollModel s).getD 0
  | _ => 0

/-- Value::AsString.  Int values print in decimal (as `std::to_string`);
a double prints via the host stream formatting, which is unmodelled (empty
string); none/array give the empty string as in the C++ `default` case. -/
def intToDecimal (i : Int) : String :=
  if i < 0 then "-" ++ Nat.repr i.natAbs else Nat.repr i.natAbs

def Value.AsString : Value → String
  | Value.int i => intToDecimal i
  | Value.double _ => ""
  | Value.str s => s
  | _ => ""

/-! ## VM state (src/vm/VM.h, src/vm/VM.cpp) -/

/-- One frame: return instruction pointer plus `name → Value` locals
(`std::map`, modelled as an association list; fresh bindings append). -/
structure Frame where
  ret_ip : Nat
  locals : List (String × Value)

def lookupA {α : Type} (m : List (String × α)) (k : String) : Option α :=
  match m with
  | [] => Option.none
  | (k', v) :: rest => if k' == k then Option.some v else lookupA rest k

/-- Map update `m[k] = v`: overwrite in place, else append. -/
def insertA {α : Type} (m : List (String × α)) (k : String) (v : α) : List (String × α) :=
  match m with
  | [] => [(k, v)]
  | (k', v') :: rest => if k' == k then (k, v) :: rest else (k', v') :: insertA rest k v

/-- VM label map: scan the program once, later LABELs overwrite earlier
ones (`label_map_[arg] = i` on `std::map`). -/
def BuildLabelMap (code : List Instruction) : List (String × Nat) :=
  (code.enum.filter (fun p => p.2.op == OpCode.LABEL)).foldl
    (fun m p => insertA m p.2.arg p.1) []

/-- Machine state: operand stack (head = top), call stack (head = most
recent frame), accumulated stdout, remaining stdin. -/
structure VMState where
  stack : List Value
  call_stack : List Frame
  out : String
  input : List Char

inductive StepResult where
  | ok (ip : Nat) (s : VMState)
  | err (msg : String)
  | halt (s : VMState)

/-- VM::Pop — stack underflow is a fatal runtime error. -/
def popV (s : VMState) : Except String (Value × VMState) :=
  match s.stack with
  | [] => Except.error "stack underflow"
  | v :: rest => Except.ok (v, { s with stack := rest })

def pushV (v : Value) (s : VMState) : VMState :=
  { s with stack := v :: s.stack }

def IsBuiltin (name : String) : Bool :=
  name == "printInt" || name == "printStr" || name == "printDouble" ||
  name == "inputInt" || name == "inputStr" || name == "inputDouble" || name == "vsuprun"

/-- Model of `std::cin >> x` for integers: skip whitespace, optional sign
and digits.  The C++ fail-state latching on malformed input is not
modelled (no claim touches stdin). -/
def cinReadInt (input : List Char) : Int × List Char :=
  let cs := input.dropWhile (fun c => c.isWhitespace)
  match cs with
  | '-' :: rest =>
    if hasDigitHead rest then (-(takeDigits 0 rest : Int), rest.dropWhile (fun c => c.isDigit))
    else (0, cs)
  | '+' :: rest =>
    if hasDigitHead rest then ((takeDigits 0 rest : Int), rest.dropWhile (fun c => c.isDigit))
    else (0, cs)
  | rest =>
    if hasDigitHead rest then ((takeDigits 0 rest : Int), rest.dropWhile (fun c => c.isDigit))
    else (0, cs)

def getlineModel (input : List Char) : String × List Char :=
  let line := input.takeWhile (fun c => c != '\n')
  let rest := (input.dropWhile (fun c => c != '\n')).drop 1
  (String.mk line, rest)

/-- VM::CallBuiltin.  `vsuprun` compares the host CPU clock with 1.95 s;
that is real time, outside the embedding, so it is modelled as pushing 0.
`printDouble` output is the unmodelled host double formatting (empty). -/
def CallBuiltin (name : String) (s : VMState) : Except String VMState :=
  if name == "printInt" then do
    let (v, s) ← popV s
    Except.ok { s with out := s.out ++ intToDecimal v.AsInt }
  else if name == "printDouble" then do
    let (_, s) ← popV s
    Except.ok { s with out := s.out ++ "" }
  else if name == "printStr" then do
    let (v, s) ← popV s
    Except.ok { s with out := s.out ++ v.AsString }
  else if name == "inputInt" then
    let (x, rest) := cinReadInt s.input
    Except.ok { pushV (Value.int x) s with input := rest }
  else if name == "inputDouble" then
    Except.ok (pushV (Value.double HostFloat.host) s)
  else if name == "inputStr" then
    let (line, rest) := getlineModel s.input
    let (line, rest) := if line == "" && rest != [] then getlineModel rest else (line, rest)
    Except.ok { pushV (Value.str line) s with input := rest }
  else if name == "vsuprun" then
    Except.ok (pushV (Value.int 0) s)
  else
    Except.ok s

/-- VM::HandlePushInt: `std::stoll`, pushing 0 on parse failure. -/
def HandlePushInt (arg : String) (s : VMState) : VMState :=
  match stollModel arg with
  | Option.some v => pushV (Value.int v) s
  | Option.none => pushV (Value.int 0) s

/-- VM::HandlePushString: strip one pair of surrounding quotes if present. -/
def HandlePushString (arg : String) (s : VMState) : VMState :=
  let cs := arg.data
  let stripped :=
    if cs.length ≥ 2 &&
       ((cs.head? == Option.some '"' && cs.getLast? == Option.some '"') ||
        (cs.head? == Option.some '\'' && cs.getLast? == Option.some '\'')) then
      String.mk (cs.drop 1).dropLast
    else arg
  pushV (Value.str stripped) s

/-- VM::HandleLoad: missing frame or missing variable pushes int 0. -/
def HandleLoad (name : String) (s : VMState) : VMState :=
  match s.call_stack with
  | [] => pushV (Value.int 0) s
  | f :: _ =>
    match lookupA f.locals name with
    | Option.none => pushV (Value.int 0) s
    | Option.some v => pushV v s

/-- VM::HandleStore: creates a bottom frame if the call stack is empty,
then pops the value into the current frame's local. -/
def HandleStore (codeLen : Nat) (name : String) (s : VMState) : Except String VMState := do
  let s :=
    match s.call_stack with
    | [] => { s with call_stack := [{ ret_ip := codeLen, locals := [] }] }
    | _ => s
  let (v, s) ← popV s
  match s.call_stack with
  | [] => Except.ok s
  | f :: rest =>
    Except.ok { s with call_stack := { f with locals := insertA f.locals name v } :: rest }

/-- VM::HandleNewArray: negative size gives an empty array. -/
def HandleNewArray (s : VMState) : Except String VMState := do
  let (sizeVal, s) ← popV s
  let n := sizeVal.AsInt
  let n := if n < 0 then 0 else n
  Except.ok (pushV (Value.MakeArray n.toNat) s)

/-- VM::HandleLoadIndex: stack top is the index, below it the base.
Array out of bounds pushes int 0; string in bounds pushes the single-byte
substring, out of bounds pushes the EMPTY STRING; any other base pushes
int 0. -/
def HandleLoadIndex (s : VMState) : Except String VMState := do
  let (idx, s) ← popV s
  let (base, s) ← popV s
  let i := idx.AsInt
  match base with
  | Value.arr a =>
    if i < 0 ∨ a.length ≤ i.toNat then Except.ok (pushV (Value.int 0) s)
    else Except.ok (pushV (a.getD i.toNat Value.none) s)
  | Value.str str =>
    if i < 0 ∨ str.data.length ≤ i.toNat then Except.ok (pushV (Value.str "") s)
    else Except.ok (pushV (Value.str (String.mk [str.data.getD i.toNat ' '])) s)
  | _ => Except.ok (pushV (Value.int 0) s)

/-- List write with zero-fill growth, mirroring `resize` + assignment. -/
def writeGrow (a : List Value) (i : Nat) (v : Value) : List Value :=
  let a := if a.length ≤ i then a ++ List.replicate (i + 1 - a.length) (Value.int 0) else a
  a.set i v

/-- VM::HandleStoreIndex.  With a non-empty variable name: pop index then
value; missing or non-array local is rebound to a fresh zero-filled array
of size `max 0 (i+1)`; a non-negative index writes (growing if needed); a
negative index writes nothing.  With an empty name: the legacy convention
popping index, array, value. -/
def HandleStoreIndex (varName : String) (s : VMState) : Except String VMState := do
  if varName ≠ "" then do
    let (idx, s) ← popV s
    let (val, s) ← popV s
    let i := idx.AsInt
    match s.call_stack with
    | [] => Except.error "store_index with no frame"
    | f :: rest =>
      let cur := lookupA f.locals varName
      let needed : Nat := (max 0 (i + 1)).toNat
      let arr0 : List Value :=
        match cur with
        | Option.some (Value.arr a) => a
        | _ => List.replicate needed (Value.int 0)
      let arr1 := if 0 ≤ i then writeGrow arr0 i.toNat val else arr0
      Except.ok { s with call_stack :=
        { f with locals := insertA f.locals varName (Value.arr arr1) } :: rest }
  else do
    let (idx, s) ← popV s
    let (arrv, s) ← popV s
    let (val, s) ← popV s
    let i := idx.AsInt
    match arrv with
    | Value.arr a =>
      if 0 ≤ i ∧ i.toNat < a.length then Except.ok (pushV (Value.arr (a.set i.toNat val)) s)
      else Except.ok (pushV (Value.arr a) s)
    | _ => Except.ok (pushV val s)

/-- Double result of a binary op: host arithmetic, unmodelled. -/
def hostDouble : Value := Value.double HostFloat.host

/-- VM::HandleBinaryOp (pops b then a; top of stack is b).  When either
operand is a double the C++ result is host floating-point arithmetic;
those branches are unmodelled: arithmetic yields the uninterpreted double
and comparisons yield int 0 by arbitrary choice.  No theorem below
depends on a double branch. -/
def HandleBinaryOp (op : OpCode) (s : VMState) : Except String VMState := do
  let (b, s) ← popV s
  let (a, s) ← popV s
  let eitherDouble :=
    (match a with | Value.double _ => true | _ => false) ||
    (match b with | Value.double _ => true | _ => false)
  match op with
  | OpCode.ADD =>
    if (match a with | Value.str _ => true | _ => false) ||
       (match b with | Value.str _ => true | _ => false) then
      Except.ok (pushV (Value.str (a.AsString ++ b.AsString)) s)
    else if eitherDouble then Except.ok (pushV hostDouble s)
    else Except.ok (pushV (Value.int (a.AsInt + b.AsInt)) s)
  | OpCode.SUB =>
    if eitherDouble then Except.ok (pushV hostDouble s)
    else Except.ok (pushV (Value.int (a.AsInt - b.AsInt)) s)
  | OpCode.MUL =>
    if eitherDouble then Except.ok (pushV hostDouble s)
    else Except.ok (pushV (Value.int (a.AsInt * b.AsInt)) s)
  | OpCode.DIV =>
    if eitherDouble then Except.ok (pushV hostDouble s)
    else
      let ib := b.AsInt
      if ib = 0 then Except.ok (pushV (Value.int 0) s)
      else Except.ok (pushV (Value.int (a.AsInt.tdiv ib)) s)
  | OpCode.MOD =>
    let ib := b.AsInt
    if ib = 0 then Except.ok (pushV (Value.int 0) s)
    else Except.ok (pushV (Value.int (a.AsInt.tmod ib)) s)
  | OpCode.EQ =>
    Except.ok (pushV (Value.int (if a.AsString = b.AsString then 1 else 0)) s)
  | OpCode.NEQ =>
    Except.ok (pushV (Value.int (if a.AsString ≠ b.AsString then 1 else 0)) s)
  | OpCode.LT =>
    if eitherDouble then Except.ok (pushV (Value.int 0) s)
    else Except.ok (pushV (Value.int (if a.AsInt < b.AsInt then 1 else 0)) s)
  | OpCode.GT =>
    if eitherDouble then Except.ok (pushV (Value.int 0) s)
    else Except.ok (pushV (Value.int (if b.AsInt < a.AsInt then 1 else 0)) s)
  | OpCode.LE =>
    if eitherDouble then Except.ok (pushV (Value.int 0) s)
    else Except.ok (pushV (Value.int (if a.AsInt ≤ b.AsInt then 1 else 0)) s)
  | OpCode.GE =>
    if eitherDouble then Except.ok (pushV (Value.int 0) s)
    else Except.ok (pushV (Value.int (if b.AsInt ≤ a.AsInt then 1 else 0)) s)
  | _ => Except.error "invalid binary op"

/-- VM::HandleUnaryOp. -/
def HandleUnaryOp (op : OpCode) (s : VMState) : Except String VMState := do
  let (v, s) ← popV s
  match op with
  | OpCode.NEG =>
    match v with
    | Value.double _ => Except.ok (pushV hostDouble s)
    | _ => Except.ok (pushV (Value.int (-(v.AsInt))) s)
  | OpCode.NOT => Except.ok (pushV (Value.int (if v.IsZero then 1 else 0)) s)
  | _ => Except.error "invalid unary op"

/-- One iteration of the `switch` in VM::Run, executing `ins` at `ip`. -/
def execInstr (codeLen : Nat) (labelMap : List (String × Nat)) (ins : Instruction)
    (ip : Nat) (s : VMState) : StepResult :=
  let lift : Except String VMState → StepResult := fun r =>
    match r with
    | Except.ok s' => StepResult.ok (ip + 1) s'
    | Except.error m => StepResult.err m
  match ins.op with
  | OpCode.POP =>
    match popV s with
    | Except.ok (_, s') => StepResult.ok (ip + 1) s'
    | Except.error m => StepResult.err m
  | OpCode.PUSH_INT => StepResult.ok (ip + 1) (HandlePushInt ins.arg s)
  | OpCode.PUSH_DOUBLE => StepResult.ok (ip + 1) (pushV hostDouble s)
  | OpCode.PUSH_STRING => StepResult.ok (ip + 1) (HandlePushString ins.arg s)
  | OpCode.LOAD => StepResult.ok (ip + 1) (HandleLoad ins.arg s)
  | OpCode.STORE => lift (HandleStore codeLen ins.arg s)
  | OpCode.NEW_ARRAY => lift (HandleNewArray s)
  | OpCode.LOAD_INDEX => lift (HandleLoadIndex s)
  | OpCode.STORE_INDEX => lift (HandleStoreIndex ins.arg s)
  | OpCode.ADD => lift (HandleBinaryOp ins.op s)
  | OpCode.SUB => lift (HandleBinaryOp ins.op s)
  | OpCode.MUL => lift (HandleBinaryOp ins.op s)
  | OpCode.DIV => lift (HandleBinaryOp ins.op s)
  | OpCode.MOD => lift (HandleBinaryOp ins.op s)
  | OpCode.EQ => lift (HandleBinaryOp ins.op s)
  | OpCode.NEQ => lift (HandleBinaryOp ins.op s)
  | OpCode.LT => lift (HandleBinaryOp ins.op s)
  | OpCode.GT => lift (HandleBinaryOp ins.op s)
  | OpCode.LE => lift (HandleBinaryOp ins.op s)
  | OpCode.GE => lift (HandleBinaryOp ins.op s)
  | OpCode.NEG => lift (HandleUnaryOp ins.op s)
  | OpCode.NOT => lift (HandleUnaryOp ins.op s)
  | OpCode.JMP =>
    match lookupA labelMap ins.arg with
    | Option.none => StepResult.err ("unknown label for JMP: " ++ ins.arg)
    | Option.some t => StepResult.ok t s
  | OpCode.JZ =>
    match popV s with
    | Except.error m => StepResult.err m
    | Except.ok (v, s') =>
      if v.IsZero then
        match lookupA labelMap ins.arg with
        | Option.none => StepResult.err ("unknown label for JZ: " ++ ins.arg)
        | Option.some t => StepResult.ok t s'
      else StepResult.ok (ip + 1) s'
  | OpCode.CALL =>
    if IsBuiltin ins.arg then
      lift (CallBuiltin ins.arg s)
    else
      let s' := { s with call_stack := { ret_ip := ip + 1, locals := [] } :: s.call_stack }
      match lookupA labelMap ins.arg with
      | Option.none => StepResult.err ("unknown function label: " ++ ins.arg)
      | Option.some t => StepResult.ok t s'
  | OpCode.RET =>
    match s.call_stack with
    | [] => StepResult.halt s
    | [_] => StepResult.halt { s with call_stack := [] }
    | fr :: rest => StepResult.ok fr.ret_ip { s with call_stack := rest }
  | OpCode.LABEL => StepResult.ok (ip + 1) s

inductive RunResult where
  | finished (s : VMState)
  | error (msg : String)
  | outOfFuel (ip : Nat) (s : VMState)

/-- The `while (ip < code_.size())` loop of VM::Run, on fuel. -/
def runLoop (code : List Instruction) (labelMap : List (String × Nat)) :
    Nat → Nat → VMState → RunResult
  | 0, ip, s => RunResult.outOfFuel ip s
  | fuel + 1, ip, s =>
    match code.get? ip with
    | Option.none => RunResult.finished s
    | Option.some ins =>
      match execInstr code.length labelMap ins ip s with
      | StepResult.ok ip' s' => runLoop code labelMap fuel ip' s'
      | StepResult.err m => RunResult.error m
      | StepResult.halt s' => RunResult.finished s'

/-- VM::Run: start at the `main` label with a sentinel bottom frame when
present, else at instruction 0 with an empty call stack. -/
def Run (code : List Instruction) (input : List Char) (fuel : Nat) : RunResult :=
  let labelMap := BuildLabelMap code
  let s0 : VMState := { stack := [], call_stack := [], out := "", input := input }
  match lookupA labelMap "main" with
  | Option.some ip0 =>
    runLoop code labelMap fuel ip0
      { s0 with call_stack := [{ ret_ip := code.length, locals := [] }] }
  | Option.none => runLoop code labelMap fuel 0 s0

/-- Observation helper: the stdout of a normally finished run. -/
def runOutput (r : RunResult) : Option String :=
  match r with
  | RunResult.finished s => Option.some s.out
  | _ => Option.none

end Petukh

namespace Petukh

/-! ## AST (src/parser/AST.h)

A node owns a vector of (possibly null) children; `children : List
(Option ASTNode)` mirrors the `std::vector<std::unique_ptr<ASTNode>>`,
with `Option.none` for a null pointer.  Indexing a child out of range is
undefined behaviour in C++; the model reads it as a null child. -/

inductive NodeKind where
  | Program
  | Function
  | FuncArg
  | Block
  | VarDeclList
  | VarDecl
  | If
  | ElseIf
  | While
  | DoWhile
  | For
  | Return
  | Break
  | Continue
  | ExprStmt
  | Assign
  | CommaExpr
  | Binary
  | Unary
  | Number
  | String
  | Identifier
  | Call
  | Index
  | TypeNode
deriving DecidableEq, Repr

inductive ASTNode where
  | mk (kind : NodeKind) (text : String) (isArray : Bool)
       (children : List (Option ASTNode))

def ASTNode.kind : ASTNode → NodeKind
  | ASTNode.mk k _ _ _ => k

def ASTNode.text : ASTNode → String
  | ASTNode.mk _ t _ _ => t

def ASTNode.isArray : ASTNode → Bool
  | ASTNode.mk _ _ b _ => b

def ASTNode.children : ASTNode → List (Option ASTNode)
  | ASTNode.mk _ _ _ cs => cs

/-- Child access `node->children[i].get()`: null stays null, an index out
of range (C++ UB) is read as null. -/
def childOpt (cs : List (Option ASTNode)) (i : Nat) : Option ASTNode :=
  (cs.get? i).join

/-- Text of a possibly-null node (`p->text`; null deref is C++ UB, read
as the empty string). -/
def optText : Option ASTNode → String
  | Option.none => ""
  | Option.some n => n.text

/-- Kind of a possibly-null node (null deref is C++ UB; `Program` is an
arbitrary default that no generator/analyzer branch matches specially). -/
def optKind : Option ASTNode → NodeKind
  | Option.none => NodeKind.Program
  | Option.some n => n.kind

theorem sizeOf_children_lt (n : ASTNode) : sizeOf n.children < sizeOf n := by
  cases n with
  | mk k t b cs => simp [ASTNode.children]

theorem sizeOf_list_pos (cs : List (Option ASTNode)) : 1 ≤ sizeOf cs := by
  cases cs <;> simp <;> omega

theorem childOpt_sizeOf_le (cs : List (Option ASTNode)) (i : Nat) :
    sizeOf (childOpt cs i) ≤ sizeOf cs := by
  induction cs generalizing i with
  | nil =>
    show sizeOf (Option.none : Option ASTNode) ≤ sizeOf ([] : List (Option ASTNode))
    simp
  | cons c rest ih =>
    cases i with
    | zero =>
      show sizeOf c ≤ sizeOf (c :: rest)
      simp
      omega
    | succ i =>
      have h1 := ih i
      have h2 : childOpt (c :: rest) (i + 1) = childOpt rest i := rfl
      rw [h2]
      have h3 : sizeOf rest ≤ sizeOf (c :: rest) := by
        simp
      omega

theorem childOpt_some_sizeOf {cs : List (Option ASTNode)} {i : Nat} {a : ASTNode}
    (h : childOpt cs i = Option.some a) : sizeOf a < sizeOf cs := by
  have h1 := childOpt_sizeOf_le cs i
  rw [h] at h1
  simp at h1
  omega

theorem sizeOf_drop_le (cs : List (Option ASTNode)) (k : Nat) :
    sizeOf (cs.drop k) ≤ sizeOf cs := by
  induction cs generalizing k with
  | nil => cases k <;> simp
  | cons c rest ih =>
    cases k with
    | zero => simp
    | succ k =>
      have := ih k
      simp only [List.drop]
      simp
      omega

end Petukh

namespace Petukh

/-! ## Bytecode generator (src/rpn/RPNGenerator.cpp)

Modelling note: wherever the C++ indexes `node->children[i]` out of range
(undefined behaviour; never produced by the parser, and ruled out by the
shape hypotheses of the theorems below), the model emits nothing for that
node.  A null child passed to GenExpression / GenStatement is a no-op
exactly as in the C++ (`if (!node) return;`); the null test lives in the
wrapper functions `GenExpression` / `GenStatement`, the work in
`GenExpressionN` / `GenStatementN`. -/

structure GenSt where
  code : List Instruction
  labelCounter : Nat
  breakLabels : List String
  continueLabels : List String
deriving Repr

def emit (st : GenSt) (op : OpCode) (arg : String := "") : GenSt :=
  { st with code := st.code ++ [⟨op, arg⟩] }

/-- RPNGenerator::NewLabel: "L" + std::to_string(labelCounter_++). -/
def NewLabel (st : GenSt) : String × GenSt :=
  ("L" ++ Nat.repr st.labelCounter, { st with labelCounter := st.labelCounter + 1 })

def IsFloatingLiteral (s : String) : Bool :=
  s.data.any (fun c => c == '.' || c == 'e' || c == 'E')

/-- The if-chain on the binary operator text at the end of
GenExpression's Binary case (an unrecognised operator emits nothing). -/
def binOpEmit (t : String) (st : GenSt) : GenSt :=
  if t == "+" then emit st OpCode.ADD
  else if t == "-" then emit st OpCode.SUB
  else if t == "*" then emit st OpCode.MUL
  else if t == "/" then emit st OpCode.DIV
  else if t == "%" then emit st OpCode.MOD
  else if t == "==" then emit st OpCode.EQ
  else if t == "!=" then emit st OpCode.NEQ
  else if t == "<" then emit st OpCode.LT
  else if t == ">" then emit st OpCode.GT
  else if t == "<=" then emit st OpCode.LE
  else if t == ">=" then emit st OpCode.GE
  else st

mutual

/-- RPNGenerator::GenExpression on a non-null node. -/
def GenExpressionN : ASTNode → GenSt → GenSt
  | ASTNode.mk NodeKind.Number t _ _, st =>
    if IsFloatingLiteral t then emit st OpCode.PUSH_DOUBLE t
    else emit st OpCode.PUSH_INT t
  | ASTNode.mk NodeKind.String t _ _, st => emit st OpCode.PUSH_STRING t
  | ASTNode.mk NodeKind.Identifier t _ _, st => emit st OpCode.LOAD t
  | ASTNode.mk NodeKind.Unary t _ (c0 :: _), st =>
    let st1 := match c0 with
               | Option.none => st
               | Option.some m => GenExpressionN m st
    if t == "-" then emit st1 OpCode.NEG
    else if t == "!" then emit st1 OpCode.NOT
    else st1
  | ASTNode.mk NodeKind.Unary _ _ [], st => st
  | ASTNode.mk NodeKind.Binary t _ (c0 :: c1 :: _), st =>
    let st1 := match c0 with
               | Option.none => st
               | Option.some m => GenExpressionN m st
    let st2 := match c1 with
               | Option.none => st1
               | Option.some m => GenExpressionN m st1
    binOpEmit t st2
  | ASTNode.mk NodeKind.Binary _ _ _, st => st
  | ASTNode.mk NodeKind.Call _ _ (callee :: args), st =>
    emit (GenExprList args st) OpCode.CALL (optText callee)
  | ASTNode.mk NodeKind.Call _ _ [], st => st
  | ASTNode.mk NodeKind.Index _ _ (c0 :: c1 :: _), st =>
    let st1 := match c0 with
               | Option.none => st
               | Option.some m => GenExpressionN m st
    let st2 := match c1 with
               | Option.none => st1
               | Option.some m => GenExpressionN m st1
    emit st2 OpCode.LOAD_INDEX
  | ASTNode.mk NodeKind.Index _ _ _, st => st
  | ASTNode.mk NodeKind.Assign _ _
      (Option.some (ASTNode.mk NodeKind.Index _ _ (a0 :: i0 :: _)) :: crhs :: _), st =>
    if optKind a0 = NodeKind.Identifier then
      let st1 := match crhs with
                 | Option.none => st
                 | Option.some m => GenExpressionN m st
      let st2 := match i0 with
                 | Option.none => st1
                 | Option.some m => GenExpressionN m st1
      emit st2 OpCode.STORE_INDEX (optText a0)
    else
      let st1 := match crhs with
                 | Option.none => st
                 | Option.some m => GenExpressionN m st
      let st2 := match a0 with
                 | Option.none => st1
                 | Option.some m => GenExpressionN m st1
      let st3 := match i0 with
                 | Option.none => st2
                 | Option.some m => GenExpressionN m st2
      emit st3 OpCode.STORE_INDEX
  | ASTNode.mk NodeKind.Assign _ _
      (Option.some (ASTNode.mk NodeKind.Index _ _ _) :: _ :: _), st => st
  | ASTNode.mk NodeKind.Assign _ _ (Option.some lhs :: crhs :: _), st =>
    let st1 := match crhs with
               | Option.none => st
               | Option.some m => GenExpressionN m st
    emit st1 OpCode.STORE lhs.text
  | ASTNode.mk NodeKind.Assign _ _ _, st => st
  | ASTNode.mk NodeKind.CommaExpr _ _ cs, st => GenExprList cs st
  | ASTNode.mk _ _ _ _, st => st

/-- The argument loop inside GenExpression's Call case and the child loop
of the CommaExpr case. -/
def GenExprList : List (Option ASTNode) → GenSt → GenSt
  | [], st => st
  | c :: rest, st =>
    GenExprList rest
      (match c with
       | Option.none => st
       | Option.some m => GenExpressionN m st)

end

/-- RPNGenerator::GenExpression (`if (!node) return;`). -/
def GenExpression : Option ASTNode → GenSt → GenSt
  | Option.none, st => st
  | Option.some n, st => GenExpressionN n st

/-- The declarator loop of GenStatement's VarDeclList case (children[1..]).
A null declarator would be dereferenced in C++ (UB); modelled as a no-op. -/
def GenVarDecls : List (Option ASTNode) → GenSt → GenSt
  | [], st => st
  | Option.none :: rest, st => GenVarDecls rest st
  | Option.some (ASTNode.mk _ vtext varr vcs) :: rest, st =>
    let st2 :=
      if varr then
        let st1 :=
          match vcs with
          | [] => emit st OpCode.PUSH_INT "0"
          | c0 :: _ => GenExpression c0 st
        emit (emit st1 OpCode.NEW_ARRAY) OpCode.STORE vtext
      else
        let st1 :=
          match vcs with
          | [] => emit st OpCode.PUSH_INT "0"
          | c0 :: _ => GenExpression c0 st
        emit st1 OpCode.STORE vtext
    GenVarDecls rest st2

mutual

/-- RPNGenerator::GenStatement on a non-null node. -/
def GenStatementN : ASTNode → GenSt → GenSt
  | ASTNode.mk NodeKind.Block _ _ cs, st => GenStatements cs st
  | ASTNode.mk NodeKind.ExprStmt _ _ [], st => st
  | ASTNode.mk NodeKind.ExprStmt _ _ (e :: _), st =>
    let st1 := GenExpression e st
    if optKind e != NodeKind.Call && optKind e != NodeKind.Assign then
      emit st1 OpCode.POP
    else st1
  | ASTNode.mk NodeKind.VarDeclList _ _ [], st => st
  | ASTNode.mk NodeKind.VarDeclList _ _ (_ :: vars), st => GenVarDecls vars st
  | ASTNode.mk NodeKind.Assign t ar cs, st =>
    if cs.isEmpty then st
    else GenExpression (Option.some (ASTNode.mk NodeKind.Assign t ar cs)) st
  | ASTNode.mk NodeKind.If _ _ cs, st => GenIf cs st
  | ASTNode.mk NodeKind.While _ _ (c0 :: c1 :: _), st =>
    let p1 := NewLabel st
    let p2 := NewLabel p1.2
    let startL := p1.1
    let endL := p2.1
    let st := p2.2
    let st := { st with breakLabels := endL :: st.breakLabels,
                        continueLabels := startL :: st.continueLabels }
    let st := emit st OpCode.LABEL startL
    let st := GenExpression c0 st
    let st := emit st OpCode.JZ endL
    let st := match c1 with
              | Option.none => st
              | Option.some m => GenStatementN m st
    let st := emit st OpCode.JMP startL
    let st := emit st OpCode.LABEL endL
    { st with breakLabels := st.breakLabels.tail,
              continueLabels := st.continueLabels.tail }
  | ASTNode.mk NodeKind.While _ _ _, st => st
  | ASTNode.mk NodeKind.DoWhile _ _ (c0 :: c1 :: _), st =>
    let p1 := NewLabel st
    let p2 := NewLabel p1.2
    let startL := p1.1
    let endL := p2.1
    let st := p2.2
    let st := { st with breakLabels := endL :: st.breakLabels,
                        continueLabels := startL :: st.continueLabels }
    let st := emit st OpCode.LABEL startL
    let st := match c0 with
              | Option.none => st
              | Option.some m => GenStatementN m st
    let st := GenExpression c1 st
    let st := emit st OpCode.JZ endL
    let st := emit st OpCode.JMP startL
    let st := emit st OpCode.LABEL endL
    { st with breakLabels := st.breakLabels.tail,
              continueLabels := st.continueLabels.tail }
  | ASTNode.mk NodeKind.DoWhile _ _ _, st => st
  | ASTNode.mk NodeKind.For _ _ (c0 :: c1 :: c2 :: c3 :: _), st =>
    let p1 := NewLabel st
    let p2 := NewLabel p1.2
    let p3 := NewLabel p2.2
    let startLabel := p1.1
    let stepLabel := p2.1
    let endLabel := p3.1
    let st := p3.2
    let st := { st with breakLabels := endLabel :: st.breakLabels,
                        continueLabels := stepLabel :: st.continueLabels }
    let st := match c0 with
              | Option.none => st
              | Option.some m => GenStatementN m st
    let st := emit st OpCode.LABEL startLabel
    let st :=
      match c1 with
      | Option.some _ => emit (GenExpression c1 st) OpCode.JZ endLabel
      | Option.none => st
    let st := match c3 with
              | Option.none => st
              | Option.some m => GenStatementN m st
    let st := emit st OpCode.LABEL stepLabel
    let st :=
      match c2 with
      | Option.some stepExpr =>
        let st1 := GenExpression c2 st
        if stepExpr.kind != NodeKind.Call && stepExpr.kind != NodeKind.Assign then
          emit st1 OpCode.POP
        else st1
      | Option.none => st
    let st := emit st OpCode.JMP startLabel
    let st := emit st OpCode.LABEL endLabel
    { st with breakLabels := st.breakLabels.tail,
              continueLabels := st.continueLabels.tail }
  | ASTNode.mk NodeKind.For _ _ _, st => st
  | ASTNode.mk NodeKind.Break _ _ _, st =>
    match st.breakLabels with
    | [] => st
    | l :: _ => emit st OpCode.JMP l
  | ASTNode.mk NodeKind.Continue _ _ _, st =>
    match st.continueLabels with
    | [] => st
    | l :: _ => emit st OpCode.JMP l
  | ASTNode.mk NodeKind.Return _ _ [], st => emit st OpCode.RET
  | ASTNode.mk NodeKind.Return _ _ (c0 :: _), st =>
    emit (GenExpression c0 st) OpCode.RET
  | ASTNode.mk _ _ _ _, st => st

/-- The statement loop of GenStatement's Block case. -/
def GenStatements : List (Option ASTNode) → GenSt → GenSt
  | [], st => st
  | c :: rest, st =>
    GenStatements rest
      (match c with
       | Option.none => st
       | Option.some m => GenStatementN m st)

/-- RPNGenerator::GenIf, operating on the If node's children.  Fewer than
two children is UB in C++ (never produced by the parser); modelled as a
no-op. -/
def GenIf : List (Option ASTNode) → GenSt → GenSt
  | c0 :: c1 :: rest, st =>
    let p1 := NewLabel st
    let p2 := NewLabel p1.2
    let endLabel := p1.1
    let nextLabel := p2.1
    let st := p2.2
    let st := GenExpression c0 st
    let st := emit st OpCode.JZ nextLabel
    let st := match c1 with
              | Option.none => st
              | Option.some m => GenStatementN m st
    let st := emit st OpCode.JMP endLabel
    let st := emit st OpCode.LABEL nextLabel
    let st := GenIfRest rest endLabel st
    emit st OpCode.LABEL endLabel
  | _, st => st

/-- The else / else-if loop of GenIf (children from index 2 on).  An
ElseIf with fewer than two children is UB in C++; modelled as skipping
that child. -/
def GenIfRest : List (Option ASTNode) → String → GenSt → GenSt
  | [], _, st => st
  | Option.some (ASTNode.mk NodeKind.ElseIf _ _ (e0 :: e1 :: _)) :: rest, endLabel, st =>
    let p := NewLabel st
    let elseIfNext := p.1
    let st := p.2
    let st := GenExpression e0 st
    let st := emit st OpCode.JZ elseIfNext
    let st := match e1 with
              | Option.none => st
              | Option.some m => GenStatementN m st
    let st := emit st OpCode.JMP endLabel
    let st := emit st OpCode.LABEL elseIfNext
    GenIfRest rest endLabel st
  | Option.some (ASTNode.mk NodeKind.ElseIf _ _ _) :: rest, endLabel, st =>
    GenIfRest rest endLabel st
  | c :: rest, endLabel, st =>
    GenIfRest rest endLabel
      (match c with
       | Option.none => st
       | Option.some m => GenStatementN m st)

end

/-- RPNGenerator::GenStatement (`if (!node) return;`). -/
def GenStatement : Option ASTNode → GenSt → GenSt
  | Option.none, st => st
  | Option.some n, st => GenStatementN n st

/-- RPNGenerator::GenFunction. -/
def GenFunction (n : ASTNode) (st : GenSt) : GenSt :=
  let st := emit st OpCode.LABEL n.text
  let paramNames := ((n.children.drop 1).dropLast).map optText
  let st := paramNames.reverse.foldl (fun st p => emit st OpCode.STORE p) st
  let st :=
    if n.children.isEmpty then st
    else GenStatement (childOpt n.children (n.children.length - 1)) st
  match st.code.getLast? with
  | Option.none => emit st OpCode.RET
  | Option.some i => if i.op ≠ OpCode.RET then emit st OpCode.RET else st

/-- RPNGenerator::GenNode. -/
def GenNode : Option ASTNode → GenSt → GenSt
  | Option.none, st => st
  | Option.some n, st =>
    if n.kind = NodeKind.Function then GenFunction n st
    else GenStatementN n st

def GenNodes : List (Option ASTNode) → GenSt → GenSt
  | [], st => st
  | c :: rest, st => GenNodes rest (GenNode c st)

/-- RPNGenerator::Generate: reset the state, then lower every top-level
child of the root in order. -/
def Generate (root : Option ASTNode) : List Instruction :=
  match root with
  | Option.none => []
  | Option.some r =>
    (GenNodes r.children { code := [], labelCounter := 0,
                           breakLabels := [], continueLabels := [] }).code

end Petukh

namespace Petukh

/-! ## Semantic analyzer (src/semantics/SemanticAnalyzer.cpp)

The C++ analyzer keeps a linked chain of heap-allocated `Scope`s; the
model keeps the same chain as a list with the current scope at the head.
`std::map` symbol tables are association lists (insertion appends; the
C++ never observes the key order).  As for the generator, a child index
out of range or a null dereference is UB in C++ and is modelled as a
no-op / `UNKNOWN`; the wrappers `CheckExpression` / `CheckStatement`
carry the null cases. -/

inductive TypeKind where
  | INT
  | CHAR
  | DOUBLE
  | STRING
  | VOID
  | UNKNOWN
deriving DecidableEq, Repr

structure Symbol where
  name : String
  type : TypeKind
  isArray : Bool
  isFunction : Bool
  paramTypes : List TypeKind := []
  paramIsArray : List Bool := []
deriving DecidableEq, Repr

structure AnSt where
  scopes : List (List (String × Symbol))
  errors : List String
  inFunction : Bool
  loopDepth : Int
  currentReturnType : TypeKind
deriving Repr

def AnError (st : AnSt) (msg : String) : AnSt :=
  { st with errors := st.errors ++ [msg] }

def EnterScope (st : AnSt) : AnSt :=
  { st with scopes := [] :: st.scopes }

def ExitScope (st : AnSt) : AnSt :=
  { st with scopes := st.scopes.tail }

/-- Scope::Declare on the current (innermost) scope: fails iff the name is
already present there.  The analyzer always has an open scope; the
no-scope case cannot arise and declares nothing. -/
def Declare (st : AnSt) (sym : Symbol) : Bool × AnSt :=
  match st.scopes with
  | [] => (false, st)
  | sc :: rest =>
    if (lookupA sc sym.name).isSome then (false, st)
    else (true, { st with scopes := (sc ++ [(sym.name, sym)]) :: rest })

/-- Scope::Lookup: walk the scope chain outwards. -/
def LookupSym : List (List (String × Symbol)) → String → Option Symbol
  | [], _ => Option.none
  | sc :: rest, name =>
    match lookupA sc name with
    | Option.some s => Option.some s
    | Option.none => LookupSym rest name

/-- SemanticAnalyzer::NodeToType (null gives UNKNOWN). -/
def NodeToType (t : Option ASTNode) : TypeKind :=
  match t with
  | Option.none => TypeKind.UNKNOWN
  | Option.some n =>
    if n.kind = NodeKind.TypeNode then
      if n.text == "int" then TypeKind.INT
      else if n.text == "char" then TypeKind.CHAR
      else if n.text == "double" then TypeKind.DOUBLE
      else if n.text == "string" then TypeKind.STRING
      else if n.text == "void" then TypeKind.VOID
      else TypeKind.UNKNOWN
    else TypeKind.UNKNOWN

/-- SemanticAnalyzer::DeclareVar. -/
def DeclareVar (st : AnSt) (name : String) (isArr : Bool) (t : TypeKind) : AnSt :=
  let sym : Symbol := { name := name, type := t, isArray := isArr, isFunction := false }
  let p := Declare st sym
  if p.1 then p.2 else AnError p.2 ("Duplicate variable: " ++ name)

def optChildren : Option ASTNode → List (Option ASTNode)
  | Option.none => []
  | Option.some n => n.children

def optIsArray : Option ASTNode → Bool
  | Option.none => false
  | Option.some n => n.isArray

/-- Element `cs.back()` of a child vector (null when absent, which in C++
would be UB). -/
def lastChild (cs : List (Option ASTNode)) : Option ASTNode :=
  (cs.getLast?).getD Option.none

/-- SemanticAnalyzer::CollectArgs, counting the argument leaves: a
CommaExpr with exactly two children is flattened recursively, any other
CommaExpr contributes nothing, a null contributes nothing, anything else
is one argument. -/
def CountArgs : ASTNode → Nat
  | ASTNode.mk NodeKind.CommaExpr _ _ [c0, c1] =>
    (match c0 with
     | Option.none => 0
     | Option.some m => CountArgs m) +
    (match c1 with
     | Option.none => 0
     | Option.some m => CountArgs m)
  | ASTNode.mk NodeKind.CommaExpr _ _ _ => 0
  | ASTNode.mk _ _ _ _ => 1
termination_by structural n => n

/-- The operator classification inside CheckExpression's Binary case
(relational and equality first, then string, then arithmetic). -/
def BinaryResult (op : String) (l r : TypeKind) (st : AnSt) : TypeKind × AnSt :=
  if l = TypeKind.UNKNOWN ∨ r = TypeKind.UNKNOWN then (TypeKind.UNKNOWN, st)
  else if op == "<" || op == "<=" || op == ">" || op == ">=" ||
          op == "==" || op == "!=" then
    if (l = TypeKind.INT ∨ l = TypeKind.DOUBLE) ∧
       (r = TypeKind.INT ∨ r = TypeKind.DOUBLE) then (TypeKind.INT, st)
    else if l = TypeKind.STRING ∧ r = TypeKind.STRING ∧ (op == "==" || op == "!=") then
      (TypeKind.INT, st)
    else (TypeKind.UNKNOWN, AnError st "invalid operands to comparison operator")
  else if l = TypeKind.STRING ∨ r = TypeKind.STRING then
    if op == "+" ∧ l = TypeKind.STRING ∧ r = TypeKind.STRING then (TypeKind.STRING, st)
    else (TypeKind.UNKNOWN, AnError st "invalid binary operation with string")
  else if (l = TypeKind.INT ∨ l = TypeKind.DOUBLE) ∧
          (r = TypeKind.INT ∨ r = TypeKind.DOUBLE) then
    if l = TypeKind.DOUBLE ∨ r = TypeKind.DOUBLE then (TypeKind.DOUBLE, st)
    else (TypeKind.INT, st)
  else (TypeKind.UNKNOWN, AnError st "incompatible binary operand types")


mutual

/-- SemanticAnalyzer::CheckExpression on a non-null node; returns the
inferred type and the updated (error-accumulating) state. -/
def CheckExpressionN : ASTNode → AnSt → TypeKind × AnSt
  | ASTNode.mk NodeKind.Number t _ _, st =>
    if IsFloatingLiteral t then (TypeKind.DOUBLE, st) else (TypeKind.INT, st)
  | ASTNode.mk NodeKind.String _ _ _, st => (TypeKind.STRING, st)
  | ASTNode.mk NodeKind.Identifier t _ _, st =>
    (match LookupSym st.scopes t with
     | Option.none => (TypeKind.UNKNOWN, AnError st ("Undeclared variable: " ++ t))
     | Option.some s =>
       if s.isFunction then (TypeKind.UNKNOWN, AnError st ("Function used as value: " ++ t))
       else (s.type, st))
  | ASTNode.mk NodeKind.Unary _ _ (c0 :: _), st =>
    (match c0 with
     | Option.none => (TypeKind.UNKNOWN, st)
     | Option.some m => CheckExpressionN m st)
  | ASTNode.mk NodeKind.Unary _ _ [], st => (TypeKind.UNKNOWN, st)
  | ASTNode.mk NodeKind.CommaExpr _ _ (c0 :: c1 :: _), st =>
    let p := match c0 with
             | Option.none => (TypeKind.UNKNOWN, st)
             | Option.some m => CheckExpressionN m st
    (match c1 with
     | Option.none => (TypeKind.UNKNOWN, p.2)
     | Option.some m => CheckExpressionN m p.2)
  | ASTNode.mk NodeKind.CommaExpr _ _ _, st => (TypeKind.UNKNOWN, st)
  | ASTNode.mk NodeKind.Assign _ _ (clhs :: crhs :: _), st =>
    let st0 :=
      if optKind clhs ≠ NodeKind.Identifier ∧ optKind clhs ≠ NodeKind.Index then
        AnError st "Invalid assignment target"
      else st
    let pl := match clhs with
              | Option.none => (TypeKind.UNKNOWN, st0)
              | Option.some m => CheckExpressionN m st0
    let pr := match crhs with
              | Option.none => (TypeKind.UNKNOWN, pl.2)
              | Option.some m => CheckExpressionN m pl.2
    let lt := pl.1
    let rt := pr.1
    let st1 :=
      if lt ≠ rt ∧ ¬(lt = TypeKind.DOUBLE ∧ rt = TypeKind.INT) ∧
         lt ≠ TypeKind.UNKNOWN ∧ rt ≠ TypeKind.UNKNOWN then
        AnError pr.2 "Assignment type mismatch"
      else pr.2
    (lt, st1)
  | ASTNode.mk NodeKind.Assign _ _ _, st => (TypeKind.UNKNOWN, st)
  | ASTNode.mk NodeKind.Binary t _ (c0 :: c1 :: _), st =>
    let pl := match c0 with
              | Option.none => (TypeKind.UNKNOWN, st)
              | Option.some m => CheckExpressionN m st
    let pr := match c1 with
              | Option.none => (TypeKind.UNKNOWN, pl.2)
              | Option.some m => CheckExpressionN m pl.2
    (BinaryResult t pl.1 pr.1 pr.2)
  | ASTNode.mk NodeKind.Binary _ _ _, st => (TypeKind.UNKNOWN, st)
  | ASTNode.mk NodeKind.Index _ _ (c0 :: c1 :: _), st =>
    let pb := match c0 with
              | Option.none => (TypeKind.UNKNOWN, st)
              | Option.some m => CheckExpressionN m st
    let pi := match c1 with
              | Option.none => (TypeKind.UNKNOWN, pb.2)
              | Option.some m => CheckExpressionN m pb.2
    let st1 := if pi.1 ≠ TypeKind.INT then AnError pi.2 "Array index must be int" else pi.2
    let st2 :=
      if optKind c0 = NodeKind.Identifier then
        match LookupSym st1.scopes (optText c0) with
        | Option.some s =>
          if ¬s.isArray then AnError st1 ("Indexing non-array variable: " ++ optText c0)
          else st1
        | Option.none => st1
      else st1
    (pb.1, st2)
  | ASTNode.mk NodeKind.Index _ _ _, st => (TypeKind.UNKNOWN, st)
  | ASTNode.mk NodeKind.Call _ _ [], st => (TypeKind.UNKNOWN, st)
  | ASTNode.mk NodeKind.Call _ _ (Option.none :: _), st => (TypeKind.UNKNOWN, st)
  | ASTNode.mk NodeKind.Call _ _ (Option.some callee :: rest), st =>
    if callee.kind ≠ NodeKind.Identifier then
      (TypeKind.UNKNOWN, AnError st "Call target must be a function name")
    else
      match LookupSym st.scopes callee.text with
      | Option.none =>
        (TypeKind.UNKNOWN, AnError st ("Call to undeclared function: " ++ callee.text))
      | Option.some s =>
        if ¬s.isFunction then
          (TypeKind.UNKNOWN, AnError st ("Call of non-function: " ++ callee.text))
        else
          let nArgs : Nat :=
            match rest with
            | [] => 0
            | argRoot :: _ =>
              match argRoot with
              | Option.none => 0
              | Option.some m => CountArgs m
          let st1 :=
            if nArgs ≠ s.paramTypes.length then
              AnError st ("wrong number of arguments in call to " ++ callee.text ++
                " (expected " ++ Nat.repr s.paramTypes.length ++
                ", got " ++ Nat.repr nArgs ++ ")")
            else st
          let st2 :=
            match rest with
            | [] => st1
            | argRoot :: _ => (CheckArgsFlat argRoot s.paramTypes callee.text 0 st1).2
          (s.type, st2)
  | ASTNode.mk _ _ _ _, st => (TypeKind.UNKNOWN, st)
termination_by structural n _ => n

/-- The flattened-argument type-check loop of the Call case: visits the
CollectArgs leaves in order, carrying the running argument index (a null
leaf contributes nothing, exactly as in CollectArgs). -/
def CheckArgsFlat : Option ASTNode → List TypeKind → String → Nat → AnSt → Nat × AnSt
  | Option.none, _, _, i, st => (i, st)
  | Option.some (ASTNode.mk NodeKind.CommaExpr _ _ [c0, c1]), ps, fname, i, st =>
    let p1 := CheckArgsFlat c0 ps fname i st
    CheckArgsFlat c1 ps fname p1.1 p1.2
  | Option.some (ASTNode.mk NodeKind.CommaExpr _ _ _), _, _, i, st => (i, st)
  | Option.some n, ps, fname, i, st =>
    let p := CheckExpressionN n st
    let st1 :=
      match ps.get? i with
      | Option.none => p.2
      | Option.some pt =>
        if p.1 ≠ pt ∧ ¬(pt = TypeKind.DOUBLE ∧ p.1 = TypeKind.INT) ∧
           p.1 ≠ TypeKind.UNKNOWN then
          AnError p.2 ("argument " ++ Nat.repr (i + 1) ++
            " type mismatch in call to " ++ fname)
        else p.2
    (i + 1, st1)
termination_by structural n _ _ _ _ => n

end

/-- SemanticAnalyzer::CheckExpression (a null argument is UB in C++,
modelled as UNKNOWN with no diagnostic). -/
def CheckExpression : Option ASTNode → AnSt → TypeKind × AnSt
  | Option.none, st => (TypeKind.UNKNOWN, st)
  | Option.some n, st => CheckExpressionN n st

/-- SemanticAnalyzer::CheckVarDeclList's declarator loop (children[1..]
with the declared type already resolved). -/
def CheckVarDecls (declared : TypeKind) : List (Option ASTNode) → AnSt → AnSt
  | [], st => st
  | Option.none :: rest, st => CheckVarDecls declared rest st
  | Option.some (ASTNode.mk _ vtext varr vcs) :: rest, st =>
    let st1 := DeclareVar st vtext varr declared
    let st2 :=
      match vcs with
      | [] => st1
      | c0 :: _ =>
        let p :=
          match c0 with
          | Option.none => (TypeKind.UNKNOWN, st1)
          | Option.some m => CheckExpressionN m st1
        if declared = TypeKind.UNKNOWN ∨ p.1 = TypeKind.UNKNOWN then p.2
        else if declared = p.1 then p.2
        else if declared = TypeKind.DOUBLE ∧ p.1 = TypeKind.INT then p.2
        else AnError p.2 "initializer type mismatch"
    CheckVarDecls declared rest st2
termination_by structural cs _ => cs

def incLoop (st : AnSt) : AnSt := { st with loopDepth := st.loopDepth + 1 }

def decLoop (st : AnSt) : AnSt := { st with loopDepth := st.loopDepth - 1 }

mutual

/-- SemanticAnalyzer::CheckStatement on a non-null node. -/
def CheckStatementN : ASTNode → AnSt → AnSt
  | ASTNode.mk NodeKind.ExprStmt _ _ [], st => st
  | ASTNode.mk NodeKind.ExprStmt _ _ (c0 :: _), st =>
    (match c0 with
     | Option.none => st
     | Option.some m => CheckStatementN m st)
  | ASTNode.mk NodeKind.Block _ _ cs, st => ExitScope (CheckStatements cs (EnterScope st))
  | ASTNode.mk NodeKind.VarDeclList _ _ [], st => st
  | ASTNode.mk NodeKind.VarDeclList _ _ (t0 :: vars), st =>
    CheckVarDecls (NodeToType t0) vars st
  | ASTNode.mk NodeKind.Return _ _ cs, st =>
    if ¬st.inFunction then AnError st "return outside of function"
    else
      (match cs with
       | [] =>
         if st.currentReturnType ≠ TypeKind.VOID then AnError st "Missing return value"
         else st
       | c0 :: _ =>
         let p := CheckExpression c0 st
         if p.1 ≠ st.currentReturnType ∧
            ¬(st.currentReturnType = TypeKind.DOUBLE ∧ p.1 = TypeKind.INT) then
           AnError p.2 "Return type mismatch"
         else p.2)
  | ASTNode.mk NodeKind.Break _ _ _, st =>
    if st.loopDepth ≤ 0 then AnError st "break/continue outside loop" else st
  | ASTNode.mk NodeKind.Continue _ _ _, st =>
    if st.loopDepth ≤ 0 then AnError st "break/continue outside loop" else st
  | ASTNode.mk NodeKind.While _ _ [], st => decLoop (incLoop st)
  | ASTNode.mk NodeKind.While _ _ (c0 :: rest), st =>
    let p := CheckExpression c0 st
    let st1 :=
      if p.1 ≠ TypeKind.INT ∧ p.1 ≠ TypeKind.UNKNOWN then
        AnError p.2 "While condition must be int"
      else p.2
    decLoop (CheckStatements rest (incLoop st1))
  | ASTNode.mk NodeKind.DoWhile _ _ cs, st =>
    let st1 := incLoop st
    let st2 := CheckStmtsButLast cs st1
    let st3 := decLoop st2
    (match cs with
     | [] => st3
     | _ :: _ =>
       let p := CheckExpression (lastChild cs) st3
       if p.1 ≠ TypeKind.INT ∧ p.1 ≠ TypeKind.UNKNOWN then
         AnError p.2 "Do-while condition must be int"
       else p.2)
  | ASTNode.mk NodeKind.For _ _ (c0 :: c1 :: c2 :: c3 :: _), st =>
    let st := EnterScope st
    let st := match c0 with
              | Option.none => st
              | Option.some m => CheckStatementN m st
    let st :=
      match c1 with
      | Option.none => st
      | Option.some m =>
        let p := CheckExpressionN m st
        if p.1 ≠ TypeKind.INT ∧ p.1 ≠ TypeKind.UNKNOWN then
          AnError p.2 "For loop condition must be an integer expression"
        else p.2
    let st :=
      match c2 with
      | Option.none => st
      | Option.some m => (CheckExpressionN m st).2
    let st := incLoop st
    let st := match c3 with
              | Option.none => st
              | Option.some m => CheckStatementN m st
    let st := decLoop st
    ExitScope st
  | ASTNode.mk NodeKind.For _ _ _, st => st
  | ASTNode.mk NodeKind.If _ _ cs, st =>
    let st1 :=
      match cs with
      | [] => st
      | c0 :: _ =>
        let p := CheckExpression c0 st
        if p.1 ≠ TypeKind.INT ∧ p.1 ≠ TypeKind.UNKNOWN then
          AnError p.2 "If condition must be int"
        else p.2
    CheckStatements cs st1
  | ASTNode.mk NodeKind.ElseIf _ _ cs, st =>
    let st1 :=
      match cs with
      | [] => st
      | c0 :: _ =>
        let p := CheckExpression c0 st
        if p.1 ≠ TypeKind.INT ∧ p.1 ≠ TypeKind.UNKNOWN then
          AnError p.2 "If condition must be int"
        else p.2
    CheckStatements cs st1
  | ASTNode.mk NodeKind.Assign t a cs, st =>
    (CheckExpressionN (ASTNode.mk NodeKind.Assign t a cs) st).2
  | ASTNode.mk NodeKind.Binary t a cs, st =>
    (CheckExpressionN (ASTNode.mk NodeKind.Binary t a cs) st).2
  | ASTNode.mk NodeKind.Call t a cs, st =>
    (CheckExpressionN (ASTNode.mk NodeKind.Call t a cs) st).2
  | ASTNode.mk _ _ _ _, st => st
termination_by structural n _ => n

/-- Statement loops (`for (auto &c : children) CheckStatement(c.get())`);
a null entry is UB in C++ and is skipped. -/
def CheckStatements : List (Option ASTNode) → AnSt → AnSt
  | [], st => st
  | c :: rest, st =>
    CheckStatements rest
      (match c with
       | Option.none => st
       | Option.some m => CheckStatementN m st)
termination_by structural cs _ => cs

/-- DoWhile body loop (`for i; i + 1 < size; ++i`): checks every child
except the last (the condition). -/
def CheckStmtsButLast : List (Option ASTNode) → AnSt → AnSt
  | [], st => st
  | c :: rest, st =>
    let st1 :=
      if rest.isEmpty then st
      else
        match c with
        | Option.none => st
        | Option.some m => CheckStatementN m st
    CheckStmtsButLast rest st1
termination_by structural cs _ => cs

end

/-- SemanticAnalyzer::CheckStatement (a null argument is UB in C++,
modelled as a no-op). -/
def CheckStatement : Option ASTNode → AnSt → AnSt
  | Option.none, st => st
  | Option.some n, st => CheckStatementN n st

/-- SemanticAnalyzer::CheckFunction. -/
def CheckFunction (n : ASTNode) (st : AnSt) : AnSt :=
  let st := { st with inFunction := true }
  let st := EnterScope st
  let st := { st with currentReturnType := NodeToType (childOpt n.children 0) }
  let args := (n.children.drop 1).dropLast
  let st := args.foldl
    (fun st arg =>
      match arg with
      | Option.none => st
      | Option.some a => DeclareVar st a.text a.isArray (NodeToType (childOpt a.children 0)))
    st
  let st := CheckStatement (lastChild n.children) st
  let st := ExitScope st
  { st with currentReturnType := TypeKind.VOID, inFunction := false }

/-- The built-in I/O predeclarations at the top of Analyze. -/
def DeclareBuiltins (st : AnSt) : AnSt :=
  let d := fun (st : AnSt) (name : String) (ret : TypeKind) (ps : List TypeKind) =>
    (Declare st { name := name, type := ret, isArray := false, isFunction := true,
                  paramTypes := ps, paramIsArray := ps.map (fun _ => false) }).2
  let st := d st "printInt" TypeKind.VOID [TypeKind.INT]
  let st := d st "printDouble" TypeKind.VOID [TypeKind.DOUBLE]
  let st := d st "printStr" TypeKind.VOID [TypeKind.STRING]
  let st := d st "inputInt" TypeKind.INT []
  let st := d st "inputDouble" TypeKind.DOUBLE []
  let st := d st "inputStr" TypeKind.STRING []
  st

/-- The function pre-declaration pass (first loop of Analyze). -/
def PredeclareFunction (st : AnSt) (child : Option ASTNode) : AnSt :=
  match child with
  | Option.none => st
  | Option.some c =>
    if c.kind = NodeKind.Function then
      let args := (c.children.drop 1).dropLast
      let sym : Symbol :=
        args.foldl
          (fun sym arg =>
            { sym with
              paramTypes := sym.paramTypes ++ [NodeToType (childOpt (optChildren arg) 0)],
              paramIsArray := sym.paramIsArray ++ [optIsArray arg] })
          { name := c.text, type := NodeToType (childOpt c.children 0),
            isArray := false, isFunction := true }
      let p := Declare st sym
      if p.1 then p.2 else AnError p.2 ("Duplicate function: " ++ c.text)
    else st

/-- SemanticAnalyzer::Analyze: open the global scope, predeclare
built-ins and functions, then check everything; returns the diagnostics
in order. -/
def Analyze (root : ASTNode) : List String :=
  let st : AnSt := { scopes := [[]], errors := [], inFunction := false,
                     loopDepth := 0, currentReturnType := TypeKind.VOID }
  let st := DeclareBuiltins st
  let st := root.children.foldl PredeclareFunction st
  let st := root.children.foldl
    (fun st child =>
      match child with
      | Option.none => st
      | Option.some c =>
        if c.kind = NodeKind.Function then CheckFunction c st
        else CheckStatementN c st)
    st
  let st := ExitScope st
  st.errors

end Petukh

namespace Petukh

/-! ## Tokens (src/lexer/Token.h) -/

inductive TokenType where
  | KW_IF
  | KW_ELSE
  | KW_FOR
  | KW_WHILE
  | KW_DO
  | KW_FN
  | KW_INT
  | KW_CHAR
  | KW_DOUBLE
  | KW_STRING
  | KW_RETURN
  | KW_BREAK
  | KW_CONTINUE
  | IDENTIFIER
  | NUMBER
  | STRING_LITERAL
  | PLUS
  | MINUS
  | STAR
  | SLASH
  | PERCENT
  | ASSIGN
  | EQ
  | NEQ
  | LT
  | GT
  | LE
  | GE
  | LPAREN
  | RPAREN
  | LBRACE
  | RBRACE
  | LBRACKET
  | RBRACKET
  | COMMA
  | SEMICOLON
  | END_OF_FILE
  | UNKNOWN
deriving DecidableEq, Repr

structure Token where
  type : TokenType
  text : String
  line : Int
  col : Int
deriving DecidableEq, Repr

/-! ## Keyword trie (src/lexer/Trie.h, Trie.cpp)

`keyword_id` is `-1` until a terminal insert sets it; the model stores
`Option TokenType` (the ids inserted are exactly the `TokenType` keyword
tags).  The `unordered_map` child table is an association list (only
lookups observe it). -/

inductive TrieNode where
  | mk (is_terminal : Bool) (keyword_id : Option TokenType)
       (next : List (Char × TrieNode))

def trieLookup (next : List (Char × TrieNode)) (c : Char) : Option TrieNode :=
  match next with
  | [] => Option.none
  | (c', n) :: rest => if c' == c then Option.some n else trieLookup rest c

def trieSet (next : List (Char × TrieNode)) (c : Char) (n : TrieNode) :
    List (Char × TrieNode) :=
  match next with
  | [] => [(c, n)]
  | (c', n') :: rest => if c' == c then (c, n) :: rest else (c', n') :: trieSet rest c n

/-- Trie::Insert. -/
def trieInsert : TrieNode → List Char → TokenType → TrieNode
  | TrieNode.mk _ _ next, [], kw => TrieNode.mk true (Option.some kw) next
  | TrieNode.mk term id next, c :: rest, kw =>
    let child :=
      match trieLookup next c with
      | Option.some n => n
      | Option.none => TrieNode.mk false Option.none []
    TrieNode.mk term id (trieSet next c (trieInsert child rest kw))

/-- Trie::Match (`-1` becomes `none`). -/
def trieMatch : TrieNode → List Char → Option TokenType
  | TrieNode.mk term id _, [] => if term then id else Option.none
  | TrieNode.mk _ _ next, c :: rest =>
    match trieLookup next c with
    | Option.none => Option.none
    | Option.some child => trieMatch child rest

/-- Lexer::InitTrie. -/
def keywordTrie : TrieNode :=
  let t := TrieNode.mk false Option.none []
  let t := trieInsert t "if".data TokenType.KW_IF
  let t := trieInsert t "else".data TokenType.KW_ELSE
  let t := trieInsert t "for".data TokenType.KW_FOR
  let t := trieInsert t "while".data TokenType.KW_WHILE
  let t := trieInsert t "do".data TokenType.KW_DO
  let t := trieInsert t "fn".data TokenType.KW_FN
  let t := trieInsert t "int".data TokenType.KW_INT
  let t := trieInsert t "char".data TokenType.KW_CHAR
  let t := trieInsert t "double".data TokenType.KW_DOUBLE
  let t := trieInsert t "string".data TokenType.KW_STRING
  let t := trieInsert t "return".data TokenType.KW_RETURN
  let t := trieInsert t "break".data TokenType.KW_BREAK
  let t := trieInsert t "continue".data TokenType.KW_CONTINUE
  t

/-! ## Lexer (src/lexer/Lexer.cpp)

Byte classification follows the C locale (`isspace`, `isalpha`,
`isdigit` over ASCII).  Every scanning loop runs on fuel
`remaining characters + 1`, which it can never exhaust since each
iteration consumes a character. -/

def isSpaceC (c : Char) : Bool :=
  c == ' ' || c == '\t' || c == '\n' || c == '\x0b' || c == '\x0c' || c == '\r'

def isAlphaC (c : Char) : Bool :=
  ('A' ≤ c ∧ c ≤ 'Z') ∨ ('a' ≤ c ∧ c ≤ 'z')

def isDigitC (c : Char) : Bool :=
  '0' ≤ c ∧ c ≤ '9'

/-- Lexer::IsLetter. -/
def IsLetter (c : Char) : Bool :=
  isAlphaC c || c == '_'

structure LexSt where
  src : List Char
  pos : Nat
  line : Int
  col : Int
deriving Repr

def lexIsEnd (st : LexSt) : Bool :=
  st.src.length ≤ st.pos

/-- Lexer::Peek (NUL beyond the end). -/
def lexPeek (st : LexSt) (off : Nat := 0) : Char :=
  st.src.getD (st.pos + off) '\x00'

/-- Lexer::Get: consume one byte, tracking line and column. -/
def lexGet (st : LexSt) : Char × LexSt :=
  let c := lexPeek st
  if c == '\n' then (c, { st with pos := st.pos + 1, line := st.line + 1, col := 1 })
  else (c, { st with pos := st.pos + 1, col := st.col + 1 })

def skipWsF : Nat → LexSt → LexSt
  | 0, st => st
  | fuel + 1, st =>
    if ¬lexIsEnd st ∧ isSpaceC (lexPeek st) then skipWsF fuel (lexGet st).2
    else st

/-- Lexer::SkipWhitespace. -/
def SkipWhitespace (st : LexSt) : LexSt :=
  skipWsF (st.src.length - st.pos + 1) st

/-- Lexer::Make (the line is the current one, the column the given start). -/
def lexMake (st : LexSt) (t : TokenType) (text : String) (startCol : Int) : Token :=
  { type := t, text := text, line := st.line, col := startCol }

def identScanF : Nat → LexSt → List Char → List Char × LexSt
  | 0, st, acc => (acc, st)
  | fuel + 1, st, acc =>
    if ¬lexIsEnd st ∧ (IsLetter (lexPeek st) || isDigitC (lexPeek st) || lexPeek st == '_') then
      let p := lexGet st
      identScanF fuel p.2 (acc ++ [p.1])
    else (acc, st)

/-- Lexer::Identifier (keyword-trie hit gives the keyword token). -/
def lexIdentifier (st : LexSt) : Token × LexSt :=
  let startCol := st.col
  let p := identScanF (st.src.length - st.pos + 1) st []
  let text := String.mk p.1
  match trieMatch keywordTrie p.1 with
  | Option.some kw => (lexMake p.2 kw text startCol, p.2)
  | Option.none => (lexMake p.2 TokenType.IDENTIFIER text startCol, p.2)

def digitScanF : Nat → LexSt → List Char → List Char × LexSt
  | 0, st, acc => (acc, st)
  | fuel + 1, st, acc =>
    if ¬lexIsEnd st ∧ isDigitC (lexPeek st) then
      let p := lexGet st
      digitScanF fuel p.2 (acc ++ [p.1])
    else (acc, st)

/-- Lexer::Number: digits, then a fraction only when a '.' is directly
followed by a digit.  No exponents. -/
def lexNumber (st : LexSt) : Token × LexSt :=
  let startCol := st.col
  let p := digitScanF (st.src.length - st.pos + 1) st []
  let st1 := p.2
  if ¬lexIsEnd st1 ∧ lexPeek st1 == '.' ∧ isDigitC (lexPeek st1 1) then
    let q := lexGet st1
    let r := digitScanF (q.2.src.length - q.2.pos + 1) q.2 (p.1 ++ [q.1])
    (lexMake r.2 TokenType.NUMBER (String.mk r.1) startCol, r.2)
  else
    (lexMake st1 TokenType.NUMBER (String.mk p.1) startCol, st1)

def strScanF : Nat → LexSt → List Char → List Char × LexSt
  | 0, st, acc => (acc, st)
  | fuel + 1, st, acc =>
    if ¬lexIsEnd st ∧ lexPeek st != '"' then
      let p := lexGet st
      strScanF fuel p.2 (acc ++ [p.1])
    else (acc, st)

/-- Lexer::StringLiteral: no escape processing; an unterminated literal
keeps what was collected. -/
def lexStringLiteral (st : LexSt) : Token × LexSt :=
  let startCol := st.col
  let st1 := (lexGet st).2
  let p := strScanF (st1.src.length - st1.pos + 1) st1 []
  let st2 := (lexGet p.2).2
  (lexMake st2 TokenType.STRING_LITERAL (String.mk p.1) startCol, st2)

/-- Lexer::Symbol: two-character operators win over their one-character
prefixes; a lone '!' (or anything unrecognised) is UNKNOWN. -/
def lexSymbol (st : LexSt) : Token × LexSt :=
  let p := lexGet st
  let c := p.1
  let st1 := p.2
  let startCol := st1.col - 1
  let one := fun (t : TokenType) (s : String) => (lexMake st1 t s startCol, st1)
  if c == '+' then one TokenType.PLUS "+"
  else if c == '-' then one TokenType.MINUS "-"
  else if c == '*' then one TokenType.STAR "*"
  else if c == '/' then one TokenType.SLASH "/"
  else if c == '%' then one TokenType.PERCENT "%"
  else if c == '(' then one TokenType.LPAREN "("
  else if c == ')' then one TokenType.RPAREN ")"
  else if c == '\x7b' then one TokenType.LBRACE (String.mk ['\x7b'])
  else if c == '\x7d' then one TokenType.RBRACE (String.mk ['\x7d'])
  else if c == '[' then one TokenType.LBRACKET "["
  else if c == ']' then one TokenType.RBRACKET "]"
  else if c == ',' then one TokenType.COMMA ","
  else if c == ';' then one TokenType.SEMICOLON ";"
  else if c == '=' then
    if lexPeek st1 == '=' then
      let q := lexGet st1
      (lexMake q.2 TokenType.EQ "==" startCol, q.2)
    else one TokenType.ASSIGN "="
  else if c == '!' then
    if lexPeek st1 == '=' then
      let q := lexGet st1
      (lexMake q.2 TokenType.NEQ "!=" startCol, q.2)
    else one TokenType.UNKNOWN (String.mk [c])
  else if c == '<' then
    if lexPeek st1 == '=' then
      let q := lexGet st1
      (lexMake q.2 TokenType.LE "<=" startCol, q.2)
    else one TokenType.LT "<"
  else if c == '>' then
    if lexPeek st1 == '=' then
      let q := lexGet st1
      (lexMake q.2 TokenType.GE ">=" startCol, q.2)
    else one TokenType.GT ">"
  else one TokenType.UNKNOWN (String.mk [c])

/-- Lexer::NextToken (the peek buffer is only exercised by PeekToken,
which Tokenize never uses; it is omitted). -/
def NextToken (st : LexSt) : Token × LexSt :=
  let st := SkipWhitespace st
  if lexIsEnd st then (lexMake st TokenType.END_OF_FILE "" st.col, st)
  else
    let c := lexPeek st
    if IsLetter c then lexIdentifier st
    else if isDigitC c then lexNumber st
    else if c == '"' then lexStringLiteral st
    else lexSymbol st

def tokenizeF : Nat → LexSt → List Token
  | 0, _ => []
  | fuel + 1, st =>
    let p := NextToken st
    if p.1.type = TokenType.END_OF_FILE then [p.1]
    else p.1 :: tokenizeF fuel p.2

/-- Lexer::Tokenize: all tokens, ending with exactly one END_OF_FILE. -/
def Tokenize (src : String) : List Token :=
  tokenizeF (src.data.length + 2) { src := src.data, pos := 0, line := 1, col := 1 }

end Petukh

namespace Petukh

/-! ## Parser (src/parser/Parser.cpp)

Recursive descent with error accumulation and one-token recovery.  The
mutual recursion runs on an explicit fuel argument (first parameter);
the public `ParseProgram` supplies fuel that the concrete runs below
never exhaust (each nesting level of the grammar consumes input).  On
fuel exhaustion a dummy `Number "0"` node is returned. -/

structure PSt where
  tokens : List Token
  pos : Nat
  errors : List String
deriving Repr

def eofTok : Token := { type := TokenType.END_OF_FILE, text := "", line := 0, col := 0 }

/-- Parser::Peek (a synthetic EOF token past the end). -/
def pPeek (st : PSt) : Token :=
  st.tokens.getD st.pos eofTok

def pAdvance (st : PSt) : PSt :=
  if st.pos < st.tokens.length then { st with pos := st.pos + 1 } else st

def pIsAtEnd (st : PSt) : Bool :=
  (pPeek st).type = TokenType.END_OF_FILE

def pMatch (st : PSt) (t : TokenType) : Bool × PSt :=
  if (pPeek st).type = t then (true, pAdvance st) else (false, st)

def pMatchL (st : PSt) (ts : List TokenType) : Bool × PSt :=
  match ts with
  | [] => (false, st)
  | t :: rest => if (pPeek st).type = t then (true, pAdvance st) else pMatchL st rest

/-- Parser::AddError: message prefixed with the position of the current
token. -/
def pAddError (st : PSt) (msg : String) : PSt :=
  let t := pPeek st
  { st with errors := st.errors ++
      ["Line " ++ intToDecimal t.line ++ ", col " ++ intToDecimal t.col ++ ": " ++ msg] }

/-- Parser::Expect: on mismatch, record a diagnostic and recover by
consuming one token (unless at EOF), returning a dummy token carrying
the observed position.  (The C++ dummy/EOF tokens are function-local
statics; their one-time initialisation quirk is not observable through
the fields used downstream and is modelled per call.) -/
def pExpect (st : PSt) (t : TokenType) (errMsg : String) : Token × PSt :=
  if (pPeek st).type = t then (pPeek st, pAdvance st)
  else
    let msg0 := if errMsg == "" then "Syntax error: expected token" else errMsg
    let msg :=
      if (pPeek st).type ≠ TokenType.END_OF_FILE then
        msg0 ++ " at '" ++ (pPeek st).text ++ "'"
      else msg0
    let st1 := pAddError st msg
    if ¬pIsAtEnd st1 then
      let tk := pPeek st1
      ({ type := TokenType.UNKNOWN, text := "", line := tk.line, col := tk.col }, pAdvance st1)
    else
      ({ type := TokenType.END_OF_FILE, text := "", line := (pPeek st1).line,
         col := (pPeek st1).col }, st1)

/-- Parser::MakeTypeNode. -/
def MakeTypeNode (tok : Token) : Option ASTNode :=
  Option.some (ASTNode.mk NodeKind.TypeNode tok.text false [])

/-- `tokens_[pos_ - 1]` (guarded to index 0 where the C++ does so). -/
def prevTok (st : PSt) : Token :=
  st.tokens.getD (st.pos - 1) eofTok

def dummyNode : ASTNode := ASTNode.mk NodeKind.Number "0" false []

def typeKws : List TokenType :=
  [TokenType.KW_INT, TokenType.KW_CHAR, TokenType.KW_DOUBLE, TokenType.KW_STRING]

mutual

/-- Parser::ParseProgram's top-level loop. -/
def progLoopF : Nat → PSt → List (Option ASTNode) × PSt
  | 0, st => ([], st)
  | fuel + 1, st =>
    if pIsAtEnd st then ([], st)
    else
      let m := pMatch st TokenType.SEMICOLON
      if m.1 then progLoopF fuel m.2
      else
        let p := ParseTopLevelF fuel m.2
        let q := progLoopF fuel p.2
        (Option.some p.1 :: q.1, q.2)

/-- Parser::ParseTopLevel. -/
def ParseTopLevelF : Nat → PSt → ASTNode × PSt
  | 0, st => (dummyNode, st)
  | fuel + 1, st =>
    if (pPeek st).type = TokenType.KW_FN then ParseFunctionF fuel st
    else ParseStatementF fuel st

/-- Parser::ParseFunction. -/
def ParseFunctionF : Nat → PSt → ASTNode × PSt
  | 0, st => (dummyNode, st)
  | fuel + 1, st =>
    let e1 := pExpect st TokenType.KW_FN "expected 'fn'"
    let st := e1.2
    let m := pMatchL st typeKws
    let retTok :=
      if m.1 then prevTok m.2
      else { type := TokenType.KW_INT, text := "int",
             line := (pPeek m.2).line, col := (pPeek m.2).col }
    let st := if m.1 then m.2 else pAddError m.2 "expected return type after 'fn'"
    let e2 := pExpect st TokenType.IDENTIFIER "expected function name"
    let nameTok := e2.1
    let st := e2.2
    let e3 := pExpect st TokenType.LPAREN "expected '(' after function name"
    let st := e3.2
    let mr := pMatch st TokenType.RPAREN
    let args :=
      if mr.1 then ([], mr.2)
      else funArgsLoopF fuel mr.2
    let body := ParseBlockF fuel args.2
    (ASTNode.mk NodeKind.Function nameTok.text false
       (MakeTypeNode retTok :: (args.1 ++ [Option.some body.1])), body.2)

/-- The argument-list loop of ParseFunction. -/
def funArgsLoopF : Nat → PSt → List (Option ASTNode) × PSt
  | 0, st => ([], st)
  | fuel + 1, st =>
    let m := pMatchL st typeKws
    let argTypeTok :=
      if m.1 then prevTok m.2
      else { type := TokenType.KW_INT, text := "int",
             line := (pPeek m.2).line, col := (pPeek m.2).col }
    let st := if m.1 then m.2 else pAddError m.2 "expected argument type"
    let e := pExpect st TokenType.IDENTIFIER "expected argument name"
    let argNameTok := e.1
    let st := e.2
    let mb := pMatch st TokenType.LBRACKET
    let p :=
      if mb.1 then
        let e2 := pExpect mb.2 TokenType.RBRACKET "expected ']'"
        (true, e2.2)
      else (false, mb.2)
    let argNode := ASTNode.mk NodeKind.FuncArg argNameTok.text p.1 [MakeTypeNode argTypeTok]
    let mc := pMatch p.2 TokenType.COMMA
    if mc.1 then
      let rest := funArgsLoopF fuel mc.2
      (Option.some argNode :: rest.1, rest.2)
    else
      let e3 := pExpect mc.2 TokenType.RPAREN "expected ')' after arguments"
      ([Option.some argNode], e3.2)

/-- Parser::ParseBlock. -/
def ParseBlockF : Nat → PSt → ASTNode × PSt
  | 0, st => (dummyNode, st)
  | fuel + 1, st =>
    let e1 := pExpect st TokenType.LBRACE "expected '\x7b'"
    let p := blockLoopF fuel e1.2
    let e2 := pExpect p.2 TokenType.RBRACE "expected '\x7d'"
    (ASTNode.mk NodeKind.Block "Block" false p.1, e2.2)

/-- The statement loop of ParseBlock. -/
def blockLoopF : Nat → PSt → List (Option ASTNode) × PSt
  | 0, st => ([], st)
  | fuel + 1, st =>
    if pIsAtEnd st ∨ (pPeek st).type = TokenType.RBRACE then ([], st)
    else
      let m := pMatch st TokenType.SEMICOLON
      if m.1 then blockLoopF fuel m.2
      else
        let p := ParseStatementF fuel m.2
        let q := blockLoopF fuel p.2
        (Option.some p.1 :: q.1, q.2)

/-- Parser::ParseStatement. -/
def ParseStatementF : Nat → PSt → ASTNode × PSt
  | 0, st => (dummyNode, st)
  | fuel + 1, st =>
    match (pPeek st).type with
    | TokenType.LBRACE => ParseBlockF fuel st
    | TokenType.KW_IF => ParseIfF fuel st
    | TokenType.KW_WHILE => ParseWhileF fuel st
    | TokenType.KW_DO => ParseDoWhileF fuel st
    | TokenType.KW_FOR => ParseForF fuel st
    | TokenType.KW_RETURN => ParseReturnF fuel st
    | TokenType.KW_BREAK => ParseBreakF fuel st
    | TokenType.KW_CONTINUE => ParseContinueF fuel st
    | TokenType.KW_INT => ParseVarDeclListF fuel TokenType.KW_INT st
    | TokenType.KW_CHAR => ParseVarDeclListF fuel TokenType.KW_CHAR st
    | TokenType.KW_DOUBLE => ParseVarDeclListF fuel TokenType.KW_DOUBLE st
    | TokenType.KW_STRING => ParseVarDeclListF fuel TokenType.KW_STRING st
    | _ => ParseExprStmtF fuel st

/-- Parser::ParseVarDeclList. -/
def ParseVarDeclListF : Nat → TokenType → PSt → ASTNode × PSt
  | 0, _, st => (dummyNode, st)
  | fuel + 1, firstTypeTok, st =>
    let e1 := pExpect st firstTypeTok "expected type"
    let typeTok := prevTok e1.2
    let p := varLoopF fuel e1.2
    let e2 := pExpect p.2 TokenType.SEMICOLON "expected ';' after variable list"
    (ASTNode.mk NodeKind.VarDeclList "VarDeclList" false (MakeTypeNode typeTok :: p.1), e2.2)

/-- The declarator loop of ParseVarDeclList. -/
def varLoopF : Nat → PSt → List (Option ASTNode) × PSt
  | 0, st => ([], st)
  | fuel + 1, st =>
    let e := pExpect st TokenType.IDENTIFIER "expected variable name"
    let idTok := e.1
    let st := e.2
    let ma := pMatch st TokenType.ASSIGN
    let trip :=
      if ma.1 then
        let pe := ParseAssignmentF fuel ma.2
        let mb := pMatch pe.2 TokenType.LBRACKET
        if mb.1 then
          let ps := ParseExpressionF fuel mb.2
          let e2 := pExpect ps.2 TokenType.RBRACKET "expected ']'"
          (([Option.some pe.1, Option.some ps.1] : List (Option ASTNode)), true, e2.2)
        else (([Option.some pe.1] : List (Option ASTNode)), false, mb.2)
      else
        let mb := pMatch ma.2 TokenType.LBRACKET
        if mb.1 then
          let ps := ParseExpressionF fuel mb.2
          let e2 := pExpect ps.2 TokenType.RBRACKET "expected ']'"
          (([Option.some ps.1] : List (Option ASTNode)), true, e2.2)
        else (([] : List (Option ASTNode)), false, mb.2)
    let var := ASTNode.mk NodeKind.VarDecl idTok.text trip.2.1 trip.1
    let mc := pMatch trip.2.2 TokenType.COMMA
    if mc.1 then
      let rest := varLoopF fuel mc.2
      (Option.some var :: rest.1, rest.2)
    else ([Option.some var], mc.2)

/-- Parser::ParseIf. -/
def ParseIfF : Nat → PSt → ASTNode × PSt
  | 0, st => (dummyNode, st)
  | fuel + 1, st =>
    let e1 := pExpect st TokenType.KW_IF "expected 'if'"
    let e2 := pExpect e1.2 TokenType.LPAREN "expected '(' after if"
    let pc := ParseExpressionF fuel e2.2
    let e3 := pExpect pc.2 TokenType.RPAREN "expected ')' after if condition"
    let pb := ParseBlockF fuel e3.2
    let rest := elseLoopF fuel pb.2
    (ASTNode.mk NodeKind.If "If" false
       (Option.some pc.1 :: Option.some pb.1 :: rest.1), rest.2)

/-- The else-if / else loop of ParseIf. -/
def elseLoopF : Nat → PSt → List (Option ASTNode) × PSt
  | 0, st => ([], st)
  | fuel + 1, st =>
    if (pPeek st).type = TokenType.KW_ELSE then
      let m := pMatch st TokenType.KW_ELSE
      if (pPeek m.2).type = TokenType.KW_IF then
        let m2 := pMatch m.2 TokenType.KW_IF
        let e1 := pExpect m2.2 TokenType.LPAREN "expected '(' after else if"
        let pc := ParseExpressionF fuel e1.2
        let e2 := pExpect pc.2 TokenType.RPAREN "expected ')' after else if cond"
        let pb := ParseBlockF fuel e2.2
        let node := ASTNode.mk NodeKind.ElseIf "ElseIf" false
          [Option.some pc.1, Option.some pb.1]
        let rest := elseLoopF fuel pb.2
        (Option.some node :: rest.1, rest.2)
      else
        let pb := ParseBlockF fuel m.2
        ([Option.some pb.1], pb.2)
    else ([], st)

/-- Parser::ParseWhile. -/
def ParseWhileF : Nat → PSt → ASTNode × PSt
  | 0, st => (dummyNode, st)
  | fuel + 1, st =>
    let e1 := pExpect st TokenType.KW_WHILE "expected 'while'"
    let e2 := pExpect e1.2 TokenType.LPAREN "expected '(' after while"
    let pc := ParseExpressionF fuel e2.2
    let e3 := pExpect pc.2 TokenType.RPAREN "expected ')' after while condition"
    let pb := ParseBlockF fuel e3.2
    (ASTNode.mk NodeKind.While "While" false [Option.some pc.1, Option.some pb.1], pb.2)

/-- Parser::ParseDoWhile. -/
def ParseDoWhileF : Nat → PSt → ASTNode × PSt
  | 0, st => (dummyNode, st)
  | fuel + 1, st =>
    let e1 := pExpect st TokenType.KW_DO "expected 'do'"
    let pb := ParseBlockF fuel e1.2
    let e2 := pExpect pb.2 TokenType.KW_WHILE "expected 'while' after do-block"
    let e3 := pExpect e2.2 TokenType.LPAREN "expected '(' after while"
    let pc := ParseExpressionF fuel e3.2
    let e4 := pExpect pc.2 TokenType.RPAREN "expected ')'"
    let e5 := pExpect e4.2 TokenType.SEMICOLON "expected ';' after do-while"
    (ASTNode.mk NodeKind.DoWhile "DoWhile" false [Option.some pb.1, Option.some pc.1], e5.2)

/-- Parser::ParseFor (always four children; absent parts are null). -/
def ParseForF : Nat → PSt → ASTNode × PSt
  | 0, st => (dummyNode, st)
  | fuel + 1, st =>
    let e1 := pExpect st TokenType.KW_FOR "expected 'for'"
    let e2 := pExpect e1.2 TokenType.LPAREN "expected '(' after for"
    let st := e2.2
    let initP :=
      if (pPeek st).type = TokenType.KW_INT ∨ (pPeek st).type = TokenType.KW_CHAR ∨
         (pPeek st).type = TokenType.KW_DOUBLE ∨ (pPeek st).type = TokenType.KW_STRING then
        let p := ParseVarDeclListF fuel (pPeek st).type st
        (Option.some p.1, p.2)
      else if (pPeek st).type ≠ TokenType.SEMICOLON then
        let p := ParseExpressionF fuel st
        let e := pExpect p.2 TokenType.SEMICOLON "expected ';' after for-init expression"
        (Option.some p.1, e.2)
      else
        let e := pExpect st TokenType.SEMICOLON ""
        (Option.none, e.2)
    let st := initP.2
    let condP :=
      if (pPeek st).type ≠ TokenType.SEMICOLON then
        let p := ParseExpressionF fuel st
        (Option.some p.1, p.2)
      else (Option.none, st)
    let e3 := pExpect condP.2 TokenType.SEMICOLON "expected ';' after for condition"
    let st := e3.2
    let stepP :=
      if (pPeek st).type ≠ TokenType.RPAREN then
        let p := ParseExpressionF fuel st
        (Option.some p.1, p.2)
      else (Option.none, st)
    let e4 := pExpect stepP.2 TokenType.RPAREN "expected ')' after for header"
    let pb := ParseBlockF fuel e4.2
    (ASTNode.mk NodeKind.For "For" false
       [initP.1, condP.1, stepP.1, Option.some pb.1], pb.2)

/-- Parser::ParseReturn. -/
def ParseReturnF : Nat → PSt → ASTNode × PSt
  | 0, st => (dummyNode, st)
  | fuel + 1, st =>
    let e1 := pExpect st TokenType.KW_RETURN "expected 'return'"
    let st := e1.2
    let p :=
      if (pPeek st).type ≠ TokenType.SEMICOLON then
        let q := ParseExpressionF fuel st
        (([Option.some q.1] : List (Option ASTNode)), q.2)
      else (([] : List (Option ASTNode)), st)
    let e2 := pExpect p.2 TokenType.SEMICOLON "expected ';' after return"
    (ASTNode.mk NodeKind.Return "Return" false p.1, e2.2)

/-- Parser::ParseBreak. -/
def ParseBreakF : Nat → PSt → ASTNode × PSt
  | 0, st => (dummyNode, st)
  | _ + 1, st =>
    let e1 := pExpect st TokenType.KW_BREAK "expected 'break'"
    let e2 := pExpect e1.2 TokenType.SEMICOLON "expected ';' after break"
    (ASTNode.mk NodeKind.Break "Break" false [], e2.2)

/-- Parser::ParseContinue. -/
def ParseContinueF : Nat → PSt → ASTNode × PSt
  | 0, st => (dummyNode, st)
  | _ + 1, st =>
    let e1 := pExpect st TokenType.KW_CONTINUE "expected 'continue'"
    let e2 := pExpect e1.2 TokenType.SEMICOLON "expected ';' after continue"
    (ASTNode.mk NodeKind.Continue "Continue" false [], e2.2)

/-- Parser::ParseExprStmt. -/
def ParseExprStmtF : Nat → PSt → ASTNode × PSt
  | 0, st => (dummyNode, st)
  | fuel + 1, st =>
    let p := ParseExpressionF fuel st
    let e := pExpect p.2 TokenType.SEMICOLON "expected ';' after expression"
    (ASTNode.mk NodeKind.ExprStmt "ExprStmt" false [Option.some p.1], e.2)

/-- Parser::ParseExpression (comma expressions, left-associated). -/
def ParseExpressionF : Nat → PSt → ASTNode × PSt
  | 0, st => (dummyNode, st)
  | fuel + 1, st =>
    let p := ParseAssignmentF fuel st
    commaLoopF fuel p.1 p.2

def commaLoopF : Nat → ASTNode → PSt → ASTNode × PSt
  | 0, left, st => (left, st)
  | fuel + 1, left, st =>
    let m := pMatch st TokenType.COMMA
    if m.1 then
      let p := ParseAssignmentF fuel m.2
      commaLoopF fuel
        (ASTNode.mk NodeKind.CommaExpr "," false [Option.some left, Option.some p.1]) p.2
    else (left, st)

/-- Parser::ParseAssignment (right-associative; non-lvalue left sides
are diagnosed but still wrapped in an Assign node). -/
def ParseAssignmentF : Nat → PSt → ASTNode × PSt
  | 0, st => (dummyNode, st)
  | fuel + 1, st =>
    let pl := ParseEqualityF fuel st
    let m := pMatch pl.2 TokenType.ASSIGN
    if ¬m.1 then (pl.1, pl.2)
    else
      let st1 :=
        if pl.1.kind ≠ NodeKind.Identifier ∧ pl.1.kind ≠ NodeKind.Index then
          pAddError m.2 "left side of assignment must be variable or array element"
        else m.2
      let pr := ParseAssignmentF fuel st1
      (ASTNode.mk NodeKind.Assign "=" false [Option.some pl.1, Option.some pr.1], pr.2)

def ParseEqualityF : Nat → PSt → ASTNode × PSt
  | 0, st => (dummyNode, st)
  | fuel + 1, st =>
    let p := ParseRelationalF fuel st
    eqLoopF fuel p.1 p.2

def eqLoopF : Nat → ASTNode → PSt → ASTNode × PSt
  | 0, node, st => (node, st)
  | fuel + 1, node, st =>
    let m := pMatch st TokenType.EQ
    if m.1 then
      let p := ParseRelationalF fuel m.2
      eqLoopF fuel
        (ASTNode.mk NodeKind.Binary "==" false [Option.some node, Option.some p.1]) p.2
    else
      let m2 := pMatch st TokenType.NEQ
      if m2.1 then
        let p := ParseRelationalF fuel m2.2
        eqLoopF fuel
          (ASTNode.mk NodeKind.Binary "!=" false [Option.some node, Option.some p.1]) p.2
      else (node, st)

def ParseRelationalF : Nat → PSt → ASTNode × PSt
  | 0, st => (dummyNode, st)
  | fuel + 1, st =>
    let p := ParseAdditiveF fuel st
    relLoopF fuel p.1 p.2

def relLoopF : Nat → ASTNode → PSt → ASTNode × PSt
  | 0, node, st => (node, st)
  | fuel + 1, node, st =>
    let m := pMatch st TokenType.LT
    if m.1 then
      let p := ParseAdditiveF fuel m.2
      relLoopF fuel
        (ASTNode.mk NodeKind.Binary "<" false [Option.some node, Option.some p.1]) p.2
    else
      let m2 := pMatch st TokenType.LE
      if m2.1 then
        let p := ParseAdditiveF fuel m2.2
        relLoopF fuel
          (ASTNode.mk NodeKind.Binary "<=" false [Option.some node, Option.some p.1]) p.2
      else
        let m3 := pMatch st TokenType.GT
        if m3.1 then
          let p := ParseAdditiveF fuel m3.2
          relLoopF fuel
            (ASTNode.mk NodeKind.Binary ">" false [Option.some node, Option.some p.1]) p.2
        else
          let m4 := pMatch st TokenType.GE
          if m4.1 then
            let p := ParseAdditiveF fuel m4.2
            relLoopF fuel
              (ASTNode.mk NodeKind.Binary ">=" false [Option.some node, Option.some p.1]) p.2
          else (node, st)

def ParseAdditiveF : Nat → PSt → ASTNode × PSt
  | 0, st => (dummyNode, st)
  | fuel + 1, st =>
    let p := ParseMultiplicativeF fuel st
    addLoopF fuel p.1 p.2

def addLoopF : Nat → ASTNode → PSt → ASTNode × PSt
  | 0, node, st => (node, st)
  | fuel + 1, node, st =>
    let m := pMatch st TokenType.PLUS
    if m.1 then
      let p := ParseMultiplicativeF fuel m.2
      addLoopF fuel
        (ASTNode.mk NodeKind.Binary "+" false [Option.some node, Option.some p.1]) p.2
    else
      let m2 := pMatch st TokenType.MINUS
      if m2.1 then
        let p := ParseMultiplicativeF fuel m2.2
        addLoopF fuel
          (ASTNode.mk NodeKind.Binary "-" false [Option.some node, Option.some p.1]) p.2
      else (node, st)

def ParseMultiplicativeF : Nat → PSt → ASTNode × PSt
  | 0, st => (dummyNode, st)
  | fuel + 1, st =>
    let p := ParseUnaryF fuel st
    mulLoopF fuel p.1 p.2

def mulLoopF : Nat → ASTNode → PSt → ASTNode × PSt
  | 0, node, st => (node, st)
  | fuel + 1, node, st =>
    let m := pMatch st TokenType.STAR
    if m.1 then
      let p := ParseUnaryF fuel m.2
      mulLoopF fuel
        (ASTNode.mk NodeKind.Binary "*" false [Option.some node, Option.some p.1]) p.2
    else
      let m2 := pMatch st TokenType.SLASH
      if m2.1 then
        let p := ParseUnaryF fuel m2.2
        mulLoopF fuel
          (ASTNode.mk NodeKind.Binary "/" false [Option.some node, Option.some p.1]) p.2
      else
        let m3 := pMatch st TokenType.PERCENT
        if m3.1 then
          let p := ParseUnaryF fuel m3.2
          mulLoopF fuel
            (ASTNode.mk NodeKind.Binary "%" false [Option.some node, Option.some p.1]) p.2
        else (node, st)

/-- Parser::ParseUnary. -/
def ParseUnaryF : Nat → PSt → ASTNode × PSt
  | 0, st => (dummyNode, st)
  | fuel + 1, st =>
    let m := pMatch st TokenType.PLUS
    if m.1 then
      let p := ParseUnaryF fuel m.2
      (ASTNode.mk NodeKind.Unary "+" false [Option.some p.1], p.2)
    else
      let m2 := pMatch st TokenType.MINUS
      if m2.1 then
        let p := ParseUnaryF fuel m2.2
        (ASTNode.mk NodeKind.Unary "-" false [Option.some p.1], p.2)
      else ParsePrimaryF fuel st

/-- Parser::ParsePrimary (an unexpected token is diagnosed, skipped, and
replaced by the literal 0). -/
def ParsePrimaryF : Nat → PSt → ASTNode × PSt
  | 0, st => (dummyNode, st)
  | fuel + 1, st =>
    let m := pMatch st TokenType.NUMBER
    if m.1 then (ASTNode.mk NodeKind.Number (prevTok m.2).text false [], m.2)
    else
      let m2 := pMatch st TokenType.STRING_LITERAL
      if m2.1 then (ASTNode.mk NodeKind.String (prevTok m2.2).text false [], m2.2)
      else
        let m3 := pMatch st TokenType.IDENTIFIER
        if m3.1 then
          ParsePrimaryIdTailF fuel
            (ASTNode.mk NodeKind.Identifier (prevTok m3.2).text false []) m3.2
        else
          let m4 := pMatch st TokenType.LPAREN
          if m4.1 then
            let p := ParseExpressionF fuel m4.2
            let e := pExpect p.2 TokenType.RPAREN "expected ')'"
            (p.1, e.2)
          else
            let st1 := pAddError st
              ("unexpected token in expression: '" ++ (pPeek st).text ++ "'")
            let st2 := if ¬pIsAtEnd st1 then pAdvance st1 else st1
            (ASTNode.mk NodeKind.Number "0" false [], st2)

/-- Parser::ParsePrimaryIdTail: call and index tails, left to right. -/
def ParsePrimaryIdTailF : Nat → ASTNode → PSt → ASTNode × PSt
  | 0, primary, st => (primary, st)
  | fuel + 1, primary, st =>
    let m := pMatch st TokenType.LPAREN
    if m.1 then
      let mr := pMatch m.2 TokenType.RPAREN
      let p :=
        if mr.1 then (([] : List (Option ASTNode)), mr.2)
        else
          let a1 := ParseExpressionF fuel mr.2
          let rest := callArgsLoopF fuel a1.2
          let e := pExpect rest.2 TokenType.RPAREN "expected ')'"
          (Option.some a1.1 :: rest.1, e.2)
      ParsePrimaryIdTailF fuel
        (ASTNode.mk NodeKind.Call "Call" false (Option.some primary :: p.1)) p.2
    else
      let mb := pMatch st TokenType.LBRACKET
      if mb.1 then
        let pi := ParseExpressionF fuel mb.2
        let e := pExpect pi.2 TokenType.RBRACKET "expected ']'"
        ParsePrimaryIdTailF fuel
          (ASTNode.mk NodeKind.Index "Index" false
            [Option.some primary, Option.some pi.1]) e.2
      else (primary, st)

/-- The extra-argument loop of the call tail. -/
def callArgsLoopF : Nat → PSt → List (Option ASTNode) × PSt
  | 0, st => ([], st)
  | fuel + 1, st =>
    let m := pMatch st TokenType.COMMA
    if m.1 then
      let p := ParseExpressionF fuel m.2
      let rest := callArgsLoopF fuel p.2
      (Option.some p.1 :: rest.1, rest.2)
    else ([], st)

end

/-- Parser::ParseProgram: the program node plus the accumulated
diagnostics.  The fuel bound is generous: every grammar nesting level
consumes at least one token. -/
def ParseProgram (tokens : List Token) : ASTNode × List String :=
  let st : PSt := { tokens := tokens, pos := 0, errors := [] }
  let p := progLoopF (tokens.length * 20 + 100) st
  (ASTNode.mk NodeKind.Program "Program" false p.1, p.2.errors)

end Petukh

namespace Petukh

/-! ## Claim C4 — LOAD_INDEX out of bounds -/

/-- Claim C4, as stated, is FALSE on a string base: `LOAD_INDEX` with an
out-of-bounds index over the string "ab" pushes the EMPTY STRING value,
not integer zero.  (Execution does continue without error.) -/
theorem C4_counterexample :
    execInstr 1 [] ⟨OpCode.LOAD_INDEX, ""⟩ 0
      { stack := [Value.int 5, Value.str "ab"], call_stack := [], out := "", input := [] } =
      StepResult.ok 1
        { stack := [Value.str ""], call_stack := [], out := "", input := [] } ∧
    Value.str "" ≠ Value.int 0 := by
  exact ⟨rfl, by simp⟩

/-- Claim C4 (amended): executing LOAD_INDEX with an out-of-bounds index
(negative, or not below the element / byte count) pushes integer zero
when the base is an array, the EMPTY STRING when the base is a string,
and integer zero for any other base; in all cases execution continues
without error at ip+1. -/
theorem C4_amended (cl : Nat) (lm : List (String × Nat)) (arg : String) (ip : Nat)
    (s : VMState) (idx base : Value) (rest : List Value)
    (hs : s.stack = idx :: base :: rest) :
    (∀ a, base = Value.arr a → (idx.AsInt < 0 ∨ a.length ≤ idx.AsInt.toNat) →
      execInstr cl lm ⟨OpCode.LOAD_INDEX, arg⟩ ip s =
        StepResult.ok (ip + 1) { s with stack := Value.int 0 :: rest }) ∧
    (∀ str, base = Value.str str → (idx.AsInt < 0 ∨ str.data.length ≤ idx.AsInt.toNat) →
      execInstr cl lm ⟨OpCode.LOAD_INDEX, arg⟩ ip s =
        StepResult.ok (ip + 1) { s with stack := Value.str "" :: rest }) ∧
    ((∀ a, base ≠ Value.arr a) → (∀ str, base ≠ Value.str str) →
      execInstr cl lm ⟨OpCode.LOAD_INDEX, arg⟩ ip s =
        StepResult.ok (ip + 1) { s with stack := Value.int 0 :: rest }) := by
  refine ⟨?_, ?_, ?_⟩
  · intro a hb hoob
    subst hb
    simp [execInstr, HandleLoadIndex, popV, pushV, hs, hoob, bind, Except.bind]
  · intro str hb hoob
    subst hb
    have hoob' : idx.AsInt < 0 ∨ str.length ≤ idx.AsInt.toNat := by simpa using hoob
    simp [execInstr, HandleLoadIndex, popV, pushV, hs, hoob', bind, Except.bind]
  · intro ha hstr
    cases base with
    | arr a => exact absurd rfl (ha a)
    | str t => exact absurd rfl (hstr t)
    | none => simp [execInstr, HandleLoadIndex, popV, pushV, hs, bind, Except.bind]
    | int i => simp [execInstr, HandleLoadIndex, popV, pushV, hs, bind, Except.bind]
    | double d => simp [execInstr, HandleLoadIndex, popV, pushV, hs, bind, Except.bind]

/-- Witness for C4_amended at concrete inputs. -/
theorem C4_amended_witness :
    execInstr 1 [] ⟨OpCode.LOAD_INDEX, ""⟩ 0
      { stack := [Value.int 3, Value.arr [Value.int 7], Value.int 9],
        call_stack := [], out := "", input := [] } =
      StepResult.ok 1
        { stack := [Value.int 0, Value.int 9], call_stack := [], out := "", input := [] } := by
  have h := C4_amended 1 [] "" 0
    { stack := [Value.int 3, Value.arr [Value.int 7], Value.int 9],
      call_stack := [], out := "", input := [] }
    (Value.int 3) (Value.arr [Value.int 7]) [Value.int 9] rfl
  exact h.1 [Value.int 7] rfl (by decide)

/-! ## Claim C6 — integer DIV and MOD -/

/-- Claim C6: on two int-tagged operands (top of stack is the divisor
`b`), DIV pushes 0 when b = 0 and the truncating quotient `Int.tdiv`
otherwise; MOD pushes 0 when b = 0 and the truncating remainder
`Int.tmod` otherwise; execution continues at ip+1 without error. -/
theorem C6_div_mod (cl : Nat) (lm : List (String × Nat)) (arg : String) (ip : Nat)
    (s : VMState) (a b : Int) (rest : List Value)
    (hs : s.stack = Value.int b :: Value.int a :: rest) :
    execInstr cl lm ⟨OpCode.DIV, arg⟩ ip s =
      StepResult.ok (ip + 1)
        { s with stack := Value.int (if b = 0 then 0 else a.tdiv b) :: rest } ∧
    execInstr cl lm ⟨OpCode.MOD, arg⟩ ip s =
      StepResult.ok (ip + 1)
        { s with stack := Value.int (if b = 0 then 0 else a.tmod b) :: rest } := by
  constructor
  · by_cases hb : b = 0 <;>
      simp [execInstr, HandleBinaryOp, popV, pushV, hs, hb, Value.AsInt, bind, Except.bind]
  · by_cases hb : b = 0 <;>
      simp [execInstr, HandleBinaryOp, popV, pushV, hs, hb, Value.AsInt, bind, Except.bind]

/-- Witness for C6_div_mod: 7 / -2 truncates to -3, 7 mod -2 is 1, and
division by zero gives 0. -/
theorem C6_div_mod_witness :
    (execInstr 1 [] ⟨OpCode.DIV, ""⟩ 0
      { stack := [Value.int (-2), Value.int 7], call_stack := [], out := "", input := [] } =
      StepResult.ok 1
        { stack := [Value.int (-3)], call_stack := [], out := "", input := [] }) ∧
    (execInstr 1 [] ⟨OpCode.MOD, ""⟩ 0
      { stack := [Value.int (-2), Value.int 7], call_stack := [], out := "", input := [] } =
      StepResult.ok 1
        { stack := [Value.int 1], call_stack := [], out := "", input := [] }) ∧
    (execInstr 1 [] ⟨OpCode.DIV, ""⟩ 0
      { stack := [Value.int 0, Value.int 7], call_stack := [], out := "", input := [] } =
      StepResult.ok 1
        { stack := [Value.int 0], call_stack := [], out := "", input := [] }) := by
  have h1 := C6_div_mod 1 [] "" 0
    { stack := [Value.int (-2), Value.int 7], call_stack := [], out := "", input := [] }
    7 (-2) [] rfl
  have h2 := C6_div_mod 1 [] "" 0
    { stack := [Value.int 0, Value.int 7], call_stack := [], out := "", input := [] }
    7 0 [] rfl
  refine ⟨?_, ?_, ?_⟩
  · have := h1.1
    simpa using this
  · have := h1.2
    simpa using this
  · have := h2.1
    simpa using this

end Petukh

namespace Petukh

theorem lookupA_insertA_ne {α : Type} (m : List (String × α)) (k k' : String) (v : α)
    (h : k' ≠ k) : lookupA (insertA m k v) k' = lookupA m k' := by
  induction m with
  | nil =>
    simp [insertA, lookupA]
    exact fun hh => h hh.symm
  | cons p rest ih =>
    obtain ⟨k0, v0⟩ := p
    by_cases h0 : k0 = k
    · subst h0
      have h' : ¬k0 = k' := fun hh => h hh.symm
      simp [insertA, lookupA, h']
    · simp [insertA, lookupA, h0, ih]

theorem lookupA_insertA_self {α : Type} (m : List (String × α)) (k : String) (v : α) :
    lookupA (insertA m k v) k = Option.some v := by
  induction m with
  | nil => simp [insertA, lookupA]
  | cons p rest ih =>
    obtain ⟨k0, v0⟩ := p
    by_cases h0 : k0 = k
    · subst h0
      simp [insertA, lookupA]
    · simp [insertA, lookupA, h0, ih]

/-! ## Claim C10 — STORE_INDEX with a negative index -/

/-- Claim C10: STORE_INDEX with a non-empty name and a negative index
pops the index and the value and writes no element: an existing array
local is left exactly as it was, a missing or non-array local is rebound
to the empty array; the rest of the frame is untouched (the two trailing
conjuncts make "all other locals unchanged" explicit) and execution
continues at ip+1. -/
theorem C10_store_index_negative (cl : Nat) (lm : List (String × Nat)) (ip : Nat)
    (s : VMState) (name : String) (idx val : Value) (rest : List Value)
    (f : Frame) (frs : List Frame)
    (hname : name ≠ "")
    (hs : s.stack = idx :: val :: rest)
    (hcs : s.call_stack = f :: frs)
    (hneg : idx.AsInt < 0) :
    execInstr cl lm ⟨OpCode.STORE_INDEX, name⟩ ip s =
      StepResult.ok (ip + 1)
        { s with
          stack := rest,
          call_stack :=
            { f with
              locals := insertA f.locals name (Value.arr
                (match lookupA f.locals name with
                 | Option.some (Value.arr a) => a
                 | _ => [])) } :: frs } ∧
    (∀ (v : Value) (k : String), k ≠ name →
      lookupA (insertA f.locals name v) k = lookupA f.locals k) ∧
    (∀ (v : Value), lookupA (insertA f.locals name v) name = Option.some v) := by
  refine ⟨?_, fun v k hk => lookupA_insertA_ne _ _ _ _ hk,
    fun v => lookupA_insertA_self _ _ _⟩
  have h0 : ¬(0 ≤ idx.AsInt) := by omega
  have hneed : (max 0 (idx.AsInt + 1)).toNat = 0 := by omega
  cases hcur : lookupA f.locals name with
  | none =>
    simp [execInstr, HandleStoreIndex, popV, hs, hcs, hname, bind, Except.bind,
      h0, hneed, hcur]
  | some v0 =>
    cases v0 <;>
      simp [execInstr, HandleStoreIndex, popV, hs, hcs, hname, bind, Except.bind,
        h0, hneed, hcur]

/-- Witness for C10 at a concrete state: local "a" holds [7]; a write at
index -1 leaves it untouched. -/
theorem C10_store_index_negative_witness :
    execInstr 1 [] ⟨OpCode.STORE_INDEX, "a"⟩ 0
      { stack := [Value.int (-1), Value.int 5],
        call_stack := [{ ret_ip := 9, locals := [("a", Value.arr [Value.int 7])] }],
        out := "", input := [] } =
      StepResult.ok 1
        { stack := [],
          call_stack := [{ ret_ip := 9,
                           locals := insertA [("a", Value.arr [Value.int 7])] "a"
                             (Value.arr [Value.int 7]) }],
          out := "", input := [] } := by
  have h := C10_store_index_negative 1 [] 0
    { stack := [Value.int (-1), Value.int 5],
      call_stack := [{ ret_ip := 9, locals := [("a", Value.arr [Value.int 7])] }],
      out := "", input := [] }
    "a" (Value.int (-1)) (Value.int 5) []
    { ret_ip := 9, locals := [("a", Value.arr [Value.int 7])] } []
    (by decide) rfl rfl (by decide)
  have h1 := h.1
  simpa [lookupA] using h1

end Petukh

namespace Petukh

/-! ## Claim C2 — fatal runtime errors vs data errors -/

/-- Claim C2, as stated, is FALSE in two places: a JZ whose popped value
is non-zero never consults the label map (the program below runs to
normal termination although "L9" has no mapping), and a CALL to a
built-in name needs no mapping either (the second program prints "5" and
finishes). -/
theorem C2_counterexample :
    Run [⟨OpCode.PUSH_INT, "1"⟩, ⟨OpCode.JZ, "L9"⟩] [] 10 =
      RunResult.finished { stack := [], call_stack := [], out := "", input := [] } ∧
    lookupA (BuildLabelMap [⟨OpCode.PUSH_INT, "1"⟩, ⟨OpCode.JZ, "L9"⟩]) "L9" =
      Option.none ∧
    Run [⟨OpCode.PUSH_INT, "5"⟩, ⟨OpCode.CALL, "printInt"⟩] [] 10 =
      RunResult.finished { stack := [], call_stack := [], out := "5", input := [] } ∧
    lookupA (BuildLabelMap [⟨OpCode.PUSH_INT, "5"⟩, ⟨OpCode.CALL, "printInt"⟩])
      "printInt" = Option.none := by
  exact ⟨rfl, rfl, rfl, rfl⟩

def underflowOps : List OpCode :=
  [OpCode.POP, OpCode.NEW_ARRAY, OpCode.LOAD_INDEX, OpCode.STORE_INDEX,
   OpCode.ADD, OpCode.SUB, OpCode.MUL, OpCode.DIV, OpCode.MOD,
   OpCode.EQ, OpCode.NEQ, OpCode.LT, OpCode.GT, OpCode.LE, OpCode.GE,
   OpCode.NEG, OpCode.NOT]

/-- Claim C2 (amended): JMP with an unmapped label always aborts;
JZ aborts on an unmapped label only when the popped value is zero (the
jump is taken) and otherwise continues without consulting the map;
a non-built-in CALL with an unmapped label aborts, while a built-in CALL
never reads the label map at all; every value-popping instruction aborts
with a stack underflow on an empty operand stack (including JZ, STORE
and the printing built-ins); and LOAD of a missing variable pushes
integer 0 and continues. -/
theorem C2_amended (cl : Nat) (lm : List (String × Nat)) (ip : Nat) (s : VMState)
    (L g x : String) :
    (lookupA lm L = Option.none →
      execInstr cl lm ⟨OpCode.JMP, L⟩ ip s =
        StepResult.err ("unknown label for JMP: " ++ L)) ∧
    (∀ v rest, s.stack = v :: rest → v.IsZero = true → lookupA lm L = Option.none →
      execInstr cl lm ⟨OpCode.JZ, L⟩ ip s =
        StepResult.err ("unknown label for JZ: " ++ L)) ∧
    (∀ v rest, s.stack = v :: rest → v.IsZero = false →
      execInstr cl lm ⟨OpCode.JZ, L⟩ ip s =
        StepResult.ok (ip + 1) { s with stack := rest }) ∧
    (IsBuiltin g = false → lookupA lm g = Option.none →
      execInstr cl lm ⟨OpCode.CALL, g⟩ ip s =
        StepResult.err ("unknown function label: " ++ g)) ∧
    (∀ lm', IsBuiltin g = true →
      execInstr cl lm ⟨OpCode.CALL, g⟩ ip s = execInstr cl lm' ⟨OpCode.CALL, g⟩ ip s) ∧
    (s.stack = [] → ∀ op ∈ underflowOps,
      execInstr cl lm ⟨op, x⟩ ip s = StepResult.err "stack underflow") ∧
    (s.stack = [] → execInstr cl lm ⟨OpCode.JZ, L⟩ ip s =
      StepResult.err "stack underflow") ∧
    (s.stack = [] → execInstr cl lm ⟨OpCode.STORE, x⟩ ip s =
      StepResult.err "stack underflow") ∧
    (s.stack = [] → ∀ b ∈ (["printInt", "printDouble", "printStr"] : List String),
      execInstr cl lm ⟨OpCode.CALL, b⟩ ip s = StepResult.err "stack underflow") ∧
    (s.call_stack = [] →
      execInstr cl lm ⟨OpCode.LOAD, x⟩ ip s =
        StepResult.ok (ip + 1) (pushV (Value.int 0) s)) ∧
    (∀ fr frs, s.call_stack = fr :: frs → lookupA fr.locals x = Option.none →
      execInstr cl lm ⟨OpCode.LOAD, x⟩ ip s =
        StepResult.ok (ip + 1) (pushV (Value.int 0) s)) := by
  refine ⟨?_, ?_, ?_, ?_, ?_, ?_, ?_, ?_, ?_, ?_, ?_⟩
  · intro h
    simp [execInstr, h]
  · intro v rest hs hz h
    simp [execInstr, popV, hs, hz, h]
  · intro v rest hs hz
    simp [execInstr, popV, hs, hz]
  · intro hb h
    simp [execInstr, hb, h]
  · intro lm' hb
    simp [execInstr, hb]
  · intro hs op hop
    fin_cases hop <;>
      simp [execInstr, popV, hs, bind, Except.bind, HandleNewArray, HandleLoadIndex,
        HandleStoreIndex, HandleBinaryOp, HandleUnaryOp]
  · intro hs
    simp [execInstr, popV, hs]
  · intro hs
    cases hcs : s.call_stack <;>
      simp [execInstr, popV, hs, hcs, bind, Except.bind, HandleStore]
  · intro hs b hb
    fin_cases hb <;>
      simp [execInstr, popV, hs, bind, Except.bind, CallBuiltin, IsBuiltin]
  · intro hcs
    simp [execInstr, HandleLoad, hcs]
  · intro fr frs hcs h
    simp [execInstr, HandleLoad, hcs, h]

/-- Witness for C2_amended at concrete inputs. -/
theorem C2_amended_witness :
    (execInstr 2 [] ⟨OpCode.JMP, "L0"⟩ 0
      { stack := [], call_stack := [], out := "", input := [] } =
      StepResult.err ("unknown label for JMP: " ++ "L0")) ∧
    (execInstr 2 [] ⟨OpCode.JZ, "L0"⟩ 0
      { stack := [Value.int 0], call_stack := [], out := "", input := [] } =
      StepResult.err ("unknown label for JZ: " ++ "L0")) ∧
    (execInstr 2 [] ⟨OpCode.JZ, "L0"⟩ 0
      { stack := [Value.int 3], call_stack := [], out := "", input := [] } =
      StepResult.ok 1 { stack := [], call_stack := [], out := "", input := [] }) ∧
    (execInstr 2 [] ⟨OpCode.CALL, "g"⟩ 0
      { stack := [], call_stack := [], out := "", input := [] } =
      StepResult.err ("unknown function label: " ++ "g")) ∧
    (execInstr 2 [] ⟨OpCode.ADD, ""⟩ 0
      { stack := [], call_stack := [], out := "", input := [] } =
      StepResult.err "stack underflow") ∧
    (execInstr 2 [] ⟨OpCode.LOAD, "x"⟩ 0
      { stack := [], call_stack := [], out := "", input := [] } =
      StepResult.ok 1 (pushV (Value.int 0)
        { stack := [], call_stack := [], out := "", input := [] })) := by
  have h := C2_amended 2 [] 0
    { stack := [], call_stack := [], out := "", input := [] } "L0" "g" "x"
  have h0 := C2_amended 2 [] 0
    { stack := [Value.int 0], call_stack := [], out := "", input := [] } "L0" "g" "x"
  have h3 := C2_amended 2 [] 0
    { stack := [Value.int 3], call_stack := [], out := "", input := [] } "L0" "g" "x"
  refine ⟨h.1 rfl, ?_, ?_, ?_, ?_, ?_⟩
  · exact h0.2.1 (Value.int 0) [] rfl (by decide) rfl
  · exact h3.2.2.1 (Value.int 3) [] rfl (by decide)
  · exact h.2.2.2.1 (by decide) rfl
  · exact h.2.2.2.2.2.1 rfl OpCode.ADD (by decide)
  · exact h.2.2.2.2.2.2.2.2.2.1 rfl

end Petukh

namespace Petukh

/-! ## Claim C5 — end-to-end sum loop -/

def c5Source : String :=
  "fn int main() { int s=0; for(int i=1;i<=5;i=i+1){s=s+i;} printInt(s); return 0; }"

set_option maxRecDepth 10000 in
/-- Claim C5: the full pipeline on the sum-loop program yields no
lexical malformation (no UNKNOWN token), no syntax diagnostics, no
semantic diagnostics, and the VM finishes normally writing exactly
"15". -/
theorem C5_pipeline :
    (Tokenize c5Source).all (fun t => t.type ≠ TokenType.UNKNOWN) = true ∧
    (ParseProgram (Tokenize c5Source)).2 = [] ∧
    Analyze (ParseProgram (Tokenize c5Source)).1 = [] ∧
    runOutput (Run (Generate (Option.some (ParseProgram (Tokenize c5Source)).1)) [] 300) =
      Option.some "15" := by
  refine ⟨by decide, by decide, by decide, by decide⟩

/-! ## Claim C7 — arithmetic type promotion -/

/-- Claim C7: a Binary node with operator in + - * / % whose operands are
inferred numeric (int or double) gets type double iff either operand is
double, int otherwise, and the node itself adds no diagnostic (the final
state is exactly the state after checking the operands). -/
theorem C7_binary_promotion (op : String) (l r : ASTNode) (ar : Bool) (st : AnSt)
    (hop : op ∈ (["+", "-", "*", "/", "%"] : List String))
    (hl : (CheckExpressionN l st).1 = TypeKind.INT ∨
          (CheckExpressionN l st).1 = TypeKind.DOUBLE)
    (hr : (CheckExpressionN r (CheckExpressionN l st).2).1 = TypeKind.INT ∨
          (CheckExpressionN r (CheckExpressionN l st).2).1 = TypeKind.DOUBLE) :
    CheckExpressionN
        (ASTNode.mk NodeKind.Binary op ar [Option.some l, Option.some r]) st =
      ((if (CheckExpressionN l st).1 = TypeKind.DOUBLE ∨
           (CheckExpressionN r (CheckExpressionN l st).2).1 = TypeKind.DOUBLE
        then TypeKind.DOUBLE else TypeKind.INT),
       (CheckExpressionN r (CheckExpressionN l st).2).2) := by
  have hstep : CheckExpressionN
      (ASTNode.mk NodeKind.Binary op ar [Option.some l, Option.some r]) st =
      BinaryResult op (CheckExpressionN l st).1
        (CheckExpressionN r (CheckExpressionN l st).2).1
        (CheckExpressionN r (CheckExpressionN l st).2).2 := by
    simp [CheckExpressionN]
  rw [hstep]
  fin_cases hop <;>
    (rcases hl with hl | hl <;> rcases hr with hr | hr <;>
      simp [BinaryResult, hl, hr])

/-- Witness for C7 at concrete operands: 1 + 2.5 is double, 1 * 2 is
int, in the empty analyzer state. -/
theorem C7_binary_promotion_witness :
    CheckExpressionN
      (ASTNode.mk NodeKind.Binary "+" false
        [Option.some (ASTNode.mk NodeKind.Number "1" false []),
         Option.some (ASTNode.mk NodeKind.Number "2.5" false [])])
      { scopes := [[]], errors := [], inFunction := false, loopDepth := 0,
        currentReturnType := TypeKind.VOID } =
      (TypeKind.DOUBLE,
       { scopes := [[]], errors := [], inFunction := false, loopDepth := 0,
         currentReturnType := TypeKind.VOID }) := by
  have h := C7_binary_promotion "+"
    (ASTNode.mk NodeKind.Number "1" false [])
    (ASTNode.mk NodeKind.Number "2.5" false []) false
    { scopes := [[]], errors := [], inFunction := false, loopDepth := 0,
      currentReturnType := TypeKind.VOID }
    (by decide) (by left; decide) (by right; decide)
  simpa using h

end Petukh

namespace Petukh

/-! ## Generator chunk lemmas.

`GenExpressionN` threads the state only through `emit`, so the
instructions it appends depend on the node alone.  `EC n` is that chunk,
read off at the canonical empty state `g0`; `genExprN_frame` states that
lowering an expression appends exactly `EC n` whatever the incoming
state.  The `geqN_*` equations below are the defining equations of
`GenExpressionN`, restated with the option-children destructured (each
holds by `rfl`). -/

def g0 : GenSt := { code := [], labelCounter := 0, breakLabels := [], continueLabels := [] }

def EC (n : ASTNode) : List Instruction := (GenExpressionN n g0).code

def ECL (cs : List (Option ASTNode)) : List Instruction := (GenExprList cs g0).code

theorem emit_frame (st : GenSt) (op : OpCode) (a : String) :
    emit st op a = { st with code := st.code ++ [⟨op, a⟩] } := rfl

theorem geqN_number (t : String) (b : Bool) (cs : List (Option ASTNode)) (st : GenSt) :
    GenExpressionN (ASTNode.mk NodeKind.Number t b cs) st =
      (if IsFloatingLiteral t then emit st OpCode.PUSH_DOUBLE t
       else emit st OpCode.PUSH_INT t) := rfl

theorem geqN_string (t : String) (b : Bool) (cs : List (Option ASTNode)) (st : GenSt) :
    GenExpressionN (ASTNode.mk NodeKind.String t b cs) st = emit st OpCode.PUSH_STRING t := rfl

theorem geqN_ident (t : String) (b : Bool) (cs : List (Option ASTNode)) (st : GenSt) :
    GenExpressionN (ASTNode.mk NodeKind.Identifier t b cs) st = emit st OpCode.LOAD t := rfl

theorem geqN_unary_nil (t : String) (b : Bool) (st : GenSt) :
    GenExpressionN (ASTNode.mk NodeKind.Unary t b []) st = st := rfl

theorem geqN_unary_none (t : String) (b : Bool) (tl : List (Option ASTNode)) (st : GenSt) :
    GenExpressionN (ASTNode.mk NodeKind.Unary t b (Option.none :: tl)) st =
      (if t == "-" then emit st OpCode.NEG
       else if t == "!" then emit st OpCode.NOT
       else st) := rfl

theorem geqN_unary_some (t : String) (b : Bool) (m : ASTNode)
    (tl : List (Option ASTNode)) (st : GenSt) :
    GenExpressionN (ASTNode.mk NodeKind.Unary t b (Option.some m :: tl)) st =
      (if t == "-" then emit (GenExpressionN m st) OpCode.NEG
       else if t == "!" then emit (GenExpressionN m st) OpCode.NOT
       else GenExpressionN m st) := rfl

theorem geqN_binary_nil (t : String) (b : Bool) (st : GenSt) :
    GenExpressionN (ASTNode.mk NodeKind.Binary t b []) st = st := rfl

theorem geqN_binary_one (t : String) (b : Bool) (c0 : Option ASTNode) (st : GenSt) :
    GenExpressionN (ASTNode.mk NodeKind.Binary t b [c0]) st = st := rfl

theorem geqN_binary_nn (t : String) (b : Bool) (c1tl : List (Option ASTNode)) (st : GenSt) :
    GenExpressionN (ASTNode.mk NodeKind.Binary t b (Option.none :: Option.none :: c1tl)) st =
      binOpEmit t st := rfl

theorem geqN_binary_sn (t : String) (b : Bool) (m0 : ASTNode)
    (c1tl : List (Option ASTNode)) (st : GenSt) :
    GenExpressionN (ASTNode.mk NodeKind.Binary t b
        (Option.some m0 :: Option.none :: c1tl)) st =
      binOpEmit t (GenExpressionN m0 st) := rfl

theorem geqN_binary_ns (t : String) (b : Bool) (m1 : ASTNode)
    (c1tl : List (Option ASTNode)) (st : GenSt) :
    GenExpressionN (ASTNode.mk NodeKind.Binary t b
        (Option.none :: Option.some m1 :: c1tl)) st =
      binOpEmit t (GenExpressionN m1 st) := rfl

theorem geqN_binary_ss (t : String) (b : Bool) (m0 m1 : ASTNode)
    (c1tl : List (Option ASTNode)) (st : GenSt) :
    GenExpressionN (ASTNode.mk NodeKind.Binary t b
        (Option.some m0 :: Option.some m1 :: c1tl)) st =
      binOpEmit t (GenExpressionN m1 (GenExpressionN m0 st)) := rfl

theorem geqN_call_nil (t : String) (b : Bool) (st : GenSt) :
    GenExpressionN (ASTNode.mk NodeKind.Call t b []) st = st := rfl

theorem geqN_call_cons (t : String) (b : Bool) (callee : Option ASTNode)
    (args : List (Option ASTNode)) (st : GenSt) :
    GenExpressionN (ASTNode.mk NodeKind.Call t b (callee :: args)) st =
      emit (GenExprList args st) OpCode.CALL (optText callee) := rfl

theorem geqN_index_nil (t : String) (b : Bool) (st : GenSt) :
    GenExpressionN (ASTNode.mk NodeKind.Index t b []) st = st := rfl

theorem geqN_index_one (t : String) (b : Bool) (c0 : Option ASTNode) (st : GenSt) :
    GenExpressionN (ASTNode.mk NodeKind.Index t b [c0]) st = st := rfl

theorem geqN_index_nn (t : String) (b : Bool) (c1tl : List (Option ASTNode)) (st : GenSt) :
    GenExpressionN (ASTNode.mk NodeKind.Index t b (Option.none :: Option.none :: c1tl)) st =
      emit st OpCode.LOAD_INDEX := rfl

theorem geqN_index_sn (t : String) (b : Bool) (m0 : ASTNode)
    (c1tl : List (Option ASTNode)) (st : GenSt) :
    GenExpressionN (ASTNode.mk NodeKind.Index t b
        (Option.some m0 :: Option.none :: c1tl)) st =
      emit (GenExpressionN m0 st) OpCode.LOAD_INDEX := rfl

theorem geqN_index_ns (t : String) (b : Bool) (m1 : ASTNode)
    (c1tl : List (Option ASTNode)) (st : GenSt) :
    GenExpressionN (ASTNode.mk NodeKind.Index t b
        (Option.none :: Option.some m1 :: c1tl)) st =
      emit (GenExpressionN m1 st) OpCode.LOAD_INDEX := rfl

theorem geqN_index_ss (t : String) (b : Bool) (m0 m1 : ASTNode)
    (c1tl : List (Option ASTNode)) (st : GenSt) :
    GenExpressionN (ASTNode.mk NodeKind.Index t b
        (Option.some m0 :: Option.some m1 :: c1tl)) st =
      emit (GenExpressionN m1 (GenExpressionN m0 st)) OpCode.LOAD_INDEX := rfl

theorem geqN_comma (t : String) (b : Bool) (cs : List (Option ASTNode)) (st : GenSt) :
    GenExpressionN (ASTNode.mk NodeKind.CommaExpr t b cs) st = GenExprList cs st := rfl

theorem geqL_nil (st : GenSt) : GenExprList [] st = st := rfl

theorem geqL_cons_none (rest : List (Option ASTNode)) (st : GenSt) :
    GenExprList (Option.none :: rest) st = GenExprList rest st := rfl

theorem geqL_cons_some (m : ASTNode) (rest : List (Option ASTNode)) (st : GenSt) :
    GenExprList (Option.some m :: rest) st = GenExprList rest (GenExpressionN m st) := rfl

end Petukh

namespace Petukh

set_option maxHeartbeats 800000

theorem geqN_assign_nil (t : String) (b : Bool) (st : GenSt) :
    GenExpressionN (ASTNode.mk NodeKind.Assign t b []) st = st := rfl

theorem geqN_assign_one (t : String) (b : Bool) (c0 : Option ASTNode) (st : GenSt) :
    GenExpressionN (ASTNode.mk NodeKind.Assign t b [c0]) st = st := by
  rcases c0 with _ | ⟨lk, lt, lb, lcs⟩
  · rfl
  cases lk
  case Index =>
    rcases lcs with _ | ⟨a0, l1⟩
    · rfl
    rcases l1 with _ | ⟨i0, l2⟩
    · rfl
    · rfl
  all_goals rfl

theorem geqN_assign_nonelhs (t : String) (b : Bool) (c1 : Option ASTNode)
    (tl : List (Option ASTNode)) (st : GenSt) :
    GenExpressionN (ASTNode.mk NodeKind.Assign t b (Option.none :: c1 :: tl)) st = st := rfl

theorem geqN_assign_idx_nil (t ti : String) (b bi : Bool) (crhs : Option ASTNode)
    (tl : List (Option ASTNode)) (st : GenSt) :
    GenExpressionN (ASTNode.mk NodeKind.Assign t b
        (Option.some (ASTNode.mk NodeKind.Index ti bi []) :: crhs :: tl)) st = st := rfl

theorem geqN_assign_idx_one (t ti : String) (b bi : Bool) (a0 crhs : Option ASTNode)
    (tl : List (Option ASTNode)) (st : GenSt) :
    GenExpressionN (ASTNode.mk NodeKind.Assign t b
        (Option.some (ASTNode.mk NodeKind.Index ti bi [a0]) :: crhs :: tl)) st = st := rfl

theorem geqN_assign_idx_nnn (t ti : String) (b bi : Bool)
    (itl tl : List (Option ASTNode)) (st : GenSt) :
    GenExpressionN (ASTNode.mk NodeKind.Assign t b
        (Option.some (ASTNode.mk NodeKind.Index ti bi
          (Option.none :: Option.none :: itl)) :: Option.none :: tl)) st =
      emit st OpCode.STORE_INDEX := rfl

theorem geqN_assign_idx_nns (t ti : String) (b bi : Bool) (mr : ASTNode)
    (itl tl : List (Option ASTNode)) (st : GenSt) :
    GenExpressionN (ASTNode.mk NodeKind.Assign t b
        (Option.some (ASTNode.mk NodeKind.Index ti bi
          (Option.none :: Option.none :: itl)) :: Option.some mr :: tl)) st =
      emit (GenExpressionN mr st) OpCode.STORE_INDEX := rfl

theorem geqN_assign_idx_nsn (t ti : String) (b bi : Bool) (mi : ASTNode)
    (itl tl : List (Option ASTNode)) (st : GenSt) :
    GenExpressionN (ASTNode.mk NodeKind.Assign t b
        (Option.some (ASTNode.mk NodeKind.Index ti bi
          (Option.none :: Option.some mi :: itl)) :: Option.none :: tl)) st =
      emit (GenExpressionN mi st) OpCode.STORE_INDEX := rfl

theorem geqN_assign_idx_nss (t ti : String) (b bi : Bool) (mi mr : ASTNode)
    (itl tl : List (Option ASTNode)) (st : GenSt) :
    GenExpressionN (ASTNode.mk NodeKind.Assign t b
        (Option.some (ASTNode.mk NodeKind.Index ti bi
          (Option.none :: Option.some mi :: itl)) :: Option.some mr :: tl)) st =
      emit (GenExpressionN mi (GenExpressionN mr st)) OpCode.STORE_INDEX := rfl

theorem geqN_assign_idx_snn (t ti : String) (b bi : Bool) (ma : ASTNode)
    (itl tl : List (Option ASTNode)) (st : GenSt) :
    GenExpressionN (ASTNode.mk NodeKind.Assign t b
        (Option.some (ASTNode.mk NodeKind.Index ti bi
          (Option.some ma :: Option.none :: itl)) :: Option.none :: tl)) st =
      (if ma.kind = NodeKind.Identifier then
        emit st OpCode.STORE_INDEX ma.text
      else
        emit (GenExpressionN ma st) OpCode.STORE_INDEX) := rfl

theorem geqN_assign_idx_sns (t ti : String) (b bi : Bool) (ma mr : ASTNode)
    (itl tl : List (Option ASTNode)) (st : GenSt) :
    GenExpressionN (ASTNode.mk NodeKind.Assign t b
        (Option.some (ASTNode.mk NodeKind.Index ti bi
          (Option.some ma :: Option.none :: itl)) :: Option.some mr :: tl)) st =
      (if ma.kind = NodeKind.Identifier then
        emit (GenExpressionN mr st) OpCode.STORE_INDEX ma.text
      else
        emit (GenExpressionN ma (GenExpressionN mr st)) OpCode.STORE_INDEX) := rfl

theorem geqN_assign_idx_ssn (t ti : String) (b bi : Bool) (ma mi : ASTNode)
    (itl tl : List (Option ASTNode)) (st : GenSt) :
    GenExpressionN (ASTNode.mk NodeKind.Assign t b
        (Option.some (ASTNode.mk NodeKind.Index ti bi
          (Option.some ma :: Option.some mi :: itl)) :: Option.none :: tl)) st =
      (if ma.kind = NodeKind.Identifier then
        emit (GenExpressionN mi st) OpCode.STORE_INDEX ma.text
      else
        emit (GenExpressionN mi (GenExpressionN ma st)) OpCode.STORE_INDEX) := rfl

theorem geqN_assign_idx_sss (t ti : String) (b bi : Bool) (ma mi mr : ASTNode)
    (itl tl : List (Option ASTNode)) (st : GenSt) :
    GenExpressionN (ASTNode.mk NodeKind.Assign t b
        (Option.some (ASTNode.mk NodeKind.Index ti bi
          (Option.some ma :: Option.some mi :: itl)) :: Option.some mr :: tl)) st =
      (if ma.kind = NodeKind.Identifier then
        emit (GenExpressionN mi (GenExpressionN mr st)) OpCode.STORE_INDEX ma.text
      else
        emit (GenExpressionN mi (GenExpressionN ma (GenExpressionN mr st)))
          OpCode.STORE_INDEX) := rfl

theorem geqN_assign_other_none (lk : NodeKind) (hlk : lk ≠ NodeKind.Index)
    (t lt : String) (b lb : Bool) (lcs tl : List (Option ASTNode)) (st : GenSt) :
    GenExpressionN (ASTNode.mk NodeKind.Assign t b
        (Option.some (ASTNode.mk lk lt lb lcs) :: Option.none :: tl)) st =
      emit st OpCode.STORE lt := by
  cases lk
  case Index => exact absurd rfl hlk
  all_goals rfl

theorem geqN_assign_other_some (lk : NodeKind) (hlk : lk ≠ NodeKind.Index)
    (t lt : String) (b lb : Bool) (mr : ASTNode) (lcs tl : List (Option ASTNode)) (st : GenSt) :
    GenExpressionN (ASTNode.mk NodeKind.Assign t b
        (Option.some (ASTNode.mk lk lt lb lcs) :: Option.some mr :: tl)) st =
      emit (GenExpressionN mr st) OpCode.STORE lt := by
  cases lk
  case Index => exact absurd rfl hlk
  all_goals rfl

theorem geqN_other (k : NodeKind)
    (hk : k ∈ [NodeKind.Program, NodeKind.Function, NodeKind.FuncArg, NodeKind.Block,
               NodeKind.VarDeclList, NodeKind.VarDecl, NodeKind.If, NodeKind.ElseIf,
               NodeKind.While, NodeKind.DoWhile, NodeKind.For, NodeKind.Return,
               NodeKind.Break, NodeKind.Continue, NodeKind.ExprStmt, NodeKind.TypeNode])
    (t : String) (b : Bool) (cs : List (Option ASTNode)) (st : GenSt) :
    GenExpressionN (ASTNode.mk k t b cs) st = st := by
  fin_cases hk
  all_goals rfl

end Petukh

namespace Petukh

def BC (t : String) : List Instruction := (binOpEmit t g0).code

theorem binOpEmit_frame (t : String) (st : GenSt) :
    binOpEmit t st = { st with code := st.code ++ BC t } := by
  simp only [BC, binOpEmit]
  by_cases h1 : (t == "+") = true
  · simp [h1, emit_frame, g0]
  by_cases h2 : (t == "-") = true
  · simp [h1, h2, emit_frame, g0]
  by_cases h3 : (t == "*") = true
  · simp [h1, h2, h3, emit_frame, g0]
  by_cases h4 : (t == "/") = true
  · simp [h1, h2, h3, h4, emit_frame, g0]
  by_cases h5 : (t == "%") = true
  · simp [h1, h2, h3, h4, h5, emit_frame, g0]
  by_cases h6 : (t == "==") = true
  · simp [h1, h2, h3, h4, h5, h6, emit_frame, g0]
  by_cases h7 : (t == "!=") = true
  · simp [h1, h2, h3, h4, h5, h6, h7, emit_frame, g0]
  by_cases h8 : (t == "<") = true
  · simp [h1, h2, h3, h4, h5, h6, h7, h8, emit_frame, g0]
  by_cases h9 : (t == ">") = true
  · simp [h1, h2, h3, h4, h5, h6, h7, h8, h9, emit_frame, g0]
  by_cases h10 : (t == "<=") = true
  · simp [h1, h2, h3, h4, h5, h6, h7, h8, h9, h10, emit_frame, g0]
  by_cases h11 : (t == ">=") = true
  · simp [h1, h2, h3, h4, h5, h6, h7, h8, h9, h10, h11, emit_frame, g0]
  · simp [h1, h2, h3, h4, h5, h6, h7, h8, h9, h10, h11, g0]

mutual

theorem genExprN_frame (n : ASTNode) (st : GenSt) :
    GenExpressionN n st = { st with code := st.code ++ EC n } := by
  obtain ⟨k, t, b, cs⟩ := n
  cases k
  case Number =>
    simp only [EC]
    rw [geqN_number, geqN_number]
    by_cases hf : IsFloatingLiteral t = true
    · simp [hf, emit_frame, g0]
    · simp [hf, emit_frame, g0]
  case String =>
    simp only [EC]
    rw [geqN_string, geqN_string]
    simp [emit_frame, g0]
  case Identifier =>
    simp only [EC]
    rw [geqN_ident, geqN_ident]
    simp [emit_frame, g0]
  case Unary =>
    rcases cs with _ | ⟨c0, tl⟩
    · simp only [EC]
      rw [geqN_unary_nil, geqN_unary_nil]
      simp [g0]
    rcases c0 with _ | m
    · simp only [EC]
      rw [geqN_unary_none, geqN_unary_none]
      by_cases h1 : (t == "-") = true
      · simp [h1, emit_frame, g0]
      by_cases h2 : (t == "!") = true
      · simp [h1, h2, emit_frame, g0]
      · simp [h1, h2, g0]
    · have h0 : ∀ s, GenExpressionN m s = { s with code := s.code ++ EC m } :=
        fun s => genExprN_frame m s
      simp only [EC]
      rw [geqN_unary_some, geqN_unary_some]
      by_cases h1 : (t == "-") = true
      · simp [h1, h0, emit_frame, g0, List.append_assoc]
      by_cases h2 : (t == "!") = true
      · simp [h1, h2, h0, emit_frame, g0, List.append_assoc]
      · simp [h1, h2, h0, g0]
  case Binary =>
    rcases cs with _ | ⟨c0, cs1⟩
    · simp only [EC]
      rw [geqN_binary_nil, geqN_binary_nil]
      simp [g0]
    rcases cs1 with _ | ⟨c1, tl⟩
    · simp only [EC]
      rw [geqN_binary_one, geqN_binary_one]
      simp [g0]
    rcases c0 with _ | m0 <;> rcases c1 with _ | m1
    · simp only [EC]
      rw [geqN_binary_nn, geqN_binary_nn]
      simp [binOpEmit_frame, g0]
    · have h1 : ∀ s, GenExpressionN m1 s = { s with code := s.code ++ EC m1 } :=
        fun s => genExprN_frame m1 s
      simp only [EC]
      rw [geqN_binary_ns, geqN_binary_ns]
      simp [h1, binOpEmit_frame, g0, List.append_assoc]
    · have h0 : ∀ s, GenExpressionN m0 s = { s with code := s.code ++ EC m0 } :=
        fun s => genExprN_frame m0 s
      simp only [EC]
      rw [geqN_binary_sn, geqN_binary_sn]
      simp [h0, binOpEmit_frame, g0, List.append_assoc]
    · have h0 : ∀ s, GenExpressionN m0 s = { s with code := s.code ++ EC m0 } :=
        fun s => genExprN_frame m0 s
      have h1 : ∀ s, GenExpressionN m1 s = { s with code := s.code ++ EC m1 } :=
        fun s => genExprN_frame m1 s
      simp only [EC]
      rw [geqN_binary_ss, geqN_binary_ss]
      simp [h0, h1, binOpEmit_frame, g0, List.append_assoc]
  case Call =>
    rcases cs with _ | ⟨callee, args⟩
    · simp only [EC]
      rw [geqN_call_nil, geqN_call_nil]
      simp [g0]
    · have hL : ∀ s, GenExprList args s = { s with code := s.code ++ ECL args } :=
        fun s => genExprList_frame args s
      simp only [EC]
      rw [geqN_call_cons, geqN_call_cons]
      simp [hL, emit_frame, g0, List.append_assoc]
  case Index =>
    rcases cs with _ | ⟨c0, cs1⟩
    · simp only [EC]
      rw [geqN_index_nil, geqN_index_nil]
      simp [g0]
    rcases cs1 with _ | ⟨c1, tl⟩
    · simp only [EC]
      rw [geqN_index_one, geqN_index_one]
      simp [g0]
    rcases c0 with _ | m0 <;> rcases c1 with _ | m1
    · simp only [EC]
      rw [geqN_index_nn, geqN_index_nn]
      simp [emit_frame, g0]
    · have h1 : ∀ s, GenExpressionN m1 s = { s with code := s.code ++ EC m1 } :=
        fun s => genExprN_frame m1 s
      simp only [EC]
      rw [geqN_index_ns, geqN_index_ns]
      simp [h1, emit_frame, g0, List.append_assoc]
    · have h0 : ∀ s, GenExpressionN m0 s = { s with code := s.code ++ EC m0 } :=
        fun s => genExprN_frame m0 s
      simp only [EC]
      rw [geqN_index_sn, geqN_index_sn]
      simp [h0, emit_frame, g0, List.append_assoc]
    · have h0 : ∀ s, GenExpressionN m0 s = { s with code := s.code ++ EC m0 } :=
        fun s => genExprN_frame m0 s
      have h1 : ∀ s, GenExpressionN m1 s = { s with code := s.code ++ EC m1 } :=
        fun s => genExprN_frame m1 s
      simp only [EC]
      rw [geqN_index_ss, geqN_index_ss]
      simp [h0, h1, emit_frame, g0, List.append_assoc]
  case Assign =>
    rcases cs with _ | ⟨c0, cs1⟩
    · simp only [EC]
      rw [geqN_assign_nil, geqN_assign_nil]
      simp [g0]
    rcases cs1 with _ | ⟨c1, tl⟩
    · simp only [EC]
      rw [geqN_assign_one, geqN_assign_one]
      simp [g0]
    rcases c0 with _ | lhs
    · simp only [EC]
      rw [geqN_assign_nonelhs, geqN_assign_nonelhs]
      simp [g0]
    obtain ⟨lk, lt, lb, lcs⟩ := lhs
    by_cases hlk : lk = NodeKind.Index
    · subst hlk
      rcases lcs with _ | ⟨a0, lcs1⟩
      · simp only [EC]
        rw [geqN_assign_idx_nil, geqN_assign_idx_nil]
        simp [g0]
      rcases lcs1 with _ | ⟨i0, itl⟩
      · simp only [EC]
        rw [geqN_assign_idx_one, geqN_assign_idx_one]
        simp [g0]
      rcases a0 with _ | ma <;> rcases i0 with _ | mi <;> rcases c1 with _ | mr
      · simp only [EC]
        rw [geqN_assign_idx_nnn, geqN_assign_idx_nnn]
        simp [emit_frame, g0]
      · have hr : ∀ s, GenExpressionN mr s = { s with code := s.code ++ EC mr } :=
          fun s => genExprN_frame mr s
        simp only [EC]
        rw [geqN_assign_idx_nns, geqN_assign_idx_nns]
        simp [hr, emit_frame, g0, List.append_assoc]
      · have hi : ∀ s, GenExpressionN mi s = { s with code := s.code ++ EC mi } :=
          fun s => genExprN_frame mi s
        simp only [EC]
        rw [geqN_assign_idx_nsn, geqN_assign_idx_nsn]
        simp [hi, emit_frame, g0, List.append_assoc]
      · have hi : ∀ s, GenExpressionN mi s = { s with code := s.code ++ EC mi } :=
          fun s => genExprN_frame mi s
        have hr : ∀ s, GenExpressionN mr s = { s with code := s.code ++ EC mr } :=
          fun s => genExprN_frame mr s
        simp only [EC]
        rw [geqN_assign_idx_nss, geqN_assign_idx_nss]
        simp [hi, hr, emit_frame, g0, List.append_assoc]
      · have ha : ∀ s, GenExpressionN ma s = { s with code := s.code ++ EC ma } :=
          fun s => genExprN_frame ma s
        simp only [EC]
        rw [geqN_assign_idx_snn, geqN_assign_idx_snn]
        by_cases hid : ma.kind = NodeKind.Identifier
        · simp [hid, emit_frame, g0]
        · simp [hid, ha, emit_frame, g0, List.append_assoc]
      · have ha : ∀ s, GenExpressionN ma s = { s with code := s.code ++ EC ma } :=
          fun s => genExprN_frame ma s
        have hr : ∀ s, GenExpressionN mr s = { s with code := s.code ++ EC mr } :=
          fun s => genExprN_frame mr s
        simp only [EC]
        rw [geqN_assign_idx_sns, geqN_assign_idx_sns]
        by_cases hid : ma.kind = NodeKind.Identifier
        · simp [hid, hr, emit_frame, g0, List.append_assoc]
        · simp [hid, ha, hr, emit_frame, g0, List.append_assoc]
      · have ha : ∀ s, GenExpressionN ma s = { s with code := s.code ++ EC ma } :=
          fun s => genExprN_frame ma s
        have hi : ∀ s, GenExpressionN mi s = { s with code := s.code ++ EC mi } :=
          fun s => genExprN_frame mi s
        simp only [EC]
        rw [geqN_assign_idx_ssn, geqN_assign_idx_ssn]
        by_cases hid : ma.kind = NodeKind.Identifier
        · simp [hid, hi, emit_frame, g0, List.append_assoc]
        · simp [hid, ha, hi, emit_frame, g0, List.append_assoc]
      · have ha : ∀ s, GenExpressionN ma s = { s with code := s.code ++ EC ma } :=
          fun s => genExprN_frame ma s
        have hi : ∀ s, GenExpressionN mi s = { s with code := s.code ++ EC mi } :=
          fun s => genExprN_frame mi s
        have hr : ∀ s, GenExpressionN mr s = { s with code := s.code ++ EC mr } :=
          fun s => genExprN_frame mr s
        simp only [EC]
        rw [geqN_assign_idx_sss, geqN_assign_idx_sss]
        by_cases hid : ma.kind = NodeKind.Identifier
        · simp [hid, hi, hr, emit_frame, g0, List.append_assoc]
        · simp [hid, ha, hi, hr, emit_frame, g0, List.append_assoc]
    · rcases c1 with _ | mr
      · simp only [EC]
        rw [geqN_assign_other_none lk hlk, geqN_assign_other_none lk hlk]
        simp [emit_frame, g0]
      · have hr : ∀ s, GenExpressionN mr s = { s with code := s.code ++ EC mr } :=
          fun s => genExprN_frame mr s
        simp only [EC]
        rw [geqN_assign_other_some lk hlk, geqN_assign_other_some lk hlk]
        simp [hr, emit_frame, g0, List.append_assoc]
  case CommaExpr =>
    have hL : ∀ s, GenExprList cs s = { s with code := s.code ++ ECL cs } :=
      fun s => genExprList_frame cs s
    simp only [EC]
    rw [geqN_comma, geqN_comma]
    simp [hL, g0]
  all_goals
    simp only [EC]
    rw [geqN_other _ (by decide), geqN_other _ (by decide)]
    simp [g0]
termination_by sizeOf n

theorem genExprList_frame (cs : List (Option ASTNode)) (st : GenSt) :
    GenExprList cs st = { st with code := st.code ++ ECL cs } := by
  match cs with
  | [] =>
    simp only [ECL]
    rw [geqL_nil, geqL_nil]
    simp [g0]
  | Option.none :: rest =>
    have hr : ∀ s, GenExprList rest s = { s with code := s.code ++ ECL rest } :=
      fun s => genExprList_frame rest s
    simp only [ECL]
    rw [geqL_cons_none, geqL_cons_none]
    simp [hr, g0]
  | Option.some m :: rest =>
    have h0 : ∀ s, GenExpressionN m s = { s with code := s.code ++ EC m } :=
      fun s => genExprN_frame m s
    have hr : ∀ s, GenExprList rest s = { s with code := s.code ++ ECL rest } :=
      fun s => genExprList_frame rest s
    simp only [ECL]
    rw [geqL_cons_some, geqL_cons_some]
    simp [h0, hr, g0, List.append_assoc]
termination_by sizeOf cs

end

theorem genExprN_code_prefix (n : ASTNode) (st : GenSt) :
    st.code <+: (GenExpressionN n st).code := by
  rw [genExprN_frame]
  exact ⟨EC n, rfl⟩

theorem genExprList_code_prefix (cs : List (Option ASTNode)) (st : GenSt) :
    st.code <+: (GenExprList cs st).code := by
  rw [genExprList_frame]
  exact ⟨ECL cs, rfl⟩

end Petukh

namespace Petukh

theorem gseq_block (t : String) (b : Bool) (cs : List (Option ASTNode)) (st : GenSt) :
    GenStatementN (ASTNode.mk NodeKind.Block t b cs) st = GenStatements cs st := rfl

end Petukh

namespace Petukh

theorem gseq_exprstmt_nil (t : String) (b : Bool) (st : GenSt) :
    GenStatementN (ASTNode.mk NodeKind.ExprStmt t b []) st = st := rfl

theorem gseq_exprstmt_cons (t : String) (b : Bool) (e : Option ASTNode)
    (tl : List (Option ASTNode)) (st : GenSt) :
    GenStatementN (ASTNode.mk NodeKind.ExprStmt t b (e :: tl)) st =
      (let st1 := GenExpression e st
       if optKind e != NodeKind.Call && optKind e != NodeKind.Assign then
         emit st1 OpCode.POP
       else st1) := rfl

theorem gseq_vdl_nil (t : String) (b : Bool) (st : GenSt) :
    GenStatementN (ASTNode.mk NodeKind.VarDeclList t b []) st = st := rfl

theorem gseq_vdl_cons (t : String) (b : Bool) (v0 : Option ASTNode)
    (vars : List (Option ASTNode)) (st : GenSt) :
    GenStatementN (ASTNode.mk NodeKind.VarDeclList t b (v0 :: vars)) st =
      GenVarDecls vars st := rfl

theorem gseq_assign_stmt (t : String) (ar : Bool) (cs : List (Option ASTNode)) (st : GenSt) :
    GenStatementN (ASTNode.mk NodeKind.Assign t ar cs) st =
      (if cs.isEmpty then st
       else GenExpression (Option.some (ASTNode.mk NodeKind.Assign t ar cs)) st) := rfl

theorem gseq_if (t : String) (b : Bool) (cs : List (Option ASTNode)) (st : GenSt) :
    GenStatementN (ASTNode.mk NodeKind.If t b cs) st = GenIf cs st := rfl

theorem gseq_return_nil (t : String) (b : Bool) (st : GenSt) :
    GenStatementN (ASTNode.mk NodeKind.Return t b []) st = emit st OpCode.RET := rfl

theorem gseq_return_cons (t : String) (b : Bool) (c0 : Option ASTNode)
    (tl : List (Option ASTNode)) (st : GenSt) :
    GenStatementN (ASTNode.mk NodeKind.Return t b (c0 :: tl)) st =
      emit (GenExpression c0 st) OpCode.RET := rfl

theorem gseq_break_nil (t : String) (b : Bool) (cs : List (Option ASTNode))
    (code : List Instruction) (lc : Nat) (cls : List String) :
    GenStatementN (ASTNode.mk NodeKind.Break t b cs)
      { code := code, labelCounter := lc, breakLabels := [], continueLabels := cls } =
      { code := code, labelCounter := lc, breakLabels := [], continueLabels := cls } := rfl

theorem gseq_break_cons (t : String) (b : Bool) (cs : List (Option ASTNode))
    (code : List Instruction) (lc : Nat) (l : String) (bls cls : List String) :
    GenStatementN (ASTNode.mk NodeKind.Break t b cs)
      { code := code, labelCounter := lc, breakLabels := l :: bls, continueLabels := cls } =
      emit { code := code, labelCounter := lc, breakLabels := l :: bls, continueLabels := cls }
        OpCode.JMP l := rfl

theorem gseq_continue_nil (t : String) (b : Bool) (cs : List (Option ASTNode))
    (code : List Instruction) (lc : Nat) (bls : List String) :
    GenStatementN (ASTNode.mk NodeKind.Continue t b cs)
      { code := code, labelCounter := lc, breakLabels := bls, continueLabels := [] } =
      { code := code, labelCounter := lc, breakLabels := bls, continueLabels := [] } := rfl

theorem gseq_continue_cons (t : String) (b : Bool) (cs : List (Option ASTNode))
    (code : List Instruction) (lc : Nat) (l : String) (bls cls : List String) :
    GenStatementN (ASTNode.mk NodeKind.Continue t b cs)
      { code := code, labelCounter := lc, breakLabels := bls, continueLabels := l :: cls } =
      emit { code := code, labelCounter := lc, breakLabels := bls, continueLabels := l :: cls }
        OpCode.JMP l := rfl

theorem gseq_while_nil (t : String) (b : Bool) (st : GenSt) :
    GenStatementN (ASTNode.mk NodeKind.While t b []) st = st := rfl

theorem gseq_while_one (t : String) (b : Bool) (c0 : Option ASTNode) (st : GenSt) :
    GenStatementN (ASTNode.mk NodeKind.While t b [c0]) st = st := rfl

theorem gseq_dowhile_nil (t : String) (b : Bool) (st : GenSt) :
    GenStatementN (ASTNode.mk NodeKind.DoWhile t b []) st = st := rfl

theorem gseq_dowhile_one (t : String) (b : Bool) (c0 : Option ASTNode) (st : GenSt) :
    GenStatementN (ASTNode.mk NodeKind.DoWhile t b [c0]) st = st := rfl

theorem gseq_for_nil (t : String) (b : Bool) (st : GenSt) :
    GenStatementN (ASTNode.mk NodeKind.For t b []) st = st := rfl

theorem gseq_for_one (t : String) (b : Bool) (c0 : Option ASTNode) (st : GenSt) :
    GenStatementN (ASTNode.mk NodeKind.For t b [c0]) st = st := rfl

theorem gseq_for_two (t : String) (b : Bool) (c0 c1 : Option ASTNode) (st : GenSt) :
    GenStatementN (ASTNode.mk NodeKind.For t b [c0, c1]) st = st := rfl

theorem gseq_for_three (t : String) (b : Bool) (c0 c1 c2 : Option ASTNode) (st : GenSt) :
    GenStatementN (ASTNode.mk NodeKind.For t b [c0, c1, c2]) st = st := rfl

theorem gseq_while_none (t : String) (b : Bool) (c0 : Option ASTNode)
    (tl : List (Option ASTNode)) (st : GenSt) :
    GenStatementN (ASTNode.mk NodeKind.While t b (c0 :: Option.none :: tl)) st =
      (let p1 := NewLabel st
       let p2 := NewLabel p1.2
       let startL := p1.1
       let endL := p2.1
       let st := p2.2
       let st := { st with breakLabels := endL :: st.breakLabels,
                           continueLabels := startL :: st.continueLabels }
       let st := emit st OpCode.LABEL startL
       let st := GenExpression c0 st
       let st := emit st OpCode.JZ endL
       let st := st
       let st := emit st OpCode.JMP startL
       let st := emit st OpCode.LABEL endL
       { st with breakLabels := st.breakLabels.tail,
                 continueLabels := st.continueLabels.tail }) := rfl

theorem gseq_while_some (t : String) (b : Bool) (c0 : Option ASTNode) (m : ASTNode)
    (tl : List (Option ASTNode)) (st : GenSt) :
    GenStatementN (ASTNode.mk NodeKind.While t b (c0 :: Option.some m :: tl)) st =
      (let p1 := NewLabel st
       let p2 := NewLabel p1.2
       let startL := p1.1
       let endL := p2.1
       let st := p2.2
       let st := { st with breakLabels := endL :: st.breakLabels,
                           continueLabels := startL :: st.continueLabels }
       let st := emit st OpCode.LABEL startL
       let st := GenExpression c0 st
       let st := emit st OpCode.JZ endL
       let st := GenStatementN m st
       let st := emit st OpCode.JMP startL
       let st := emit st OpCode.LABEL endL
       { st with breakLabels := st.breakLabels.tail,
                 continueLabels := st.continueLabels.tail }) := rfl

theorem gseq_dowhile_none (t : String) (b : Bool) (c1 : Option ASTNode)
    (tl : List (Option ASTNode)) (st : GenSt) :
    GenStatementN (ASTNode.mk NodeKind.DoWhile t b (Option.none :: c1 :: tl)) st =
      (let p1 := NewLabel st
       let p2 := NewLabel p1.2
       let startL := p1.1
       let endL := p2.1
       let st := p2.2
       let st := { st with breakLabels := endL :: st.breakLabels,
                           continueLabels := startL :: st.continueLabels }
       let st := emit st OpCode.LABEL startL
       let st := st
       let st := GenExpression c1 st
       let st := emit st OpCode.JZ endL
       let st := emit st OpCode.JMP startL
       let st := emit st OpCode.LABEL endL
       { st with breakLabels := st.breakLabels.tail,
                 continueLabels := st.continueLabels.tail }) := rfl

theorem gseq_dowhile_some (t : String) (b : Bool) (m : ASTNode) (c1 : Option ASTNode)
    (tl : List (Option ASTNode)) (st : GenSt) :
    GenStatementN (ASTNode.mk NodeKind.DoWhile t b (Option.some m :: c1 :: tl)) st =
      (let p1 := NewLabel st
       let p2 := NewLabel p1.2
       let startL := p1.1
       let endL := p2.1
       let st := p2.2
       let st := { st with breakLabels := endL :: st.breakLabels,
                           continueLabels := startL :: st.continueLabels }
       let st := emit st OpCode.LABEL startL
       let st := GenStatementN m st
       let st := GenExpression c1 st
       let st := emit st OpCode.JZ endL
       let st := emit st OpCode.JMP startL
       let st := emit st OpCode.LABEL endL
       { st with breakLabels := st.breakLabels.tail,
                 continueLabels := st.continueLabels.tail }) := rfl

theorem gseq_for_nnnn (t : String) (b : Bool) 
    (tl : List (Option ASTNode)) (st : GenSt) :
    GenStatementN (ASTNode.mk NodeKind.For t b
        (Option.none :: Option.none :: Option.none :: Option.none :: tl)) st =
      (let p1 := NewLabel st
       let p2 := NewLabel p1.2
       let p3 := NewLabel p2.2
       let startLabel := p1.1
       let stepLabel := p2.1
       let endLabel := p3.1
       let st := p3.2
       let st := { st with breakLabels := endLabel :: st.breakLabels,
                           continueLabels := stepLabel :: st.continueLabels }
       let st := st
       let st := emit st OpCode.LABEL startLabel
       let st := st
       let st := st
       let st := emit st OpCode.LABEL stepLabel
       let st := st
       let st := emit st OpCode.JMP startLabel
       let st := emit st OpCode.LABEL endLabel
       { st with breakLabels := st.breakLabels.tail,
                 continueLabels := st.continueLabels.tail }) := rfl

theorem gseq_for_nnns (t : String) (b : Bool) (s3 : ASTNode)
    (tl : List (Option ASTNode)) (st : GenSt) :
    GenStatementN (ASTNode.mk NodeKind.For t b
        (Option.none :: Option.none :: Option.none :: Option.some s3 :: tl)) st =
      (let p1 := NewLabel st
       let p2 := NewLabel p1.2
       let p3 := NewLabel p2.2
       let startLabel := p1.1
       let stepLabel := p2.1
       let endLabel := p3.1
       let st := p3.2
       let st := { st with breakLabels := endLabel :: st.breakLabels,
                           continueLabels := stepLabel :: st.continueLabels }
       let st := st
       let st := emit st OpCode.LABEL startLabel
       let st := st
       let st := GenStatementN s3 st
       let st := emit st OpCode.LABEL stepLabel
       let st := st
       let st := emit st OpCode.JMP startLabel
       let st := emit st OpCode.LABEL endLabel
       { st with breakLabels := st.breakLabels.tail,
                 continueLabels := st.continueLabels.tail }) := rfl

theorem gseq_for_nnsn (t : String) (b : Bool) (e2 : ASTNode)
    (tl : List (Option ASTNode)) (st : GenSt) :
    GenStatementN (ASTNode.mk NodeKind.For t b
        (Option.none :: Option.none :: Option.some e2 :: Option.none :: tl)) st =
      (let p1 := NewLabel st
       let p2 := NewLabel p1.2
       let p3 := NewLabel p2.2
       let startLabel := p1.1
       let stepLabel := p2.1
       let endLabel := p3.1
       let st := p3.2
       let st := { st with breakLabels := endLabel :: st.breakLabels,
                           continueLabels := stepLabel :: st.continueLabels }
       let st := st
       let st := emit st OpCode.LABEL startLabel
       let st := st
       let st := st
       let st := emit st OpCode.LABEL stepLabel
       let st := (let st1 := GenExpression (Option.some e2) st
                 if e2.kind != NodeKind.Call && e2.kind != NodeKind.Assign then
                   emit st1 OpCode.POP
                 else st1)
       let st := emit st OpCode.JMP startLabel
       let st := emit st OpCode.LABEL endLabel
       { st with breakLabels := st.breakLabels.tail,
                 continueLabels := st.continueLabels.tail }) := rfl

theorem gseq_for_nnss (t : String) (b : Bool) (e2 s3 : ASTNode)
    (tl : List (Option ASTNode)) (st : GenSt) :
    GenStatementN (ASTNode.mk NodeKind.For t b
        (Option.none :: Option.none :: Option.some e2 :: Option.some s3 :: tl)) st =
      (let p1 := NewLabel st
       let p2 := NewLabel p1.2
       let p3 := NewLabel p2.2
       let startLabel := p1.1
       let stepLabel := p2.1
       let endLabel := p3.1
       let st := p3.2
       let st := { st with breakLabels := endLabel :: st.breakLabels,
                           continueLabels := stepLabel :: st.continueLabels }
       let st := st
       let st := emit st OpCode.LABEL startLabel
       let st := st
       let st := GenStatementN s3 st
       let st := emit st OpCode.LABEL stepLabel
       let st := (let st1 := GenExpression (Option.some e2) st
                 if e2.kind != NodeKind.Call && e2.kind != NodeKind.Assign then
                   emit st1 OpCode.POP
                 else st1)
       let st := emit st OpCode.JMP startLabel
       let st := emit st OpCode.LABEL endLabel
       { st with breakLabels := st.breakLabels.tail,
                 continueLabels := st.continueLabels.tail }) := rfl

theorem gseq_for_nsnn (t : String) (b : Bool) (e1 : ASTNode)
    (tl : List (Option ASTNode)) (st : GenSt) :
    GenStatementN (ASTNode.mk NodeKind.For t b
        (Option.none :: Option.some e1 :: Option.none :: Option.none :: tl)) st =
      (let p1 := NewLabel st
       let p2 := NewLabel p1.2
       let p3 := NewLabel p2.2
       let startLabel := p1.1
       let stepLabel := p2.1
       let endLabel := p3.1
       let st := p3.2
       let st := { st with breakLabels := endLabel :: st.breakLabels,
                           continueLabels := stepLabel :: st.continueLabels }
       let st := st
       let st := emit st OpCode.LABEL startLabel
       let st := emit (GenExpression (Option.some e1) st) OpCode.JZ endLabel
       let st := st
       let st := emit st OpCode.LABEL stepLabel
       let st := st
       let st := emit st OpCode.JMP startLabel
       let st := emit st OpCode.LABEL endLabel
       { st with breakLabels := st.breakLabels.tail,
                 continueLabels := st.continueLabels.tail }) := rfl

theorem gseq_for_nsns (t : String) (b : Bool) (e1 s3 : ASTNode)
    (tl : List (Option ASTNode)) (st : GenSt) :
    GenStatementN (ASTNode.mk NodeKind.For t b
        (Option.none :: Option.some e1 :: Option.none :: Option.some s3 :: tl)) st =
      (let p1 := NewLabel st
       let p2 := NewLabel p1.2
       let p3 := NewLabel p2.2
       let startLabel := p1.1
       let stepLabel := p2.1
       let endLabel := p3.1
       let st := p3.2
       let st := { st with breakLabels := endLabel :: st.breakLabels,
                           continueLabels := stepLabel :: st.continueLabels }
       let st := st
       let st := emit st OpCode.LABEL startLabel
       let st := emit (GenExpression (Option.some e1) st) OpCode.JZ endLabel
       let st := GenStatementN s3 st
       let st := emit st OpCode.LABEL stepLabel
       let st := st
       let st := emit st OpCode.JMP startLabel
       let st := emit st OpCode.LABEL endLabel
       { st with breakLabels := st.breakLabels.tail,
                 continueLabels := st.continueLabels.tail }) := rfl

theorem gseq_for_nssn (t : String) (b : Bool) (e1 e2 : ASTNode)
    (tl : List (Option ASTNode)) (st : GenSt) :
    GenStatementN (ASTNode.mk NodeKind.For t b
        (Option.none :: Option.some e1 :: Option.some e2 :: Option.none :: tl)) st =
      (let p1 := NewLabel st
       let p2 := NewLabel p1.2
       let p3 := NewLabel p2.2
       let startLabel := p1.1
       let stepLabel := p2.1
       let endLabel := p3.1
       let st := p3.2
       let st := { st with breakLabels := endLabel :: st.breakLabels,
                           continueLabels := stepLabel :: st.continueLabels }
       let st := st
       let st := emit st OpCode.LABEL startLabel
       let st := emit (GenExpression (Option.some e1) st) OpCode.JZ endLabel
       let st := st
       let st := emit st OpCode.LABEL stepLabel
       let st := (let st1 := GenExpression (Option.some e2) st
                 if e2.kind != NodeKind.Call && e2.kind != NodeKind.Assign then
                   emit st1 OpCode.POP
                 else st1)
       let st := emit st OpCode.JMP startLabel
       let st := emit st OpCode.LABEL endLabel
       { st with breakLabels := st.breakLabels.tail,
                 continueLabels := st.continueLabels.tail }) := rfl

theorem gseq_for_nsss (t : String) (b : Bool) (e1 e2 s3 : ASTNode)
    (tl : List (Option ASTNode)) (st : GenSt) :
    GenStatementN (ASTNode.mk NodeKind.For t b
        (Option.none :: Option.some e1 :: Option.some e2 :: Option.some s3 :: tl)) st =
      (let p1 := NewLabel st
       let p2 := NewLabel p1.2
       let p3 := NewLabel p2.2
       let startLabel := p1.1
       let stepLabel := p2.1
       let endLabel := p3.1
       let st := p3.2
       let st := { st with breakLabels := endLabel :: st.breakLabels,
                           continueLabels := stepLabel :: st.continueLabels }
       let st := st
       let st := emit st OpCode.LABEL startLabel
       let st := emit (GenExpression (Option.some e1) st) OpCode.JZ endLabel
       let st := GenStatementN s3 st
       let st := emit st OpCode.LABEL stepLabel
       let st := (let st1 := GenExpression (Option.some e2) st
                 if e2.kind != NodeKind.Call && e2.kind != NodeKind.Assign then
                   emit st1 OpCode.POP
                 else st1)
       let st := emit st OpCode.JMP startLabel
       let st := emit st OpCode.LABEL endLabel
       { st with breakLabels := st.breakLabels.tail,
                 continueLabels := st.continueLabels.tail }) := rfl

theorem gseq_for_snnn (t : String) (b : Bool) (s0 : ASTNode)
    (tl : List (Option ASTNode)) (st : GenSt) :
    GenStatementN (ASTNode.mk NodeKind.For t b
        (Option.some s0 :: Option.none :: Option.none :: Option.none :: tl)) st =
      (let p1 := NewLabel st
       let p2 := NewLabel p1.2
       let p3 := NewLabel p2.2
       let startLabel := p1.1
       let stepLabel := p2.1
       let endLabel := p3.1
       let st := p3.2
       let st := { st with breakLabels := endLabel :: st.breakLabels,
                           continueLabels := stepLabel :: st.continueLabels }
       let st := GenStatementN s0 st
       let st := emit st OpCode.LABEL startLabel
       let st := st
       let st := st
       let st := emit st OpCode.LABEL stepLabel
       let st := st
       let st := emit st OpCode.JMP startLabel
       let st := emit st OpCode.LABEL endLabel
       { st with breakLabels := st.breakLabels.tail,
                 continueLabels := st.continueLabels.tail }) := rfl

theorem gseq_for_snns (t : String) (b : Bool) (s0 s3 : ASTNode)
    (tl : List (Option ASTNode)) (st : GenSt) :
    GenStatementN (ASTNode.mk NodeKind.For t b
        (Option.some s0 :: Option.none :: Option.none :: Option.some s3 :: tl)) st =
      (let p1 := NewLabel st
       let p2 := NewLabel p1.2
       let p3 := NewLabel p2.2
       let startLabel := p1.1
       let stepLabel := p2.1
       let endLabel := p3.1
       let st := p3.2
       let st := { st with breakLabels := endLabel :: st.breakLabels,
                           continueLabels := stepLabel :: st.continueLabels }
       let st := GenStatementN s0 st
       let st := emit st OpCode.LABEL startLabel
       let st := st
       let st := GenStatementN s3 st
       let st := emit st OpCode.LABEL stepLabel
       let st := st
       let st := emit st OpCode.JMP startLabel
       let st := emit st OpCode.LABEL endLabel
       { st with breakLabels := st.breakLabels.tail,
                 continueLabels := st.continueLabels.tail }) := rfl

theorem gseq_for_snsn (t : String) (b : Bool) (s0 e2 : ASTNode)
    (tl : List (Option ASTNode)) (st : GenSt) :
    GenStatementN (ASTNode.mk NodeKind.For t b
        (Option.some s0 :: Option.none :: Option.some e2 :: Option.none :: tl)) st =
      (let p1 := NewLabel st
       let p2 := NewLabel p1.2
       let p3 := NewLabel p2.2
       let startLabel := p1.1
       let stepLabel := p2.1
       let endLabel := p3.1
       let st := p3.2
       let st := { st with breakLabels := endLabel :: st.breakLabels,
                           continueLabels := stepLabel :: st.continueLabels }
       let st := GenStatementN s0 st
       let st := emit st OpCode.LABEL startLabel
       let st := st
       let st := st
       let st := emit st OpCode.LABEL stepLabel
       let st := (let st1 := GenExpression (Option.some e2) st
                 if e2.kind != NodeKind.Call && e2.kind != NodeKind.Assign then
                   emit st1 OpCode.POP
                 else st1)
       let st := emit st OpCode.JMP startLabel
       let st := emit st OpCode.LABEL endLabel
       { st with breakLabels := st.breakLabels.tail,
                 continueLabels := st.continueLabels.tail }) := rfl

theorem gseq_for_snss (t : String) (b : Bool) (s0 e2 s3 : ASTNode)
    (tl : List (Option ASTNode)) (st : GenSt) :
    GenStatementN (ASTNode.mk NodeKind.For t b
        (Option.some s0 :: Option.none :: Option.some e2 :: Option.some s3 :: tl)) st =
      (let p1 := NewLabel st
       let p2 := NewLabel p1.2
       let p3 := NewLabel p2.2
       let startLabel := p1.1
       let stepLabel := p2.1
       let endLabel := p3.1
       let st := p3.2
       let st := { st with breakLabels := endLabel :: st.breakLabels,
                           continueLabels := stepLabel :: st.continueLabels }
       let st := GenStatementN s0 st
       let st := emit st OpCode.LABEL startLabel
       let st := st
       let st := GenStatementN s3 st
       let st := emit st OpCode.LABEL stepLabel
       let st := (let st1 := GenExpression (Option.some e2) st
                 if e2.kind != NodeKind.Call && e2.kind != NodeKind.Assign then
                   emit st1 OpCode.POP
                 else st1)
       let st := emit st OpCode.JMP startLabel
       let st := emit st OpCode.LABEL endLabel
       { st with breakLabels := st.breakLabels.tail,
                 continueLabels := st.continueLabels.tail }) := rfl

theorem gseq_for_ssnn (t : String) (b : Bool) (s0 e1 : ASTNode)
    (tl : List (Option ASTNode)) (st : GenSt) :
    GenStatementN (ASTNode.mk NodeKind.For t b
        (Option.some s0 :: Option.some e1 :: Option.none :: Option.none :: tl)) st =
      (let p1 := NewLabel st
       let p2 := NewLabel p1.2
       let p3 := NewLabel p2.2
       let startLabel := p1.1
       let stepLabel := p2.1
       let endLabel := p3.1
       let st := p3.2
       let st := { st with breakLabels := endLabel :: st.breakLabels,
                           continueLabels := stepLabel :: st.continueLabels }
       let st := GenStatementN s0 st
       let st := emit st OpCode.LABEL startLabel
       let st := emit (GenExpression (Option.some e1) st) OpCode.JZ endLabel
       let st := st
       let st := emit st OpCode.LABEL stepLabel
       let st := st
       let st := emit st OpCode.JMP startLabel
       let st := emit st OpCode.LABEL endLabel
       { st with breakLabels := st.breakLabels.tail,
                 continueLabels := st.continueLabels.tail }) := rfl

theorem gseq_for_ssns (t : String) (b : Bool) (s0 e1 s3 : ASTNode)
    (tl : List (Option ASTNode)) (st : GenSt) :
    GenStatementN (ASTNode.mk NodeKind.For t b
        (Option.some s0 :: Option.some e1 :: Option.none :: Option.some s3 :: tl)) st =
      (let p1 := NewLabel st
       let p2 := NewLabel p1.2
       let p3 := NewLabel p2.2
       let startLabel := p1.1
       let stepLabel := p2.1
       let endLabel := p3.1
       let st := p3.2
       let st := { st with breakLabels := endLabel :: st.breakLabels,
                           continueLabels := stepLabel :: st.continueLabels }
       let st := GenStatementN s0 st
       let st := emit st OpCode.LABEL startLabel
       let st := emit (GenExpression (Option.some e1) st) OpCode.JZ endLabel
       let st := GenStatementN s3 st
       let st := emit st OpCode.LABEL stepLabel
       let st := st
       let st := emit st OpCode.JMP startLabel
       let st := emit st OpCode.LABEL endLabel
       { st with breakLabels := st.breakLabels.tail,
                 continueLabels := st.continueLabels.tail }) := rfl

theorem gseq_for_sssn (t : String) (b : Bool) (s0 e1 e2 : ASTNode)
    (tl : List (Option ASTNode)) (st : GenSt) :
    GenStatementN (ASTNode.mk NodeKind.For t b
        (Option.some s0 :: Option.some e1 :: Option.some e2 :: Option.none :: tl)) st =
      (let p1 := NewLabel st
       let p2 := NewLabel p1.2
       let p3 := NewLabel p2.2
       let startLabel := p1.1
       let stepLabel := p2.1
       let endLabel := p3.1
       let st := p3.2
       let st := { st with breakLabels := endLabel :: st.breakLabels,
                           continueLabels := stepLabel :: st.continueLabels }
       let st := GenStatementN s0 st
       let st := emit st OpCode.LABEL startLabel
       let st := emit (GenExpression (Option.some e1) st) OpCode.JZ endLabel
       let st := st
       let st := emit st OpCode.LABEL stepLabel
       let st := (let st1 := GenExpression (Option.some e2) st
                 if e2.kind != NodeKind.Call && e2.kind != NodeKind.Assign then
                   emit st1 OpCode.POP
                 else st1)
       let st := emit st OpCode.JMP startLabel
       let st := emit st OpCode.LABEL endLabel
       { st with breakLabels := st.breakLabels.tail,
                 continueLabels := st.continueLabels.tail }) := rfl

theorem gseq_for_ssss (t : String) (b : Bool) (s0 e1 e2 s3 : ASTNode)
    (tl : List (Option ASTNode)) (st : GenSt) :
    GenStatementN (ASTNode.mk NodeKind.For t b
        (Option.some s0 :: Option.some e1 :: Option.some e2 :: Option.some s3 :: tl)) st =
      (let p1 := NewLabel st
       let p2 := NewLabel p1.2
       let p3 := NewLabel p2.2
       let startLabel := p1.1
       let stepLabel := p2.1
       let endLabel := p3.1
       let st := p3.2
       let st := { st with breakLabels := endLabel :: st.breakLabels,
                           continueLabels := stepLabel :: st.continueLabels }
       let st := GenStatementN s0 st
       let st := emit st OpCode.LABEL startLabel
       let st := emit (GenExpression (Option.some e1) st) OpCode.JZ endLabel
       let st := GenStatementN s3 st
       let st := emit st OpCode.LABEL stepLabel
       let st := (let st1 := GenExpression (Option.some e2) st
                 if e2.kind != NodeKind.Call && e2.kind != NodeKind.Assign then
                   emit st1 OpCode.POP
                 else st1)
       let st := emit st OpCode.JMP startLabel
       let st := emit st OpCode.LABEL endLabel
       { st with breakLabels := st.breakLabels.tail,
                 continueLabels := st.continueLabels.tail }) := rfl

theorem gseq_other (k : NodeKind)
    (hk : k ∈ [NodeKind.Program, NodeKind.Function, NodeKind.FuncArg, NodeKind.VarDecl,
               NodeKind.ElseIf, NodeKind.CommaExpr, NodeKind.Binary, NodeKind.Unary,
               NodeKind.Number, NodeKind.String, NodeKind.Identifier, NodeKind.Call,
               NodeKind.Index, NodeKind.TypeNode])
    (t : String) (b : Bool) (cs : List (Option ASTNode)) (st : GenSt) :
    GenStatementN (ASTNode.mk k t b cs) st = st := by
  fin_cases hk
  all_goals rfl

theorem gss_nil (st : GenSt) : GenStatements [] st = st := rfl

theorem gss_cons_none (rest : List (Option ASTNode)) (st : GenSt) :
    GenStatements (Option.none :: rest) st = GenStatements rest st := rfl

theorem gss_cons_some (m : ASTNode) (rest : List (Option ASTNode)) (st : GenSt) :
    GenStatements (Option.some m :: rest) st = GenStatements rest (GenStatementN m st) := rfl

theorem gvd_nil (st : GenSt) : GenVarDecls [] st = st := rfl

theorem gvd_none (rest : List (Option ASTNode)) (st : GenSt) :
    GenVarDecls (Option.none :: rest) st = GenVarDecls rest st := rfl

theorem gvd_some (vk : NodeKind) (vtext : String) (varr : Bool)
    (vcs : List (Option ASTNode)) (rest : List (Option ASTNode)) (st : GenSt) :
    GenVarDecls (Option.some (ASTNode.mk vk vtext varr vcs) :: rest) st =
      (let st2 :=
        if varr then
          let st1 :=
            match vcs with
            | [] => emit st OpCode.PUSH_INT "0"
            | c0 :: _ => GenExpression c0 st
          emit (emit st1 OpCode.NEW_ARRAY) OpCode.STORE vtext
        else
          let st1 :=
            match vcs with
            | [] => emit st OpCode.PUSH_INT "0"
            | c0 :: _ => GenExpression c0 st
          emit st1 OpCode.STORE vtext
       GenVarDecls rest st2) := rfl

theorem gif_nil (st : GenSt) : GenIf [] st = st := rfl

theorem gif_one (c0 : Option ASTNode) (st : GenSt) : GenIf [c0] st = st := rfl

theorem gif_cons_none (c0 : Option ASTNode) (rest : List (Option ASTNode)) (st : GenSt) :
    GenIf (c0 :: Option.none :: rest) st =
      (let p1 := NewLabel st
       let p2 := NewLabel p1.2
       let endLabel := p1.1
       let nextLabel := p2.1
       let st := p2.2
       let st := GenExpression c0 st
       let st := emit st OpCode.JZ nextLabel
       let st := st
       let st := emit st OpCode.JMP endLabel
       let st := emit st OpCode.LABEL nextLabel
       let st := GenIfRest rest endLabel st
       emit st OpCode.LABEL endLabel) := rfl

theorem gif_cons_some (c0 : Option ASTNode) (m : ASTNode)
    (rest : List (Option ASTNode)) (st : GenSt) :
    GenIf (c0 :: Option.some m :: rest) st =
      (let p1 := NewLabel st
       let p2 := NewLabel p1.2
       let endLabel := p1.1
       let nextLabel := p2.1
       let st := p2.2
       let st := GenExpression c0 st
       let st := emit st OpCode.JZ nextLabel
       let st := GenStatementN m st
       let st := emit st OpCode.JMP endLabel
       let st := emit st OpCode.LABEL nextLabel
       let st := GenIfRest rest endLabel st
       emit st OpCode.LABEL endLabel) := rfl

theorem gir_nil (endLabel : String) (st : GenSt) : GenIfRest [] endLabel st = st := rfl

theorem gir_elseif_none (et : String) (eb : Bool) (e0 : Option ASTNode)
    (etl rest : List (Option ASTNode)) (endLabel : String) (st : GenSt) :
    GenIfRest (Option.some (ASTNode.mk NodeKind.ElseIf et eb
        (e0 :: Option.none :: etl)) :: rest) endLabel st =
      (let p := NewLabel st
       let elseIfNext := p.1
       let st := p.2
       let st := GenExpression e0 st
       let st := emit st OpCode.JZ elseIfNext
       let st := st
       let st := emit st OpCode.JMP endLabel
       let st := emit st OpCode.LABEL elseIfNext
       GenIfRest rest endLabel st) := rfl

theorem gir_elseif_some (et : String) (eb : Bool) (e0 : Option ASTNode) (m : ASTNode)
    (etl rest : List (Option ASTNode)) (endLabel : String) (st : GenSt) :
    GenIfRest (Option.some (ASTNode.mk NodeKind.ElseIf et eb
        (e0 :: Option.some m :: etl)) :: rest) endLabel st =
      (let p := NewLabel st
       let elseIfNext := p.1
       let st := p.2
       let st := GenExpression e0 st
       let st := emit st OpCode.JZ elseIfNext
       let st := GenStatementN m st
       let st := emit st OpCode.JMP endLabel
       let st := emit st OpCode.LABEL elseIfNext
       GenIfRest rest endLabel st) := rfl

theorem gir_elseif_nilc (et : String) (eb : Bool)
    (rest : List (Option ASTNode)) (endLabel : String) (st : GenSt) :
    GenIfRest (Option.some (ASTNode.mk NodeKind.ElseIf et eb []) :: rest) endLabel st =
      GenIfRest rest endLabel st := rfl

theorem gir_elseif_onec (et : String) (eb : Bool) (e0 : Option ASTNode)
    (rest : List (Option ASTNode)) (endLabel : String) (st : GenSt) :
    GenIfRest (Option.some (ASTNode.mk NodeKind.ElseIf et eb [e0]) :: rest) endLabel st =
      GenIfRest rest endLabel st := rfl

theorem gir_cons_none (rest : List (Option ASTNode)) (endLabel : String) (st : GenSt) :
    GenIfRest (Option.none :: rest) endLabel st = GenIfRest rest endLabel st := rfl

theorem gir_other (k : NodeKind) (hk : k ≠ NodeKind.ElseIf) (kt : String) (kb : Bool)
    (kcs : List (Option ASTNode)) (rest : List (Option ASTNode))
    (endLabel : String) (st : GenSt) :
    GenIfRest (Option.some (ASTNode.mk k kt kb kcs) :: rest) endLabel st =
      GenIfRest rest endLabel (GenStatementN (ASTNode.mk k kt kb kcs) st) := by
  cases k
  case ElseIf => exact absurd rfl hk
  all_goals rfl

end Petukh

namespace Petukh

/-! ## Statement-level code growth.

Statement lowering allocates labels, so its chunk depends on the incoming
state; the lemmas below state existence: lowering a statement rewrites
the state to the same state with some instructions appended and some new
label counter, leaving the break/continue stacks as they were. -/

def ECO (c : Option ASTNode) : List Instruction := (GenExpression c g0).code

theorem GenExpression_frame (c : Option ASTNode) (st : GenSt) :
    GenExpression c st = { st with code := st.code ++ ECO c } := by
  cases c
  · show st = { st with code := st.code ++ ECO Option.none }
    have h : ECO Option.none = [] := rfl
    rw [h]
    simp
  · next m =>
    show GenExpressionN m st = _
    have he : ECO (Option.some m) = EC m := rfl
    rw [he, genExprN_frame m st]

theorem gvd_ex (vars : List (Option ASTNode)) (st : GenSt) :
    ∃ D, GenVarDecls vars st = { st with code := st.code ++ D } := by
  induction vars generalizing st with
  | nil => exact ⟨[], by simp [gvd_nil]⟩
  | cons v rest ih =>
    choose Dr hr using ih
    rcases v with _ | ⟨vk, vtext, varr, vcs⟩
    · exact ⟨Dr st, by rw [gvd_none, hr]⟩
    · simp only [gvd_some]
      rcases vcs with _ | ⟨c0, vtl⟩
      · by_cases hv : varr = true
        · simp [hv, hr, emit_frame, List.append_assoc]
        · simp [hv, hr, emit_frame, List.append_assoc]
      · by_cases hv : varr = true
        · simp [hv, hr, GenExpression_frame, emit_frame, List.append_assoc]
        · simp [hv, hr, GenExpression_frame, emit_frame, List.append_assoc]

mutual

theorem genStmtN_ex (n : ASTNode) (st : GenSt) :
    ∃ D lc', GenStatementN n st =
      { st with code := st.code ++ D, labelCounter := lc' } := by
  obtain ⟨k, t, b, cs⟩ := n
  cases k
  case Block =>
    have hl := fun s => genStmts_ex cs s
    choose Ds lcs hl using hl
    simp only [gseq_block]
    simp [hl]
  case ExprStmt =>
    rcases cs with _ | ⟨e, tl⟩
    · exact ⟨[], st.labelCounter, by simp [gseq_exprstmt_nil]⟩
    · simp only [gseq_exprstmt_cons]
      by_cases hc : (optKind e != NodeKind.Call && optKind e != NodeKind.Assign) = true
      · simp [hc, GenExpression_frame, emit_frame, List.append_assoc]
      · simp [hc, GenExpression_frame]
  case VarDeclList =>
    rcases cs with _ | ⟨v0, vars⟩
    · exact ⟨[], st.labelCounter, by simp [gseq_vdl_nil]⟩
    · have hv := fun s => gvd_ex vars s
      choose Dv hv using hv
      simp only [gseq_vdl_cons]
      simp [hv]
  case Assign =>
    by_cases hc : cs.isEmpty = true
    · exact ⟨[], st.labelCounter, by simp [gseq_assign_stmt, hc]⟩
    · simp only [gseq_assign_stmt]
      simp [hc, GenExpression_frame]
  case If =>
    have h := fun s => genIf_ex cs s
    choose Di lci h using h
    simp only [gseq_if]
    simp [h]
  case While =>
    rcases cs with _ | ⟨c0, cs1⟩
    · exact ⟨[], st.labelCounter, by simp [gseq_while_nil]⟩
    rcases cs1 with _ | ⟨c1, tl⟩
    · exact ⟨[], st.labelCounter, by simp [gseq_while_one]⟩
    rcases c1 with _ | m
    · simp only [gseq_while_none]
      simp [NewLabel, GenExpression_frame, emit_frame, List.append_assoc]
    · have hm := fun s => genStmtN_ex m s
      choose Dm lcm hm using hm
      simp only [gseq_while_some]
      simp [NewLabel, GenExpression_frame, emit_frame, hm, List.append_assoc]
  case DoWhile =>
    rcases cs with _ | ⟨c0, cs1⟩
    · exact ⟨[], st.labelCounter, by simp [gseq_dowhile_nil]⟩
    rcases cs1 with _ | ⟨c1, tl⟩
    · exact ⟨[], st.labelCounter, by simp [gseq_dowhile_one]⟩
    rcases c0 with _ | m
    · simp only [gseq_dowhile_none]
      simp [NewLabel, GenExpression_frame, emit_frame, List.append_assoc]
    · have hm := fun s => genStmtN_ex m s
      choose Dm lcm hm using hm
      simp only [gseq_dowhile_some]
      simp [NewLabel, GenExpression_frame, emit_frame, hm, List.append_assoc]
  case For =>
    rcases cs with _ | ⟨c0, cs1⟩
    · exact ⟨[], st.labelCounter, by simp [gseq_for_nil]⟩
    rcases cs1 with _ | ⟨c1, cs2⟩
    · exact ⟨[], st.labelCounter, by simp [gseq_for_one]⟩
    rcases cs2 with _ | ⟨c2, cs3⟩
    · exact ⟨[], st.labelCounter, by simp [gseq_for_two]⟩
    rcases cs3 with _ | ⟨c3, tl⟩
    · exact ⟨[], st.labelCounter, by simp [gseq_for_three]⟩
    rcases c0 with _ | s0 <;> rcases c1 with _ | e1 <;>
      rcases c2 with _ | e2 <;> rcases c3 with _ | s3
    all_goals try (have h0 := fun s => genStmtN_ex s0 s; choose D0 lc0 h0 using h0)
    all_goals try (have h3 := fun s => genStmtN_ex s3 s; choose D3 lc3 h3 using h3)
    all_goals first
      | simp only [gseq_for_nnnn] | simp only [gseq_for_nnns]
      | simp only [gseq_for_nnsn] | simp only [gseq_for_nnss]
      | simp only [gseq_for_nsnn] | simp only [gseq_for_nsns]
      | simp only [gseq_for_nssn] | simp only [gseq_for_nsss]
      | simp only [gseq_for_snnn] | simp only [gseq_for_snns]
      | simp only [gseq_for_snsn] | simp only [gseq_for_snss]
      | simp only [gseq_for_ssnn] | simp only [gseq_for_ssns]
      | simp only [gseq_for_sssn] | simp only [gseq_for_ssss]
    all_goals try (by_cases hstep :
      (e2.kind != NodeKind.Call && e2.kind != NodeKind.Assign) = true)
    all_goals simp [*, NewLabel, GenExpression_frame, emit_frame, List.append_assoc]
  case Break =>
    obtain ⟨sc, slc, sbl, scl⟩ := st
    rcases sbl with _ | ⟨l, bls⟩
    · exact ⟨[], slc, by simp [gseq_break_nil]⟩
    · exact ⟨[⟨OpCode.JMP, l⟩], slc, by simp [gseq_break_cons, emit_frame]⟩
  case Continue =>
    obtain ⟨sc, slc, sbl, scl⟩ := st
    rcases scl with _ | ⟨l, cls⟩
    · exact ⟨[], slc, by simp [gseq_continue_nil]⟩
    · exact ⟨[⟨OpCode.JMP, l⟩], slc, by simp [gseq_continue_cons, emit_frame]⟩
  case Return =>
    rcases cs with _ | ⟨c0, tl⟩
    · exact ⟨[⟨OpCode.RET, ""⟩], st.labelCounter, by simp [gseq_return_nil, emit_frame]⟩
    · simp only [gseq_return_cons]
      simp [GenExpression_frame, emit_frame, List.append_assoc]
  all_goals exact ⟨[], st.labelCounter, by rw [gseq_other _ (by decide)]; simp⟩
termination_by sizeOf n

theorem genStmts_ex (cs : List (Option ASTNode)) (st : GenSt) :
    ∃ D lc', GenStatements cs st =
      { st with code := st.code ++ D, labelCounter := lc' } := by
  rcases cs with _ | ⟨c, rest⟩
  · exact ⟨[], st.labelCounter, by simp [gss_nil]⟩
  have hr := fun s => genStmts_ex rest s
  choose Dr lcr hr using hr
  rcases c with _ | m
  · simp only [gss_cons_none]
    simp [hr]
  · have hm := fun s => genStmtN_ex m s
    choose Dm lcm hm using hm
    simp only [gss_cons_some]
    simp [hm, hr, List.append_assoc]
termination_by sizeOf cs

theorem genIf_ex (cs : List (Option ASTNode)) (st : GenSt) :
    ∃ D lc', GenIf cs st =
      { st with code := st.code ++ D, labelCounter := lc' } := by
  rcases cs with _ | ⟨c0, cs1⟩
  · exact ⟨[], st.labelCounter, by simp [gif_nil]⟩
  rcases cs1 with _ | ⟨c1, rest⟩
  · exact ⟨[], st.labelCounter, by simp [gif_one]⟩
  have hR := fun l s => genIfRest_ex rest l s
  choose DR lcR hR using hR
  rcases c1 with _ | m
  · simp only [gif_cons_none]
    simp [NewLabel, GenExpression_frame, emit_frame, hR, List.append_assoc]
  · have hm := fun s => genStmtN_ex m s
    choose Dm lcm hm using hm
    simp only [gif_cons_some]
    simp [NewLabel, GenExpression_frame, emit_frame, hm, hR, List.append_assoc]
termination_by sizeOf cs

theorem genIfRest_ex (rest : List (Option ASTNode)) (endLabel : String) (st : GenSt) :
    ∃ D lc', GenIfRest rest endLabel st =
      { st with code := st.code ++ D, labelCounter := lc' } := by
  rcases rest with _ | ⟨c, rest2⟩
  · exact ⟨[], st.labelCounter, by simp [gir_nil]⟩
  have hr := fun s => genIfRest_ex rest2 endLabel s
  choose Dr lcr hr using hr
  rcases c with _ | ⟨ck, kt, kb, kcs⟩
  · simp only [gir_cons_none]
    simp [hr]
  by_cases hck : ck = NodeKind.ElseIf
  · subst hck
    rcases kcs with _ | ⟨e0, kcs1⟩
    · simp only [gir_elseif_nilc]
      simp [hr]
    rcases kcs1 with _ | ⟨e1, etl⟩
    · simp only [gir_elseif_onec]
      simp [hr]
    rcases e1 with _ | m
    · simp only [gir_elseif_none]
      simp [NewLabel, GenExpression_frame, emit_frame, hr, List.append_assoc]
    · have hm := fun s => genStmtN_ex m s
      choose Dm lcm hm using hm
      simp only [gir_elseif_some]
      simp [NewLabel, GenExpression_frame, emit_frame, hm, hr, List.append_assoc]
  · have hm := fun s => genStmtN_ex (ASTNode.mk ck kt kb kcs) s
    choose Dm lcm hm using hm
    rw [gir_other ck hck]
    simp [hm, hr, List.append_assoc]
termination_by sizeOf rest

end

end Petukh

namespace Petukh

theorem stores_foldl (names : List String) (st : GenSt) :
    names.foldl (fun s p => emit s OpCode.STORE p) st =
      { st with code := st.code ++ names.map (fun p => ⟨OpCode.STORE, p⟩) } := by
  induction names generalizing st with
  | nil => simp
  | cons p rest ih =>
    simp only [List.foldl_cons]
    rw [ih]
    simp [emit_frame, List.append_assoc]

theorem GenStatement_ex (c : Option ASTNode) (st : GenSt) :
    ∃ D lc', GenStatement c st =
      { st with code := st.code ++ D, labelCounter := lc' } := by
  cases c
  · exact ⟨[], st.labelCounter, by simp [GenStatement]⟩
  · next m => simpa [GenStatement] using genStmtN_ex m st

theorem getLast?_append_right {α : Type} (l1 l2 : List α) (h : l2 ≠ []) :
    (l1 ++ l2).getLast? = l2.getLast? := by
  rcases List.eq_nil_or_concat l2 with rfl | ⟨l3, a, rfl⟩
  · exact absurd rfl h
  · rw [List.concat_eq_append, ← List.append_assoc, List.getLast?_concat,
      List.getLast?_concat]

/-- The `STORE` prefix GenFunction emits for the parameter children
(children 1 .. n-2), in reverse declaration order. -/
def paramStores (cs : List (Option ASTNode)) : List Instruction :=
  (((cs.drop 1).dropLast).map optText).reverse.map (fun p => ⟨OpCode.STORE, p⟩)

/-- C8: for every Function node with name `f` and a non-empty child list
(return type, parameters, body), the generator emits `LABEL f`, then a
`STORE` for each parameter in reverse declaration order, then the body
lowering `B`, then one trailing `RET` exactly when `B` does not already
end in `RET` (in particular also when `B` is empty). -/
theorem C8_function_layout (f : String) (ar : Bool) (cs : List (Option ASTNode))
    (st : GenSt) (hcs : cs ≠ []) :
    ∃ B lc',
      GenStatement (childOpt cs (cs.length - 1))
          { st with code := st.code ++ [⟨OpCode.LABEL, f⟩] ++ paramStores cs } =
        { st with
            code := st.code ++ [⟨OpCode.LABEL, f⟩] ++ paramStores cs ++ B,
            labelCounter := lc' } ∧
      (GenFunction (ASTNode.mk NodeKind.Function f ar cs) st).code =
        st.code ++ [⟨OpCode.LABEL, f⟩] ++ paramStores cs ++ B ++
          (match B.getLast? with
           | Option.some i => if i.op = OpCode.RET then [] else [⟨OpCode.RET, ""⟩]
           | Option.none => [⟨OpCode.RET, ""⟩]) := by
  obtain ⟨B, lc', hB⟩ := GenStatement_ex (childOpt cs (cs.length - 1))
      { st with code := st.code ++ [⟨OpCode.LABEL, f⟩] ++ paramStores cs }
  refine ⟨B, lc', by rw [hB], ?_⟩
  have hcode : GenFunction (ASTNode.mk NodeKind.Function f ar cs) st =
      (match ({ st with
          code := st.code ++ [⟨OpCode.LABEL, f⟩] ++ paramStores cs ++ B,
          labelCounter := lc' } : GenSt).code.getLast? with
       | Option.none =>
          emit { st with
            code := st.code ++ [⟨OpCode.LABEL, f⟩] ++ paramStores cs ++ B,
            labelCounter := lc' } OpCode.RET
       | Option.some i =>
          if i.op ≠ OpCode.RET then
            emit { st with
              code := st.code ++ [⟨OpCode.LABEL, f⟩] ++ paramStores cs ++ B,
              labelCounter := lc' } OpCode.RET
          else { st with
            code := st.code ++ [⟨OpCode.LABEL, f⟩] ++ paramStores cs ++ B,
            labelCounter := lc' }) := by
    rw [GenFunction]
    have hne : cs.isEmpty = false := by
      rcases cs with _ | ⟨c0, cs2⟩
      · exact absurd rfl hcs
      · rfl
    simp only [ASTNode.text, ASTNode.children, hne, Bool.false_eq_true, if_false]
    rw [stores_foldl]
    rw [show ({ (emit st OpCode.LABEL f) with
        code := (emit st OpCode.LABEL f).code ++
          (((cs.drop 1).dropLast).map optText).reverse.map
            (fun p => ⟨OpCode.STORE, p⟩) } : GenSt) =
      { st with code := st.code ++ [⟨OpCode.LABEL, f⟩] ++ paramStores cs } from rfl]
    rw [hB]
  rw [hcode]
  have hpre : ∀ i : Instruction,
      i ∈ ([⟨OpCode.LABEL, f⟩] ++ paramStores cs : List Instruction) →
      i.op ≠ OpCode.RET := by
    intro i hi
    rcases List.mem_append.mp hi with hi | hi
    · rcases List.mem_singleton.mp hi with rfl
      show OpCode.LABEL ≠ OpCode.RET
      decide
    · obtain ⟨p, hmem, rfl⟩ := List.mem_map.mp hi
      show OpCode.STORE ≠ OpCode.RET
      decide
  rcases List.eq_nil_or_concat B with rfl | ⟨B2, a, rfl⟩
  · have hlast : ({ st with
        code := st.code ++ [⟨OpCode.LABEL, f⟩] ++ paramStores cs ++ ([] : List Instruction),
        labelCounter := lc' } : GenSt).code.getLast? =
        (([⟨OpCode.LABEL, f⟩] : List Instruction) ++ paramStores cs).getLast? := by
      show (st.code ++ [(⟨OpCode.LABEL, f⟩ : Instruction)] ++ paramStores cs ++
        ([] : List Instruction)).getLast? = _
      rw [List.append_nil, List.append_assoc]
      exact getLast?_append_right _ _ (by simp)
    rw [hlast]
    obtain ⟨i, hi⟩ : ∃ i, (([⟨OpCode.LABEL, f⟩] : List Instruction) ++
        paramStores cs).getLast? = Option.some i := by
      rcases List.eq_nil_or_concat ([⟨OpCode.LABEL, f⟩] ++ paramStores cs :
          List Instruction) with hn | ⟨l3, a, hl⟩
      · simp at hn
      · exact ⟨a, by rw [hl, List.concat_eq_append, List.getLast?_concat]⟩
    rw [hi]
    have hio : i.op ≠ OpCode.RET := by
      apply hpre i
      obtain ⟨hne2, heq⟩ := List.mem_getLast?_eq_getLast (Option.mem_def.mpr hi)
      rw [heq]
      exact List.getLast_mem hne2
    simp [hio, emit_frame, List.append_assoc]
  · have hlast : ({ st with
        code := st.code ++ [⟨OpCode.LABEL, f⟩] ++ paramStores cs ++ B2.concat a,
        labelCounter := lc' } : GenSt).code.getLast? = Option.some a := by
      show (st.code ++ [(⟨OpCode.LABEL, f⟩ : Instruction)] ++ paramStores cs ++
        B2.concat a).getLast? = _
      rw [List.concat_eq_append, ← List.append_assoc, List.getLast?_concat]
    rw [hlast, List.concat_eq_append, List.getLast?_concat]
    by_cases ha : a.op = OpCode.RET
    · simp [ha, List.append_assoc]
    · simp [ha, emit_frame, List.append_assoc]

end Petukh

namespace Petukh

/-- A concrete function node for exercising `C8_function_layout`:
`fn ? main(? x) { return 0; }` (type child null, one parameter `x`,
block body with a single `return 0`). -/
def c8cs : List (Option ASTNode) :=
  [Option.none,
   Option.some (ASTNode.mk NodeKind.FuncArg "x" false []),
   Option.some (ASTNode.mk NodeKind.Block "" false
     [Option.some (ASTNode.mk NodeKind.Return "" false
       [Option.some (ASTNode.mk NodeKind.Number "0" false [])])])]

theorem C8_function_layout_witness :
    c8cs ≠ [] ∧
    (∃ B lc',
      GenStatement (childOpt c8cs (c8cs.length - 1))
          { g0 with code := g0.code ++ [⟨OpCode.LABEL, "main"⟩] ++ paramStores c8cs } =
        { g0 with
            code := g0.code ++ [⟨OpCode.LABEL, "main"⟩] ++ paramStores c8cs ++ B,
            labelCounter := lc' } ∧
      (GenFunction (ASTNode.mk NodeKind.Function "main" false c8cs) g0).code =
        g0.code ++ [⟨OpCode.LABEL, "main"⟩] ++ paramStores c8cs ++ B ++
          (match B.getLast? with
           | Option.some i => if i.op = OpCode.RET then [] else [⟨OpCode.RET, ""⟩]
           | Option.none => [⟨OpCode.RET, ""⟩])) :=
  ⟨by simp [c8cs], C8_function_layout "main" false c8cs g0 (by simp [c8cs])⟩

end Petukh

namespace Petukh

/-! ## C1 infrastructure: straight-line ("pure") expression chunks.

An expression with no `Call`, no `Assign` and no `CommaExpr` lowers to a
straight-line chunk (pushes, loads, unary/binary operators, `LOAD_INDEX`)
whose execution always succeeds and pushes exactly one value.  `pureOps`
is the set of straight-line opcodes, `PureExpr` the syntactic class, and
`execChunk` runs a chunk through `execInstr` ignoring the irrelevant
instruction pointer and label map. -/

def pureOps : List OpCode :=
  [OpCode.PUSH_INT, OpCode.PUSH_DOUBLE, OpCode.PUSH_STRING, OpCode.LOAD,
   OpCode.LOAD_INDEX, OpCode.ADD, OpCode.SUB, OpCode.MUL, OpCode.DIV,
   OpCode.MOD, OpCode.EQ, OpCode.NEQ, OpCode.LT, OpCode.GT, OpCode.LE,
   OpCode.GE, OpCode.NEG, OpCode.NOT, OpCode.POP]

def PureBinOp (t : String) : Bool :=
  t == "+" || t == "-" || t == "*" || t == "/" || t == "%" || t == "==" ||
  t == "!=" || t == "<" || t == ">" || t == "<=" || t == ">="

def PureExpr : ASTNode → Bool
  | ASTNode.mk NodeKind.Number _ _ _ => true
  | ASTNode.mk NodeKind.String _ _ _ => true
  | ASTNode.mk NodeKind.Identifier _ _ _ => true
  | ASTNode.mk NodeKind.Unary _ _ (Option.some m :: _) =>
    PureExpr m
  | ASTNode.mk NodeKind.Binary t _ (Option.some m0 :: Option.some m1 :: _) =>
    PureBinOp t && PureExpr m0 && PureExpr m1
  | ASTNode.mk NodeKind.Index _ _ (Option.some m0 :: Option.some m1 :: _) =>
    PureExpr m0 && PureExpr m1
  | ASTNode.mk _ _ _ _ => false
termination_by structural n => n

/-- One straight-line step: `execInstr` at a dummy instruction pointer and
an empty label map (pure opcodes consult neither). -/
def stepPure (ins : Instruction) (s : VMState) : Except String VMState :=
  match execInstr 0 [] ins 0 s with
  | StepResult.ok _ s' => Except.ok s'
  | StepResult.err m => Except.error m
  | StepResult.halt s' => Except.ok s'

def execChunk : List Instruction → VMState → Except String VMState
  | [], s => Except.ok s
  | ins :: rest, s =>
    match stepPure ins s with
    | Except.ok s' => execChunk rest s'
    | Except.error m => Except.error m

theorem execChunk_append (A B : List Instruction) (s : VMState) :
    execChunk (A ++ B) s =
      (match execChunk A s with
       | Except.ok s' => execChunk B s'
       | Except.error m => Except.error m) := by
  induction A generalizing s with
  | nil => simp [execChunk]
  | cons ins A ih =>
    simp only [List.cons_append, execChunk]
    cases stepPure ins s with
    | ok s' => simp [ih]
    | error m => simp

theorem execInstr_pure (op : OpCode) (a : String) (hop : op ∈ pureOps)
    (cl : Nat) (lm : List (String × Nat)) (ip : Nat) (s : VMState) :
    execInstr cl lm ⟨op, a⟩ ip s =
      (match stepPure ⟨op, a⟩ s with
       | Except.ok s' => StepResult.ok (ip + 1) s'
       | Except.error m => StepResult.err m) := by
  fin_cases hop
  · rfl
  · rfl
  · rfl
  · rfl
  · cases hh : HandleLoadIndex s <;> simp [execInstr, stepPure, hh]
  · cases hh : HandleBinaryOp OpCode.ADD s <;> simp [execInstr, stepPure, hh]
  · cases hh : HandleBinaryOp OpCode.SUB s <;> simp [execInstr, stepPure, hh]
  · cases hh : HandleBinaryOp OpCode.MUL s <;> simp [execInstr, stepPure, hh]
  · cases hh : HandleBinaryOp OpCode.DIV s <;> simp [execInstr, stepPure, hh]
  · cases hh : HandleBinaryOp OpCode.MOD s <;> simp [execInstr, stepPure, hh]
  · cases hh : HandleBinaryOp OpCode.EQ s <;> simp [execInstr, stepPure, hh]
  · cases hh : HandleBinaryOp OpCode.NEQ s <;> simp [execInstr, stepPure, hh]
  · cases hh : HandleBinaryOp OpCode.LT s <;> simp [execInstr, stepPure, hh]
  · cases hh : HandleBinaryOp OpCode.GT s <;> simp [execInstr, stepPure, hh]
  · cases hh : HandleBinaryOp OpCode.LE s <;> simp [execInstr, stepPure, hh]
  · cases hh : HandleBinaryOp OpCode.GE s <;> simp [execInstr, stepPure, hh]
  · cases hh : HandleUnaryOp OpCode.NEG s <;> simp [execInstr, stepPure, hh]
  · cases hh : HandleUnaryOp OpCode.NOT s <;> simp [execInstr, stepPure, hh]
  · cases hh : popV s with
    | ok vs => rcases vs with ⟨v, s'⟩; simp [execInstr, stepPure, hh]
    | error m => simp [execInstr, stepPure, hh]

theorem get?_append_len {α : Type} (P X : List α) :
    (P ++ X).get? P.length = X.get? 0 := by
  induction P with
  | nil => rfl
  | cons a P ih => simpa using ih

/-- Running a straight-line chunk inside a larger program: starting at the
chunk, execution reaches the instruction just past it (or aborts), with
the effect described by `execChunk`. -/
theorem runLoop_chunk (D : List Instruction) (hD : ∀ i ∈ D, i.op ∈ pureOps) :
    ∀ (P Q : List Instruction) (lm : List (String × Nat)) (fuel : Nat) (s : VMState),
      runLoop (P ++ D ++ Q) lm (D.length + fuel) P.length s =
        (match execChunk D s with
         | Except.ok s' => runLoop (P ++ D ++ Q) lm fuel (P.length + D.length) s'
         | Except.error m => RunResult.error m) := by
  induction D with
  | nil => intro P Q lm fuel s; simp [execChunk]
  | cons ins D ih =>
    intro P Q lm fuel s
    obtain ⟨op, a⟩ := ins
    have hget : (P ++ ((⟨op, a⟩ : Instruction) :: D) ++ Q).get? P.length =
        Option.some ⟨op, a⟩ := by
      rw [List.append_assoc, get?_append_len]
      rfl
    have hil : ((⟨op, a⟩ : Instruction) :: D).length + fuel = (D.length + fuel) + 1 := by
      simp [List.length_cons]
      omega
    rw [hil]
    show (match (P ++ ((⟨op, a⟩ : Instruction) :: D) ++ Q).get? P.length with
      | Option.none => RunResult.finished s
      | Option.some i =>
        match execInstr (P ++ ((⟨op, a⟩ : Instruction) :: D) ++ Q).length lm i P.length s with
        | StepResult.ok ip' s' =>
          runLoop (P ++ ((⟨op, a⟩ : Instruction) :: D) ++ Q) lm (D.length + fuel) ip' s'
        | StepResult.err m => RunResult.error m
        | StepResult.halt s' => RunResult.finished s') = _
    rw [hget]
    show (match execInstr (P ++ ((⟨op, a⟩ : Instruction) :: D) ++ Q).length lm
        ⟨op, a⟩ P.length s with
      | StepResult.ok ip' s' =>
        runLoop (P ++ ((⟨op, a⟩ : Instruction) :: D) ++ Q) lm (D.length + fuel) ip' s'
      | StepResult.err m => RunResult.error m
      | StepResult.halt s' => RunResult.finished s') = _
    rw [execInstr_pure op a (hD ⟨op, a⟩ (List.mem_cons_self _ _)) _ lm P.length s]
    cases hs : stepPure ⟨op, a⟩ s with
    | error m => simp [execChunk, hs]
    | ok s' =>
      simp only [execChunk, hs]
      have hre : P ++ ((⟨op, a⟩ : Instruction) :: D) ++ Q = (P ++ [⟨op, a⟩]) ++ D ++ Q := by
        simp
      rw [hre]
      have hlen : P.length + 1 = (P ++ [(⟨op, a⟩ : Instruction)]).length := by
        simp
      rw [hlen, ih (fun i hi => hD i (List.mem_cons_of_mem _ hi)) (P ++ [(⟨op, a⟩ : Instruction)]) Q lm fuel s']
      have hlen2 : (P ++ [(⟨op, a⟩ : Instruction)]).length + D.length =
          P.length + ((⟨op, a⟩ : Instruction) :: D).length := by
        simp
        omega
      rw [hlen2]

end Petukh

namespace Petukh

theorem EC_number (t : String) (b : Bool) (cs : List (Option ASTNode)) :
    EC (ASTNode.mk NodeKind.Number t b cs) =
      (if IsFloatingLiteral t then [⟨OpCode.PUSH_DOUBLE, t⟩]
       else [⟨OpCode.PUSH_INT, t⟩]) := by
  simp only [EC]
  rw [geqN_number]
  by_cases hf : IsFloatingLiteral t = true
  · simp [hf, emit_frame, g0]
  · simp [hf, emit_frame, g0]

theorem EC_string (t : String) (b : Bool) (cs : List (Option ASTNode)) :
    EC (ASTNode.mk NodeKind.String t b cs) = [⟨OpCode.PUSH_STRING, t⟩] := by
  simp only [EC]
  rw [geqN_string]
  simp [emit_frame, g0]

theorem EC_ident (t : String) (b : Bool) (cs : List (Option ASTNode)) :
    EC (ASTNode.mk NodeKind.Identifier t b cs) = [⟨OpCode.LOAD, t⟩] := by
  simp only [EC]
  rw [geqN_ident]
  simp [emit_frame, g0]

theorem EC_unary_some (t : String) (b : Bool) (m : ASTNode) (tl : List (Option ASTNode)) :
    EC (ASTNode.mk NodeKind.Unary t b (Option.some m :: tl)) =
      EC m ++ (if t == "-" then [⟨OpCode.NEG, ""⟩]
               else if t == "!" then [⟨OpCode.NOT, ""⟩] else []) := by
  simp only [EC]
  rw [geqN_unary_some, genExprN_frame m g0]
  by_cases h1 : (t == "-") = true
  · simp [h1, emit_frame, g0]
  by_cases h2 : (t == "!") = true
  · simp [h1, h2, emit_frame, g0]
  · simp [h1, h2, g0]

theorem EC_binary_ss (t : String) (b : Bool) (m0 m1 : ASTNode)
    (tl : List (Option ASTNode)) :
    EC (ASTNode.mk NodeKind.Binary t b (Option.some m0 :: Option.some m1 :: tl)) =
      EC m0 ++ EC m1 ++ BC t := by
  have hE : EC (ASTNode.mk NodeKind.Binary t b (Option.some m0 :: Option.some m1 :: tl)) =
      (GenExpressionN (ASTNode.mk NodeKind.Binary t b
        (Option.some m0 :: Option.some m1 :: tl)) g0).code := rfl
  rw [hE, geqN_binary_ss, genExprN_frame m0 g0, genExprN_frame m1, binOpEmit_frame]
  simp [g0, List.append_assoc]

theorem EC_index_ss (t : String) (b : Bool) (m0 m1 : ASTNode)
    (tl : List (Option ASTNode)) :
    EC (ASTNode.mk NodeKind.Index t b (Option.some m0 :: Option.some m1 :: tl)) =
      EC m0 ++ EC m1 ++ [⟨OpCode.LOAD_INDEX, ""⟩] := by
  have hE : EC (ASTNode.mk NodeKind.Index t b (Option.some m0 :: Option.some m1 :: tl)) =
      (GenExpressionN (ASTNode.mk NodeKind.Index t b
        (Option.some m0 :: Option.some m1 :: tl)) g0).code := rfl
  rw [hE, geqN_index_ss, genExprN_frame m0 g0, genExprN_frame m1]
  simp [emit_frame, g0, List.append_assoc]

theorem BC_pure (t : String) (ht : PureBinOp t = true) :
    ∃ op, BC t = [⟨op, ""⟩] ∧
      op ∈ [OpCode.ADD, OpCode.SUB, OpCode.MUL, OpCode.DIV, OpCode.MOD, OpCode.EQ,
            OpCode.NEQ, OpCode.LT, OpCode.GT, OpCode.LE, OpCode.GE] := by
  by_cases h1 : (t == "+") = true
  · exact ⟨OpCode.ADD, by simp [BC, binOpEmit, h1, emit_frame, g0], by decide⟩
  by_cases h2 : (t == "-") = true
  · exact ⟨OpCode.SUB, by simp [BC, binOpEmit, h1, h2, emit_frame, g0], by decide⟩
  by_cases h3 : (t == "*") = true
  · exact ⟨OpCode.MUL, by simp [BC, binOpEmit, h1, h2, h3, emit_frame, g0], by decide⟩
  by_cases h4 : (t == "/") = true
  · exact ⟨OpCode.DIV, by simp [BC, binOpEmit, h1, h2, h3, h4, emit_frame, g0], by decide⟩
  by_cases h5 : (t == "%") = true
  · exact ⟨OpCode.MOD, by simp [BC, binOpEmit, h1, h2, h3, h4, h5, emit_frame, g0],
      by decide⟩
  by_cases h6 : (t == "==") = true
  · exact ⟨OpCode.EQ, by simp [BC, binOpEmit, h1, h2, h3, h4, h5, h6, emit_frame, g0],
      by decide⟩
  by_cases h7 : (t == "!=") = true
  · exact ⟨OpCode.NEQ, by simp [BC, binOpEmit, h1, h2, h3, h4, h5, h6, h7, emit_frame,
      g0], by decide⟩
  by_cases h8 : (t == "<") = true
  · exact ⟨OpCode.LT, by simp [BC, binOpEmit, h1, h2, h3, h4, h5, h6, h7, h8,
      emit_frame, g0], by decide⟩
  by_cases h9 : (t == ">") = true
  · exact ⟨OpCode.GT, by simp [BC, binOpEmit, h1, h2, h3, h4, h5, h6, h7, h8, h9,
      emit_frame, g0], by decide⟩
  by_cases h10 : (t == "<=") = true
  · exact ⟨OpCode.LE, by simp [BC, binOpEmit, h1, h2, h3, h4, h5, h6, h7, h8, h9, h10,
      emit_frame, g0], by decide⟩
  by_cases h11 : (t == ">=") = true
  · exact ⟨OpCode.GE, by simp [BC, binOpEmit, h1, h2, h3, h4, h5, h6, h7, h8, h9, h10,
      h11, emit_frame, g0], by decide⟩
  · exfalso
    simp [PureBinOp, h1, h2, h3, h4, h5, h6, h7, h8, h9, h10, h11] at ht

theorem HandleBinaryOp_ok (op : OpCode)
    (hop : op ∈ [OpCode.ADD, OpCode.SUB, OpCode.MUL, OpCode.DIV, OpCode.MOD, OpCode.EQ,
                 OpCode.NEQ, OpCode.LT, OpCode.GT, OpCode.LE, OpCode.GE])
    (x y : Value) (stk : List Value) (cs : List Frame) (out : String) (inp : List Char) :
    ∃ v, HandleBinaryOp op ⟨y :: x :: stk, cs, out, inp⟩ =
      Except.ok ⟨v :: stk, cs, out, inp⟩ := by
  fin_cases hop
  all_goals simp only [HandleBinaryOp, popV, bind, Except.bind, pushV]
  all_goals split_ifs
  all_goals exact ⟨_, rfl⟩

end Petukh

namespace Petukh

theorem pure_chunk_pushes (n : ASTNode) :
    ∀ (s : VMState), PureExpr n = true →
      ∃ v, execChunk (EC n) s = Except.ok { s with stack := v :: s.stack } := by
  obtain ⟨k, t, b, cs⟩ := n
  cases k
  case Number =>
    intro s hn
    rw [EC_number]
    by_cases hf : IsFloatingLiteral t = true
    · exact ⟨hostDouble, by simp [hf, execChunk, stepPure, execInstr, pushV]⟩
    · cases hsm : stollModel t with
      | none =>
        exact ⟨Value.int 0, by
          simp [hf, execChunk, stepPure, execInstr, HandlePushInt, hsm, pushV]⟩
      | some iv =>
        exact ⟨Value.int iv, by
          simp [hf, execChunk, stepPure, execInstr, HandlePushInt, hsm, pushV]⟩
  case String =>
    intro s hn
    rw [EC_string]
    exact ⟨_, by simp [execChunk, stepPure, execInstr, HandlePushString, pushV] <;> rfl⟩
  case Identifier =>
    intro s hn
    rw [EC_ident]
    cases hcs : s.call_stack with
    | nil =>
      exact ⟨Value.int 0, by
        simp [execChunk, stepPure, execInstr, HandleLoad, hcs, pushV]⟩
    | cons fr rest =>
      cases hlk : lookupA fr.locals t with
      | none =>
        exact ⟨Value.int 0, by
          simp [execChunk, stepPure, execInstr, HandleLoad, hcs, hlk, pushV]⟩
      | some v =>
        exact ⟨v, by simp [execChunk, stepPure, execInstr, HandleLoad, hcs, hlk, pushV]⟩
  case Unary =>
    intro s hn
    rcases cs with _ | ⟨c0, tl⟩
    · exact absurd hn (by simp [PureExpr])
    rcases c0 with _ | m
    · exact absurd hn (by simp [PureExpr])
    simp only [PureExpr] at hn
    obtain ⟨v, hv⟩ := pure_chunk_pushes m s hn
    rw [EC_unary_some]
    by_cases h1 : (t == "-") = true
    · cases v
      all_goals exact ⟨_, by
        simp [h1, execChunk_append, hv, execChunk, stepPure, execInstr,
          HandleUnaryOp, popV, pushV, bind, Except.bind] <;> rfl⟩
    by_cases h2 : (t == "!") = true
    · exact ⟨_, by
        simp [h1, h2, execChunk_append, hv, execChunk, stepPure, execInstr,
          HandleUnaryOp, popV, pushV, bind, Except.bind] <;> rfl⟩
    · exact ⟨v, by simp [h1, h2, execChunk_append, hv, execChunk]⟩
  case Binary =>
    intro s hn
    rcases cs with _ | ⟨c0, cs1⟩
    · exact absurd hn (by simp [PureExpr])
    rcases cs1 with _ | ⟨c1, tl⟩
    · exact absurd hn (by simp [PureExpr])
    rcases c0 with _ | m0
    · exact absurd hn (by simp [PureExpr])
    rcases c1 with _ | m1
    · exact absurd hn (by simp [PureExpr])
    simp only [PureExpr, Bool.and_eq_true] at hn
    obtain ⟨⟨hPB, h0⟩, h1⟩ := hn
    obtain ⟨sstk, scs, sout, sinp⟩ := s
    obtain ⟨v0, hv0⟩ := pure_chunk_pushes m0 ⟨sstk, scs, sout, sinp⟩ h0
    obtain ⟨v1, hv1⟩ := pure_chunk_pushes m1 ⟨v0 :: sstk, scs, sout, sinp⟩ h1
    obtain ⟨op, hBC, hops⟩ := BC_pure t hPB
    rw [EC_binary_ss, hBC]
    fin_cases hops
    · obtain ⟨v2, hv2⟩ :=
        HandleBinaryOp_ok OpCode.ADD (by decide) v0 v1 sstk scs sout sinp
      exact ⟨v2, by
        simp [execChunk_append, hv0, hv1, execChunk, stepPure, execInstr, hv2] <;> rfl⟩
    · obtain ⟨v2, hv2⟩ :=
        HandleBinaryOp_ok OpCode.SUB (by decide) v0 v1 sstk scs sout sinp
      exact ⟨v2, by
        simp [execChunk_append, hv0, hv1, execChunk, stepPure, execInstr, hv2] <;> rfl⟩
    · obtain ⟨v2, hv2⟩ :=
        HandleBinaryOp_ok OpCode.MUL (by decide) v0 v1 sstk scs sout sinp
      exact ⟨v2, by
        simp [execChunk_append, hv0, hv1, execChunk, stepPure, execInstr, hv2] <;> rfl⟩
    · obtain ⟨v2, hv2⟩ :=
        HandleBinaryOp_ok OpCode.DIV (by decide) v0 v1 sstk scs sout sinp
      exact ⟨v2, by
        simp [execChunk_append, hv0, hv1, execChunk, stepPure, execInstr, hv2] <;> rfl⟩
    · obtain ⟨v2, hv2⟩ :=
        HandleBinaryOp_ok OpCode.MOD (by decide) v0 v1 sstk scs sout sinp
      exact ⟨v2, by
        simp [execChunk_append, hv0, hv1, execChunk, stepPure, execInstr, hv2] <;> rfl⟩
    · obtain ⟨v2, hv2⟩ :=
        HandleBinaryOp_ok OpCode.EQ (by decide) v0 v1 sstk scs sout sinp
      exact ⟨v2, by
        simp [execChunk_append, hv0, hv1, execChunk, stepPure, execInstr, hv2] <;> rfl⟩
    · obtain ⟨v2, hv2⟩ :=
        HandleBinaryOp_ok OpCode.NEQ (by decide) v0 v1 sstk scs sout sinp
      exact ⟨v2, by
        simp [execChunk_append, hv0, hv1, execChunk, stepPure, execInstr, hv2] <;> rfl⟩
    · obtain ⟨v2, hv2⟩ :=
        HandleBinaryOp_ok OpCode.LT (by decide) v0 v1 sstk scs sout sinp
      exact ⟨v2, by
        simp [execChunk_append, hv0, hv1, execChunk, stepPure, execInstr, hv2] <;> rfl⟩
    · obtain ⟨v2, hv2⟩ :=
        HandleBinaryOp_ok OpCode.GT (by decide) v0 v1 sstk scs sout sinp
      exact ⟨v2, by
        simp [execChunk_append, hv0, hv1, execChunk, stepPure, execInstr, hv2] <;> rfl⟩
    · obtain ⟨v2, hv2⟩ :=
        HandleBinaryOp_ok OpCode.LE (by decide) v0 v1 sstk scs sout sinp
      exact ⟨v2, by
        simp [execChunk_append, hv0, hv1, execChunk, stepPure, execInstr, hv2] <;> rfl⟩
    · obtain ⟨v2, hv2⟩ :=
        HandleBinaryOp_ok OpCode.GE (by decide) v0 v1 sstk scs sout sinp
      exact ⟨v2, by
        simp [execChunk_append, hv0, hv1, execChunk, stepPure, execInstr, hv2] <;> rfl⟩
  case Index =>
    intro s hn
    rcases cs with _ | ⟨c0, cs1⟩
    · exact absurd hn (by simp [PureExpr])
    rcases cs1 with _ | ⟨c1, tl⟩
    · exact absurd hn (by simp [PureExpr])
    rcases c0 with _ | m0
    · exact absurd hn (by simp [PureExpr])
    rcases c1 with _ | m1
    · exact absurd hn (by simp [PureExpr])
    simp only [PureExpr, Bool.and_eq_true] at hn
    obtain ⟨h0, h1⟩ := hn
    obtain ⟨sstk, scs, sout, sinp⟩ := s
    obtain ⟨v0, hv0⟩ := pure_chunk_pushes m0 ⟨sstk, scs, sout, sinp⟩ h0
    obtain ⟨v1, hv1⟩ := pure_chunk_pushes m1 ⟨v0 :: sstk, scs, sout, sinp⟩ h1
    rw [EC_index_ss]
    cases v0 with
    | none =>
      exact ⟨Value.int 0, by
        simp [execChunk_append, hv0, hv1, execChunk, stepPure, execInstr,
          HandleLoadIndex, popV, pushV, bind, Except.bind]⟩
    | int i =>
      exact ⟨Value.int 0, by
        simp [execChunk_append, hv0, hv1, execChunk, stepPure, execInstr,
          HandleLoadIndex, popV, pushV, bind, Except.bind]⟩
    | double d =>
      exact ⟨Value.int 0, by
        simp [execChunk_append, hv0, hv1, execChunk, stepPure, execInstr,
          HandleLoadIndex, popV, pushV, bind, Except.bind]⟩
    | str str0 =>
      by_cases hb : v1.AsInt < 0 ∨ str0.length ≤ v1.AsInt.toNat
      · exact ⟨Value.str "", by
          simp [execChunk_append, hv0, hv1, execChunk, stepPure, execInstr,
            HandleLoadIndex, popV, pushV, bind, Except.bind, hb]⟩
      · exact ⟨Value.str (String.mk [str0.data.getD v1.AsInt.toNat ' ']), by
          simp [execChunk_append, hv0, hv1, execChunk, stepPure, execInstr,
            HandleLoadIndex, popV, pushV, bind, Except.bind, hb]⟩
    | arr a =>
      by_cases hb : v1.AsInt < 0 ∨ a.length ≤ v1.AsInt.toNat
      · exact ⟨Value.int 0, by
          simp [execChunk_append, hv0, hv1, execChunk, stepPure, execInstr,
            HandleLoadIndex, popV, pushV, bind, Except.bind, hb]⟩
      · exact ⟨a.getD v1.AsInt.toNat Value.none, by
          simp [execChunk_append, hv0, hv1, execChunk, stepPure, execInstr,
            HandleLoadIndex, popV, pushV, bind, Except.bind, hb]⟩
  all_goals intro s hn
  all_goals exact absurd hn (by simp [PureExpr])
termination_by sizeOf n

end Petukh

namespace Petukh

theorem ECO_some (m : ASTNode) : ECO (Option.some m) = EC m := rfl

theorem pure_chunk_ops (n : ASTNode) :
    PureExpr n = true → ∀ i ∈ EC n, i.op ∈ pureOps := by
  obtain ⟨k, t, b, cs⟩ := n
  cases k
  case Number =>
    intro hn i hi
    rw [EC_number] at hi
    by_cases hf : IsFloatingLiteral t = true
    · rw [if_pos hf] at hi
      rcases List.mem_singleton.mp hi with rfl
      show OpCode.PUSH_DOUBLE ∈ pureOps
      decide
    · rw [if_neg hf] at hi
      rcases List.mem_singleton.mp hi with rfl
      show OpCode.PUSH_INT ∈ pureOps
      decide
  case String =>
    intro hn i hi
    rw [EC_string] at hi
    rcases List.mem_singleton.mp hi with rfl
    show OpCode.PUSH_STRING ∈ pureOps
    decide
  case Identifier =>
    intro hn i hi
    rw [EC_ident] at hi
    rcases List.mem_singleton.mp hi with rfl
    show OpCode.LOAD ∈ pureOps
    decide
  case Unary =>
    intro hn i hi
    rcases cs with _ | ⟨c0, tl⟩
    · exact absurd hn (by simp [PureExpr])
    rcases c0 with _ | m
    · exact absurd hn (by simp [PureExpr])
    simp only [PureExpr] at hn
    rw [EC_unary_some] at hi
    rcases List.mem_append.mp hi with hi | hi
    · exact pure_chunk_ops m hn i hi
    · by_cases h1 : (t == "-") = true
      · rw [if_pos h1] at hi
        rcases List.mem_singleton.mp hi with rfl
        show OpCode.NEG ∈ pureOps
        decide
      · rw [if_neg h1] at hi
        by_cases h2 : (t == "!") = true
        · rw [if_pos h2] at hi
          rcases List.mem_singleton.mp hi with rfl
          show OpCode.NOT ∈ pureOps
          decide
        · rw [if_neg h2] at hi
          simp at hi
  case Binary =>
    intro hn i hi
    rcases cs with _ | ⟨c0, cs1⟩
    · exact absurd hn (by simp [PureExpr])
    rcases cs1 with _ | ⟨c1, tl⟩
    · exact absurd hn (by simp [PureExpr])
    rcases c0 with _ | m0
    · exact absurd hn (by simp [PureExpr])
    rcases c1 with _ | m1
    · exact absurd hn (by simp [PureExpr])
    simp only [PureExpr, Bool.and_eq_true] at hn
    obtain ⟨⟨hPB, h0⟩, h1⟩ := hn
    rw [EC_binary_ss] at hi
    rcases List.mem_append.mp hi with hi | hi
    · rcases List.mem_append.mp hi with hi | hi
      · exact pure_chunk_ops m0 h0 i hi
      · exact pure_chunk_ops m1 h1 i hi
    · obtain ⟨op, hBC, hops⟩ := BC_pure t hPB
      rw [hBC] at hi
      rcases List.mem_singleton.mp hi with rfl
      show op ∈ pureOps
      have hall : ∀ o ∈ [OpCode.ADD, OpCode.SUB, OpCode.MUL, OpCode.DIV, OpCode.MOD,
          OpCode.EQ, OpCode.NEQ, OpCode.LT, OpCode.GT, OpCode.LE, OpCode.GE],
          o ∈ pureOps := by decide
      exact hall op hops
  case Index =>
    intro hn i hi
    rcases cs with _ | ⟨c0, cs1⟩
    · exact absurd hn (by simp [PureExpr])
    rcases cs1 with _ | ⟨c1, tl⟩
    · exact absurd hn (by simp [PureExpr])
    rcases c0 with _ | m0
    · exact absurd hn (by simp [PureExpr])
    rcases c1 with _ | m1
    · exact absurd hn (by simp [PureExpr])
    simp only [PureExpr, Bool.and_eq_true] at hn
    obtain ⟨h0, h1⟩ := hn
    rw [EC_index_ss] at hi
    rcases List.mem_append.mp hi with hi | hi
    · rcases List.mem_append.mp hi with hi | hi
      · exact pure_chunk_ops m0 h0 i hi
      · exact pure_chunk_ops m1 h1 i hi
    · rcases List.mem_singleton.mp hi with rfl
      show OpCode.LOAD_INDEX ∈ pureOps
      decide
  all_goals intro hn
  all_goals exact absurd hn (by simp [PureExpr])
termination_by sizeOf n

theorem pure_not_call_assign (e : ASTNode) (he : PureExpr e = true) :
    (optKind (Option.some e) != NodeKind.Call &&
     optKind (Option.some e) != NodeKind.Assign) = true := by
  obtain ⟨k, t, b, cs⟩ := e
  cases k
  all_goals first
    | rfl
    | exact absurd he (by simp [PureExpr])

theorem exprstmt_chunk_neutral (e : ASTNode) (he : PureExpr e = true) (s : VMState) :
    execChunk (EC e ++ [⟨OpCode.POP, ""⟩]) s = Except.ok s := by
  obtain ⟨v, hv⟩ := pure_chunk_pushes e s he
  simp [execChunk_append, hv, execChunk, stepPure, execInstr, popV]

end Petukh

namespace Petukh

/-- AST of `fn int main() { return 0; }`. -/
def c1ast : ASTNode :=
  ASTNode.mk NodeKind.Program "" false
    [Option.some (ASTNode.mk NodeKind.Function "main" false
      [Option.some (ASTNode.mk NodeKind.TypeNode "int" false []),
       Option.some (ASTNode.mk NodeKind.Block "" false
         [Option.some (ASTNode.mk NodeKind.Return "" false
           [Option.some (ASTNode.mk NodeKind.Number "0" false [])])])])]

/-- C1 counterexample: a diagnostics-free program whose VM run terminates
normally (the sentinel frame's RET) with a NON-empty operand stack — the
value returned by `main` stays behind. -/
theorem C1_counterexample :
    Analyze c1ast = [] ∧
    Run (Generate (Option.some c1ast)) [] 10 =
      RunResult.finished
        { stack := [Value.int 0], call_stack := [], out := "", input := [] } ∧
    [Value.int 0] ≠ ([] : List Value) :=
  ⟨by decide, rfl, by simp⟩

/-- C1 (amended): the stack-balance part of the claim that does hold: for
a straight-line expression `e` (no calls, assignments or comma lists),
`ExprStmt` lowering emits the expression chunk followed by `POP`, and
executing that chunk anywhere in a program falls through to the next
instruction with the operand stack (and whole machine state) exactly
restored.  The full claim is false: normal termination does not imply an
empty stack (`C1_counterexample`). -/
theorem C1_exprstmt_stack_neutral (t : String) (b : Bool) (e : ASTNode)
    (tl : List (Option ASTNode)) (st : GenSt) (he : PureExpr e = true) :
    (GenStatementN (ASTNode.mk NodeKind.ExprStmt t b (Option.some e :: tl)) st).code =
      st.code ++ (EC e ++ [(⟨OpCode.POP, ""⟩ : Instruction)]) ∧
    ∀ (P Q : List Instruction) (lm : List (String × Nat)) (fuel : Nat) (s : VMState),
      runLoop (P ++ (EC e ++ [(⟨OpCode.POP, ""⟩ : Instruction)]) ++ Q) lm
          ((EC e ++ [(⟨OpCode.POP, ""⟩ : Instruction)]).length + fuel) P.length s =
        runLoop (P ++ (EC e ++ [(⟨OpCode.POP, ""⟩ : Instruction)]) ++ Q) lm fuel
          (P.length + (EC e ++ [(⟨OpCode.POP, ""⟩ : Instruction)]).length) s := by
  constructor
  · rw [gseq_exprstmt_cons]
    have hck := pure_not_call_assign e he
    simp [hck, GenExpression_frame, ECO_some, emit_frame, List.append_assoc]
  · intro P Q lm fuel s
    have hops : ∀ i ∈ EC e ++ [(⟨OpCode.POP, ""⟩ : Instruction)], i.op ∈ pureOps := by
      intro i hi
      rcases List.mem_append.mp hi with hi | hi
      · exact pure_chunk_ops e he i hi
      · rcases List.mem_singleton.mp hi with rfl
        show OpCode.POP ∈ pureOps
        decide
    rw [runLoop_chunk _ hops P Q lm fuel s, exprstmt_chunk_neutral e he s]

end Petukh

namespace Petukh

theorem C1_exprstmt_stack_neutral_witness :
    PureExpr (ASTNode.mk NodeKind.Unary "+" false
      [Option.some (ASTNode.mk NodeKind.Number "1" false [])]) = true ∧
    ((GenStatementN (ASTNode.mk NodeKind.ExprStmt "" false
        (Option.some (ASTNode.mk NodeKind.Unary "+" false
          [Option.some (ASTNode.mk NodeKind.Number "1" false [])]) :: [])) g0).code =
      g0.code ++ (EC (ASTNode.mk NodeKind.Unary "+" false
          [Option.some (ASTNode.mk NodeKind.Number "1" false [])]) ++
        [(⟨OpCode.POP, ""⟩ : Instruction)]) ∧
    ∀ (P Q : List Instruction) (lm : List (String × Nat)) (fuel : Nat) (s : VMState),
      runLoop (P ++ (EC (ASTNode.mk NodeKind.Unary "+" false
          [Option.some (ASTNode.mk NodeKind.Number "1" false [])]) ++
          [(⟨OpCode.POP, ""⟩ : Instruction)]) ++ Q) lm
          ((EC (ASTNode.mk NodeKind.Unary "+" false
            [Option.some (ASTNode.mk NodeKind.Number "1" false [])]) ++
            [(⟨OpCode.POP, ""⟩ : Instruction)]).length + fuel) P.length s =
        runLoop (P ++ (EC (ASTNode.mk NodeKind.Unary "+" false
            [Option.some (ASTNode.mk NodeKind.Number "1" false [])]) ++
            [(⟨OpCode.POP, ""⟩ : Instruction)]) ++ Q) lm fuel
          (P.length + (EC (ASTNode.mk NodeKind.Unary "+" false
            [Option.some (ASTNode.mk NodeKind.Number "1" false [])]) ++
            [(⟨OpCode.POP, ""⟩ : Instruction)]).length) s) :=
  ⟨rfl, C1_exprstmt_stack_neutral "" false
    (ASTNode.mk NodeKind.Unary "+" false
      [Option.some (ASTNode.mk NodeKind.Number "1" false [])])
    [] g0 rfl⟩

end Petukh

namespace Petukh

theorem cseq_block (t : String) (b : Bool) (cs : List (Option ASTNode)) (st : AnSt) :
    CheckStatementN (ASTNode.mk NodeKind.Block t b cs) st =
      ExitScope (CheckStatements cs (EnterScope st)) := rfl

theorem cseq_vdl_cons (t : String) (b : Bool) (t0 : Option ASTNode)
    (vars : List (Option ASTNode)) (st : AnSt) :
    CheckStatementN (ASTNode.mk NodeKind.VarDeclList t b (t0 :: vars)) st =
      CheckVarDecls (NodeToType t0) vars st := rfl

theorem csts_nil (st : AnSt) : CheckStatements [] st = st := rfl

theorem csts_cons_some (m : ASTNode) (rest : List (Option ASTNode)) (st : AnSt) :
    CheckStatements (Option.some m :: rest) st =
      CheckStatements rest (CheckStatementN m st) := rfl

/-- AST of a program whose single function has a parameter `x` and whose
body declares `x` TWICE: the body does declare a variable with a
parameter's name, yet a Duplicate variable diagnostic is reported (for
the second body declaration, in the same block scope as the first). -/
def c9dup : ASTNode :=
  ASTNode.mk NodeKind.Program "" false
    [Option.some (ASTNode.mk NodeKind.Function "f" false
      [Option.some (ASTNode.mk NodeKind.TypeNode "void" false []),
       Option.some (ASTNode.mk NodeKind.FuncArg "x" false
         [Option.some (ASTNode.mk NodeKind.TypeNode "int" false [])]),
       Option.some (ASTNode.mk NodeKind.Block "" false
         [Option.some (ASTNode.mk NodeKind.VarDeclList "" false
           [Option.some (ASTNode.mk NodeKind.TypeNode "int" false []),
            Option.some (ASTNode.mk NodeKind.VarDecl "x" false [])]),
          Option.some (ASTNode.mk NodeKind.VarDeclList "" false
            [Option.some (ASTNode.mk NodeKind.TypeNode "int" false []),
             Option.some (ASTNode.mk NodeKind.VarDecl "x" false [])])])])]

theorem C9_counterexample :
    Analyze c9dup = ["Duplicate variable: x"] := by decide

/-- The shadowing-only program `fn void f(int x) { int x; }`. -/
def c9prog (f x : String) : ASTNode :=
  ASTNode.mk NodeKind.Program "" false
    [Option.some (ASTNode.mk NodeKind.Function f false
      [Option.some (ASTNode.mk NodeKind.TypeNode "void" false []),
       Option.some (ASTNode.mk NodeKind.FuncArg x false
         [Option.some (ASTNode.mk NodeKind.TypeNode "int" false [])]),
       Option.some (ASTNode.mk NodeKind.Block "" false
         [Option.some (ASTNode.mk NodeKind.VarDeclList "" false
           [Option.some (ASTNode.mk NodeKind.TypeNode "int" false []),
            Option.some (ASTNode.mk NodeKind.VarDecl x false [])])])])]

/-- C9 (amended core): a single body declaration that shadows a parameter
produces no diagnostic at all, because the parameters and the body block
live in different scopes. -/
theorem C9_param_shadowing (f x : String)
    (h1 : ("printInt" == f) = false) (h2 : ("printDouble" == f) = false)
    (h3 : ("printStr" == f) = false) (h4 : ("inputInt" == f) = false)
    (h5 : ("inputDouble" == f) = false) (h6 : ("inputStr" == f) = false) :
    Analyze (c9prog f x) = [] := by
  simp [Analyze, c9prog, DeclareBuiltins, PredeclareFunction, CheckFunction,
    Declare, lookupA, DeclareVar, CheckStatement, EnterScope, ExitScope,
    NodeToType, optChildren, optIsArray, childOpt, lastChild, CheckVarDecls,
    cseq_block, cseq_vdl_cons, csts_nil, csts_cons_some, AnError,
    ASTNode.children, ASTNode.kind, ASTNode.text, ASTNode.isArray,
    List.foldl_cons, List.foldl_nil,
    h1, h2, h3, h4, h5, h6]

theorem C9_param_shadowing_witness : Analyze (c9prog "f" "x") = [] :=
  C9_param_shadowing "f" "x" rfl rfl rfl rfl rfl rfl

end Petukh

namespace Petukh

/-! ## C3 infrastructure, part 1: `NewLabel` names are injective in the
counter.  `Nat.repr` is shown injective by re-reading the digit string
with `takeDigits` (the same digit reader the VM model uses). -/

def myDigits (n : Nat) : List Char :=
  if n < 10 then [Nat.digitChar n]
  else myDigits (n / 10) ++ [Nat.digitChar (n % 10)]
termination_by n
decreasing_by
  have h10 : ¬n < 10 := by assumption
  omega

theorem toDigitsCore_eq_myDigits :
    ∀ (f n : Nat) (ds : List Char), n < f →
      Nat.toDigitsCore 10 f n ds = myDigits n ++ ds := by
  intro f
  induction f with
  | zero => intro n ds h; omega
  | succ f ih =>
    intro n ds h
    rw [Nat.toDigitsCore]
    by_cases h0 : n / 10 = 0
    · have hn10 : n < 10 := by omega
      rw [if_pos h0, myDigits]
      rw [if_pos hn10, Nat.mod_eq_of_lt hn10]
      rfl
    · have hn10 : ¬n < 10 := by omega
      rw [if_neg h0, ih (n / 10) _ (by omega)]
      conv_rhs => rw [myDigits]
      rw [if_neg hn10]
      simp

theorem digitChar_digit (k : Nat) (hk : k < 10) :
    (Nat.digitChar k).isDigit = true ∧ (Nat.digitChar k).toNat - 48 = k := by
  interval_cases k <;> exact ⟨by decide, by decide⟩

theorem myDigits_len_pos (n : Nat) : 0 < (myDigits n).length := by
  rw [myDigits]
  by_cases h : n < 10
  · simp [h]
  · simp [h]

theorem takeDigits_myDigits :
    ∀ (n : Nat), ∀ (acc : Nat) (rest : List Char),
      takeDigits acc (myDigits n ++ rest) =
        takeDigits (acc * 10 ^ (myDigits n).length + n) rest := by
  intro n
  induction n using Nat.strong_induction_on with
  | _ n ih =>
    intro acc rest
    by_cases h : n < 10
    · rw [myDigits, if_pos h]
      obtain ⟨hd1, hd2⟩ := digitChar_digit n h
      simp [takeDigits, hd1, hd2]
    · rw [myDigits, if_neg h]
      have hlt : n / 10 < n := by omega
      rw [List.append_assoc, ih (n / 10) hlt acc, List.singleton_append]
      obtain ⟨hd1, hd2⟩ := digitChar_digit (n % 10) (by omega)
      rw [takeDigits, if_pos hd1, hd2]
      have harith : (acc * 10 ^ (myDigits (n / 10)).length + n / 10) * 10 + n % 10 =
          acc * 10 ^ ((myDigits (n / 10)).length + 1) + n := by
        rw [pow_succ]
        have := Nat.div_add_mod n 10
        ring_nf
        omega
      rw [harith]
      have hlen : (myDigits (n / 10) ++ [Nat.digitChar (n % 10)]).length =
          (myDigits (n / 10)).length + 1 := by simp
      rw [hlen]

theorem myDigits_parse (n : Nat) : takeDigits 0 (myDigits n) = n := by
  have h := takeDigits_myDigits n 0 []
  rw [List.append_nil] at h
  simpa [takeDigits] using h

theorem repr_eq_myDigits (n : Nat) : Nat.repr n = String.mk (myDigits n) := by
  show (Nat.toDigits 10 n).asString = String.mk (myDigits n)
  rw [Nat.toDigits, toDigitsCore_eq_myDigits (n + 1) n [] (Nat.lt_succ_self n),
    List.append_nil]
  rfl

theorem repr_inj {n m : Nat} (h : Nat.repr n = Nat.repr m) : n = m := by
  rw [repr_eq_myDigits, repr_eq_myDigits] at h
  have hd : myDigits n = myDigits m := by
    injection h
  have := myDigits_parse n
  rw [hd, myDigits_parse m] at this
  omega

/-- The label `NewLabel` produces for counter value `k`. -/
def labelName (k : Nat) : String := "L" ++ Nat.repr k

theorem NewLabel_name (st : GenSt) : (NewLabel st).1 = labelName st.labelCounter := rfl

theorem labelName_inj {a b : Nat} (h : labelName a = labelName b) : a = b := by
  have hd := congrArg String.data h
  simp only [labelName, String.data_append] at hd
  have h2 : (Nat.repr a).data = (Nat.repr b).data := by simpa using hd
  exact repr_inj (String.ext h2)

theorem labelName_head (k : Nat) : (labelName k).data.head? = Option.some 'L' := by
  simp [labelName, String.data_append]

end Petukh

namespace Petukh

/-! ## C3, part 2: expression chunks contain no LABEL/JMP/JZ. -/

theorem ECL_nil : ECL [] = [] := rfl

theorem ECL_cons_none (rest : List (Option ASTNode)) :
    ECL (Option.none :: rest) = ECL rest := rfl

theorem ECL_cons_some (m : ASTNode) (rest : List (Option ASTNode)) :
    ECL (Option.some m :: rest) = EC m ++ ECL rest := by
  have h : ECL (Option.some m :: rest) =
      (GenExprList (Option.some m :: rest) g0).code := rfl
  rw [h, geqL_cons_some, genExprList_frame, genExprN_frame]
  simp [g0]

theorem EC_unary_nil (t : String) (b : Bool) :
    EC (ASTNode.mk NodeKind.Unary t b []) = [] := rfl

theorem EC_unary_none (t : String) (b : Bool) (tl : List (Option ASTNode)) :
    EC (ASTNode.mk NodeKind.Unary t b (Option.none :: tl)) =
      (if t == "-" then [⟨OpCode.NEG, ""⟩]
       else if t == "!" then [⟨OpCode.NOT, ""⟩] else []) := by
  have h : EC (ASTNode.mk NodeKind.Unary t b (Option.none :: tl)) =
      (GenExpressionN (ASTNode.mk NodeKind.Unary t b (Option.none :: tl)) g0).code := rfl
  rw [h, geqN_unary_none]
  by_cases h1 : (t == "-") = true
  · simp [h1, emit_frame, g0]
  by_cases h2 : (t == "!") = true
  · simp [h1, h2, emit_frame, g0]
  · simp [h1, h2, g0]

theorem EC_binary_nil (t : String) (b : Bool) :
    EC (ASTNode.mk NodeKind.Binary t b []) = [] := rfl

theorem EC_binary_one (t : String) (b : Bool) (c0 : Option ASTNode) :
    EC (ASTNode.mk NodeKind.Binary t b [c0]) = [] := rfl

theorem EC_binary_nn (t : String) (b : Bool) (c1tl : List (Option ASTNode)) :
    EC (ASTNode.mk NodeKind.Binary t b (Option.none :: Option.none :: c1tl)) = BC t := rfl

theorem EC_binary_sn (t : String) (b : Bool) (m0 : ASTNode)
    (c1tl : List (Option ASTNode)) :
    EC (ASTNode.mk NodeKind.Binary t b (Option.some m0 :: Option.none :: c1tl)) =
      EC m0 ++ BC t := by
  have h : EC (ASTNode.mk NodeKind.Binary t b (Option.some m0 :: Option.none :: c1tl)) =
      (GenExpressionN (ASTNode.mk NodeKind.Binary t b
        (Option.some m0 :: Option.none :: c1tl)) g0).code := rfl
  rw [h, geqN_binary_sn, genExprN_frame m0 g0, binOpEmit_frame]
  simp [g0, List.append_assoc]

theorem EC_binary_ns (t : String) (b : Bool) (m1 : ASTNode)
    (c1tl : List (Option ASTNode)) :
    EC (ASTNode.mk NodeKind.Binary t b (Option.none :: Option.some m1 :: c1tl)) =
      EC m1 ++ BC t := by
  have h : EC (ASTNode.mk NodeKind.Binary t b (Option.none :: Option.some m1 :: c1tl)) =
      (GenExpressionN (ASTNode.mk NodeKind.Binary t b
        (Option.none :: Option.some m1 :: c1tl)) g0).code := rfl
  rw [h, geqN_binary_ns, genExprN_frame m1 g0, binOpEmit_frame]
  simp [g0, List.append_assoc]

theorem EC_call_nil (t : String) (b : Bool) :
    EC (ASTNode.mk NodeKind.Call t b []) = [] := rfl

theorem EC_call_cons (t : String) (b : Bool) (callee : Option ASTNode)
    (args : List (Option ASTNode)) :
    EC (ASTNode.mk NodeKind.Call t b (callee :: args)) =
      ECL args ++ [⟨OpCode.CALL, optText callee⟩] := by
  have h : EC (ASTNode.mk NodeKind.Call t b (callee :: args)) =
      (GenExpressionN (ASTNode.mk NodeKind.Call t b (callee :: args)) g0).code := rfl
  rw [h, geqN_call_cons, genExprList_frame]
  simp [emit_frame, g0]

theorem EC_index_nil (t : String) (b : Bool) :
    EC (ASTNode.mk NodeKind.Index t b []) = [] := rfl

theorem EC_index_one (t : String) (b : Bool) (c0 : Option ASTNode) :
    EC (ASTNode.mk NodeKind.Index t b [c0]) = [] := rfl

theorem EC_index_nn (t : String) (b : Bool) (c1tl : List (Option ASTNode)) :
    EC (ASTNode.mk NodeKind.Index t b (Option.none :: Option.none :: c1tl)) =
      [⟨OpCode.LOAD_INDEX, ""⟩] := rfl

theorem EC_index_sn (t : String) (b : Bool) (m0 : ASTNode)
    (c1tl : List (Option ASTNode)) :
    EC (ASTNode.mk NodeKind.Index t b (Option.some m0 :: Option.none :: c1tl)) =
      EC m0 ++ [⟨OpCode.LOAD_INDEX, ""⟩] := by
  have h : EC (ASTNode.mk NodeKind.Index t b (Option.some m0 :: Option.none :: c1tl)) =
      (GenExpressionN (ASTNode.mk NodeKind.Index t b
        (Option.some m0 :: Option.none :: c1tl)) g0).code := rfl
  rw [h, geqN_index_sn, genExprN_frame m0 g0]
  simp [emit_frame, g0]

theorem EC_index_ns (t : String) (b : Bool) (m1 : ASTNode)
    (c1tl : List (Option ASTNode)) :
    EC (ASTNode.mk NodeKind.Index t b (Option.none :: Option.some m1 :: c1tl)) =
      EC m1 ++ [⟨OpCode.LOAD_INDEX, ""⟩] := by
  have h : EC (ASTNode.mk NodeKind.Index t b (Option.none :: Option.some m1 :: c1tl)) =
      (GenExpressionN (ASTNode.mk NodeKind.Index t b
        (Option.none :: Option.some m1 :: c1tl)) g0).code := rfl
  rw [h, geqN_index_ns, genExprN_frame m1 g0]
  simp [emit_frame, g0]

theorem EC_comma (t : String) (b : Bool) (cs : List (Option ASTNode)) :
    EC (ASTNode.mk NodeKind.CommaExpr t b cs) = ECL cs := rfl

theorem EC_assign_nil (t : String) (b : Bool) :
    EC (ASTNode.mk NodeKind.Assign t b []) = [] := rfl

theorem EC_assign_one (t : String) (b : Bool) (c0 : Option ASTNode) :
    EC (ASTNode.mk NodeKind.Assign t b [c0]) = [] := by
  have h : EC (ASTNode.mk NodeKind.Assign t b [c0]) =
      (GenExpressionN (ASTNode.mk NodeKind.Assign t b [c0]) g0).code := rfl
  rw [h, geqN_assign_one]
  rfl

theorem EC_assign_nonelhs (t : String) (b : Bool) (c1 : Option ASTNode)
    (tl : List (Option ASTNode)) :
    EC (ASTNode.mk NodeKind.Assign t b (Option.none :: c1 :: tl)) = [] := rfl

theorem EC_assign_idx_nil (t ti : String) (b bi : Bool) (crhs : Option ASTNode)
    (tl : List (Option ASTNode)) :
    EC (ASTNode.mk NodeKind.Assign t b
      (Option.some (ASTNode.mk NodeKind.Index ti bi []) :: crhs :: tl)) = [] := rfl

theorem EC_assign_idx_one (t ti : String) (b bi : Bool) (a0 crhs : Option ASTNode)
    (tl : List (Option ASTNode)) :
    EC (ASTNode.mk NodeKind.Assign t b
      (Option.some (ASTNode.mk NodeKind.Index ti bi [a0]) :: crhs :: tl)) = [] := rfl

end Petukh

namespace Petukh

theorem EC_assign_idx_nnn (t ti : String) (b bi : Bool)
    (itl tl : List (Option ASTNode)) :
    EC (ASTNode.mk NodeKind.Assign t b
        (Option.some (ASTNode.mk NodeKind.Index ti bi
          (Option.none :: Option.none :: itl)) :: Option.none :: tl)) =
      [⟨OpCode.STORE_INDEX, ""⟩] := rfl

theorem EC_assign_idx_nns (t ti : String) (b bi : Bool) (mr : ASTNode)
    (itl tl : List (Option ASTNode)) :
    EC (ASTNode.mk NodeKind.Assign t b
        (Option.some (ASTNode.mk NodeKind.Index ti bi
          (Option.none :: Option.none :: itl)) :: Option.some mr :: tl)) =
      EC mr ++ [⟨OpCode.STORE_INDEX, ""⟩] := by
  have h : EC (ASTNode.mk NodeKind.Assign t b
      (Option.some (ASTNode.mk NodeKind.Index ti bi
        (Option.none :: Option.none :: itl)) :: Option.some mr :: tl)) =
      (GenExpressionN (ASTNode.mk NodeKind.Assign t b
        (Option.some (ASTNode.mk NodeKind.Index ti bi
          (Option.none :: Option.none :: itl)) :: Option.some mr :: tl)) g0).code := rfl
  rw [h, geqN_assign_idx_nns, genExprN_frame mr g0]
  simp [emit_frame, g0]

theorem EC_assign_idx_nsn (t ti : String) (b bi : Bool) (mi : ASTNode)
    (itl tl : List (Option ASTNode)) :
    EC (ASTNode.mk NodeKind.Assign t b
        (Option.some (ASTNode.mk NodeKind.Index ti bi
          (Option.none :: Option.some mi :: itl)) :: Option.none :: tl)) =
      EC mi ++ [⟨OpCode.STORE_INDEX, ""⟩] := by
  have h : EC (ASTNode.mk NodeKind.Assign t b
      (Option.some (ASTNode.mk NodeKind.Index ti bi
        (Option.none :: Option.some mi :: itl)) :: Option.none :: tl)) =
      (GenExpressionN (ASTNode.mk NodeKind.Assign t b
        (Option.some (ASTNode.mk NodeKind.Index ti bi
          (Option.none :: Option.some mi :: itl)) :: Option.none :: tl)) g0).code := rfl
  rw [h, geqN_assign_idx_nsn, genExprN_frame mi g0]
  simp [emit_frame, g0]

theorem EC_assign_idx_nss (t ti : String) (b bi : Bool) (mi mr : ASTNode)
    (itl tl : List (Option ASTNode)) :
    EC (ASTNode.mk NodeKind.Assign t b
        (Option.some (ASTNode.mk NodeKind.Index ti bi
          (Option.none :: Option.some mi :: itl)) :: Option.some mr :: tl)) =
      EC mr ++ EC mi ++ [⟨OpCode.STORE_INDEX, ""⟩] := by
  have h : EC (ASTNode.mk NodeKind.Assign t b
      (Option.some (ASTNode.mk NodeKind.Index ti bi
        (Option.none :: Option.some mi :: itl)) :: Option.some mr :: tl)) =
      (GenExpressionN (ASTNode.mk NodeKind.Assign t b
        (Option.some (ASTNode.mk NodeKind.Index ti bi
          (Option.none :: Option.some mi :: itl)) :: Option.some mr :: tl)) g0).code := rfl
  rw [h, geqN_assign_idx_nss, genExprN_frame mr g0, genExprN_frame mi]
  simp [emit_frame, g0, List.append_assoc]

theorem EC_assign_idx_snn (t ti : String) (b bi : Bool) (ma : ASTNode)
    (itl tl : List (Option ASTNode)) :
    EC (ASTNode.mk NodeKind.Assign t b
        (Option.some (ASTNode.mk NodeKind.Index ti bi
          (Option.some ma :: Option.none :: itl)) :: Option.none :: tl)) =
      (if ma.kind = NodeKind.Identifier then [⟨OpCode.STORE_INDEX, ma.text⟩]
       else EC ma ++ [⟨OpCode.STORE_INDEX, ""⟩]) := by
  have h : EC (ASTNode.mk NodeKind.Assign t b
      (Option.some (ASTNode.mk NodeKind.Index ti bi
        (Option.some ma :: Option.none :: itl)) :: Option.none :: tl)) =
      (GenExpressionN (ASTNode.mk NodeKind.Assign t b
        (Option.some (ASTNode.mk NodeKind.Index ti bi
          (Option.some ma :: Option.none :: itl)) :: Option.none :: tl)) g0).code := rfl
  rw [h, geqN_assign_idx_snn]
  by_cases hid : ma.kind = NodeKind.Identifier
  · simp [hid, emit_frame, g0]
  · simp only [hid, if_false]
    rw [genExprN_frame ma g0]
    simp [hid, emit_frame, g0]

theorem EC_assign_idx_sns (t ti : String) (b bi : Bool) (ma mr : ASTNode)
    (itl tl : List (Option ASTNode)) :
    EC (ASTNode.mk NodeKind.Assign t b
        (Option.some (ASTNode.mk NodeKind.Index ti bi
          (Option.some ma :: Option.none :: itl)) :: Option.some mr :: tl)) =
      (if ma.kind = NodeKind.Identifier then EC mr ++ [⟨OpCode.STORE_INDEX, ma.text⟩]
       else EC mr ++ EC ma ++ [⟨OpCode.STORE_INDEX, ""⟩]) := by
  have h : EC (ASTNode.mk NodeKind.Assign t b
      (Option.some (ASTNode.mk NodeKind.Index ti bi
        (Option.some ma :: Option.none :: itl)) :: Option.some mr :: tl)) =
      (GenExpressionN (ASTNode.mk NodeKind.Assign t b
        (Option.some (ASTNode.mk NodeKind.Index ti bi
          (Option.some ma :: Option.none :: itl)) :: Option.some mr :: tl)) g0).code := rfl
  rw [h, geqN_assign_idx_sns]
  by_cases hid : ma.kind = NodeKind.Identifier
  · simp only [hid, if_true]
    rw [genExprN_frame mr g0]
    simp [emit_frame, g0]
  · simp only [hid, if_false]
    rw [genExprN_frame mr g0, genExprN_frame ma]
    simp [emit_frame, g0, List.append_assoc]

theorem EC_assign_idx_ssn (t ti : String) (b bi : Bool) (ma mi : ASTNode)
    (itl tl : List (Option ASTNode)) :
    EC (ASTNode.mk NodeKind.Assign t b
        (Option.some (ASTNode.mk NodeKind.Index ti bi
          (Option.some ma :: Option.some mi :: itl)) :: Option.none :: tl)) =
      (if ma.kind = NodeKind.Identifier then EC mi ++ [⟨OpCode.STORE_INDEX, ma.text⟩]
       else EC ma ++ EC mi ++ [⟨OpCode.STORE_INDEX, ""⟩]) := by
  have h : EC (ASTNode.mk NodeKind.Assign t b
      (Option.some (ASTNode.mk NodeKind.Index ti bi
        (Option.some ma :: Option.some mi :: itl)) :: Option.none :: tl)) =
      (GenExpressionN (ASTNode.mk NodeKind.Assign t b
        (Option.some (ASTNode.mk NodeKind.Index ti bi
          (Option.some ma :: Option.some mi :: itl)) :: Option.none :: tl)) g0).code := rfl
  rw [h, geqN_assign_idx_ssn]
  by_cases hid : ma.kind = NodeKind.Identifier
  · simp only [hid, if_true]
    rw [genExprN_frame mi g0]
    simp [emit_frame, g0]
  · simp only [hid, if_false]
    rw [genExprN_frame ma g0, genExprN_frame mi]
    simp [emit_frame, g0, List.append_assoc]

theorem EC_assign_idx_sss (t ti : String) (b bi : Bool) (ma mi mr : ASTNode)
    (itl tl : List (Option ASTNode)) :
    EC (ASTNode.mk NodeKind.Assign t b
        (Option.some (ASTNode.mk NodeKind.Index ti bi
          (Option.some ma :: Option.some mi :: itl)) :: Option.some mr :: tl)) =
      (if ma.kind = NodeKind.Identifier then
        EC mr ++ EC mi ++ [⟨OpCode.STORE_INDEX, ma.text⟩]
       else EC mr ++ EC ma ++ EC mi ++ [⟨OpCode.STORE_INDEX, ""⟩]) := by
  have h : EC (ASTNode.mk NodeKind.Assign t b
      (Option.some (ASTNode.mk NodeKind.Index ti bi
        (Option.some ma :: Option.some mi :: itl)) :: Option.some mr :: tl)) =
      (GenExpressionN (ASTNode.mk NodeKind.Assign t b
        (Option.some (ASTNode.mk NodeKind.Index ti bi
          (Option.some ma :: Option.some mi :: itl)) :: Option.some mr :: tl)) g0).code := rfl
  rw [h, geqN_assign_idx_sss]
  by_cases hid : ma.kind = NodeKind.Identifier
  · simp only [hid, if_true]
    rw [genExprN_frame mr g0, genExprN_frame mi]
    simp [emit_frame, g0, List.append_assoc]
  · simp only [hid, if_false]
    rw [genExprN_frame mr g0, genExprN_frame ma, genExprN_frame mi]
    simp [emit_frame, g0, List.append_assoc]

theorem EC_assign_other_none (lk : NodeKind) (hlk : lk ≠ NodeKind.Index)
    (t lt : String) (b lb : Bool) (lcs tl : List (Option ASTNode)) :
    EC (ASTNode.mk NodeKind.Assign t b
        (Option.some (ASTNode.mk lk lt lb lcs) :: Option.none :: tl)) =
      [⟨OpCode.STORE, lt⟩] := by
  have h : EC (ASTNode.mk NodeKind.Assign t b
      (Option.some (ASTNode.mk lk lt lb lcs) :: Option.none :: tl)) =
      (GenExpressionN (ASTNode.mk NodeKind.Assign t b
        (Option.some (ASTNode.mk lk lt lb lcs) :: Option.none :: tl)) g0).code := rfl
  rw [h, geqN_assign_other_none lk hlk]
  rfl

theorem EC_assign_other_some (lk : NodeKind) (hlk : lk ≠ NodeKind.Index)
    (t lt : String) (b lb : Bool) (mr : ASTNode) (lcs tl : List (Option ASTNode)) :
    EC (ASTNode.mk NodeKind.Assign t b
        (Option.some (ASTNode.mk lk lt lb lcs) :: Option.some mr :: tl)) =
      EC mr ++ [⟨OpCode.STORE, lt⟩] := by
  have h : EC (ASTNode.mk NodeKind.Assign t b
      (Option.some (ASTNode.mk lk lt lb lcs) :: Option.some mr :: tl)) =
      (GenExpressionN (ASTNode.mk NodeKind.Assign t b
        (Option.some (ASTNode.mk lk lt lb lcs) :: Option.some mr :: tl)) g0).code := rfl
  rw [h, geqN_assign_other_some lk hlk, genExprN_frame mr g0]
  simp [emit_frame, g0]

theorem EC_other (k : NodeKind)
    (hk : k ∈ [NodeKind.Program, NodeKind.Function, NodeKind.FuncArg, NodeKind.Block,
               NodeKind.VarDeclList, NodeKind.VarDecl, NodeKind.If, NodeKind.ElseIf,
               NodeKind.While, NodeKind.DoWhile, NodeKind.For, NodeKind.Return,
               NodeKind.Break, NodeKind.Continue, NodeKind.ExprStmt, NodeKind.TypeNode])
    (t : String) (b : Bool) (cs : List (Option ASTNode)) :
    EC (ASTNode.mk k t b cs) = [] := by
  have h : EC (ASTNode.mk k t b cs) =
      (GenExpressionN (ASTNode.mk k t b cs) g0).code := rfl
  rw [h, geqN_other k hk]
  rfl

end Petukh

namespace Petukh

/-- An instruction chunk with no LABEL, JMP, or JZ instructions. -/
def noCF (D : List Instruction) : Bool :=
  D.all (fun i => !(i.op == OpCode.LABEL || i.op == OpCode.JMP || i.op == OpCode.JZ))

theorem noCF_append (A B : List Instruction) :
    noCF (A ++ B) = (noCF A && noCF B) := by
  simp [noCF, List.all_append]

theorem noCF_NEG (a : String) : noCF [⟨OpCode.NEG, a⟩] = true := rfl

theorem noCF_NOT (a : String) : noCF [⟨OpCode.NOT, a⟩] = true := rfl

theorem noCF_CALL (a : String) : noCF [⟨OpCode.CALL, a⟩] = true := rfl

theorem noCF_LOAD_INDEX (a : String) : noCF [⟨OpCode.LOAD_INDEX, a⟩] = true := rfl

theorem noCF_STORE_INDEX (a : String) : noCF [⟨OpCode.STORE_INDEX, a⟩] = true := rfl

theorem noCF_STORE (a : String) : noCF [⟨OpCode.STORE, a⟩] = true := rfl

theorem noCF_BC (t : String) : noCF (BC t) = true := by
  simp only [BC, binOpEmit]
  by_cases h1 : (t == "+") = true
  · simp [h1, emit_frame, g0, noCF]
  by_cases h2 : (t == "-") = true
  · simp [h1, h2, emit_frame, g0, noCF]
  by_cases h3 : (t == "*") = true
  · simp [h1, h2, h3, emit_frame, g0, noCF]
  by_cases h4 : (t == "/") = true
  · simp [h1, h2, h3, h4, emit_frame, g0, noCF]
  by_cases h5 : (t == "%") = true
  · simp [h1, h2, h3, h4, h5, emit_frame, g0, noCF]
  by_cases h6 : (t == "==") = true
  · simp [h1, h2, h3, h4, h5, h6, emit_frame, g0, noCF]
  by_cases h7 : (t == "!=") = true
  · simp [h1, h2, h3, h4, h5, h6, h7, emit_frame, g0, noCF]
  by_cases h8 : (t == "<") = true
  · simp [h1, h2, h3, h4, h5, h6, h7, h8, emit_frame, g0, noCF]
  by_cases h9 : (t == ">") = true
  · simp [h1, h2, h3, h4, h5, h6, h7, h8, h9, emit_frame, g0, noCF]
  by_cases h10 : (t == "<=") = true
  · simp [h1, h2, h3, h4, h5, h6, h7, h8, h9, h10, emit_frame, g0, noCF]
  by_cases h11 : (t == ">=") = true
  · simp [h1, h2, h3, h4, h5, h6, h7, h8, h9, h10, h11, emit_frame, g0, noCF]
  · simp [h1, h2, h3, h4, h5, h6, h7, h8, h9, h10, h11, g0, noCF]

mutual

theorem noCF_EC (n : ASTNode) : noCF (EC n) = true := by
  obtain ⟨k, t, b, cs⟩ := n
  cases k
  case Number =>
    rw [EC_number]
    by_cases hf : IsFloatingLiteral t = true
    · simp [hf, noCF]
    · simp [hf, noCF]
  case String =>
    rw [EC_string]
    rfl
  case Identifier =>
    rw [EC_ident]
    rfl
  case Unary =>
    rcases cs with _ | ⟨c0, tl⟩
    · rw [EC_unary_nil]
      rfl
    rcases c0 with _ | m
    · rw [EC_unary_none]
      by_cases h1 : (t == "-") = true
      · simp [h1, noCF]
      by_cases h2 : (t == "!") = true
      · simp [h1, h2, noCF]
      · simp [h1, h2, noCF]
    · have h0 : noCF (EC m) = true := noCF_EC m
      rw [EC_unary_some]
      by_cases h1 : (t == "-") = true
      · simp [h1, noCF_append, h0, noCF_NEG]
      by_cases h2 : (t == "!") = true
      · simp [h1, h2, noCF_append, h0, noCF_NOT]
      · simp [h1, h2, noCF_append, h0]
  case Binary =>
    rcases cs with _ | ⟨c0, cs1⟩
    · rw [EC_binary_nil]
      rfl
    rcases cs1 with _ | ⟨c1, tl⟩
    · rw [EC_binary_one]
      rfl
    rcases c0 with _ | m0 <;> rcases c1 with _ | m1
    · rw [EC_binary_nn]
      exact noCF_BC t
    · have h1 : noCF (EC m1) = true := noCF_EC m1
      rw [EC_binary_ns]
      simp [noCF_append, h1, noCF_BC]
    · have h0 : noCF (EC m0) = true := noCF_EC m0
      rw [EC_binary_sn]
      simp [noCF_append, h0, noCF_BC]
    · have h0 : noCF (EC m0) = true := noCF_EC m0
      have h1 : noCF (EC m1) = true := noCF_EC m1
      rw [EC_binary_ss]
      simp [noCF_append, h0, h1, noCF_BC]
  case Call =>
    rcases cs with _ | ⟨callee, args⟩
    · rw [EC_call_nil]
      rfl
    · have hL : noCF (ECL args) = true := noCF_ECL args
      rw [EC_call_cons]
      simp [noCF_append, hL, noCF_CALL]
  case Index =>
    rcases cs with _ | ⟨c0, cs1⟩
    · rw [EC_index_nil]
      rfl
    rcases cs1 with _ | ⟨c1, tl⟩
    · rw [EC_index_one]
      rfl
    rcases c0 with _ | m0 <;> rcases c1 with _ | m1
    · rw [EC_index_nn]
      rfl
    · have h1 : noCF (EC m1) = true := noCF_EC m1
      rw [EC_index_ns]
      simp [noCF_append, h1, noCF_LOAD_INDEX]
    · have h0 : noCF (EC m0) = true := noCF_EC m0
      rw [EC_index_sn]
      simp [noCF_append, h0, noCF_LOAD_INDEX]
    · have h0 : noCF (EC m0) = true := noCF_EC m0
      have h1 : noCF (EC m1) = true := noCF_EC m1
      rw [EC_index_ss]
      simp [noCF_append, h0, h1, noCF_LOAD_INDEX]
  case Assign =>
    rcases cs with _ | ⟨c0, cs1⟩
    · rw [EC_assign_nil]
      rfl
    rcases cs1 with _ | ⟨c1, tl⟩
    · rw [EC_assign_one]
      rfl
    rcases c0 with _ | lhs
    · rw [EC_assign_nonelhs]
      rfl
    obtain ⟨lk, lt, lb, lcs⟩ := lhs
    by_cases hlk : lk = NodeKind.Index
    · subst hlk
      rcases lcs with _ | ⟨a0, lcs1⟩
      · rw [EC_assign_idx_nil]
        rfl
      rcases lcs1 with _ | ⟨i0, itl⟩
      · rw [EC_assign_idx_one]
        rfl
      rcases a0 with _ | ma <;> rcases i0 with _ | mi <;> rcases c1 with _ | mr
      · rw [EC_assign_idx_nnn]
        rfl
      · have hr : noCF (EC mr) = true := noCF_EC mr
        rw [EC_assign_idx_nns]
        simp [noCF_append, hr, noCF_STORE_INDEX]
      · have hi : noCF (EC mi) = true := noCF_EC mi
        rw [EC_assign_idx_nsn]
        simp [noCF_append, hi, noCF_STORE_INDEX]
      · have hi : noCF (EC mi) = true := noCF_EC mi
        have hr : noCF (EC mr) = true := noCF_EC mr
        rw [EC_assign_idx_nss]
        simp [noCF_append, hi, hr, noCF_STORE_INDEX]
      · have ha : noCF (EC ma) = true := noCF_EC ma
        rw [EC_assign_idx_snn]
        by_cases hid : ma.kind = NodeKind.Identifier
        · simp [hid, noCF_STORE_INDEX]
        · simp [hid, noCF_append, ha, noCF_STORE_INDEX]
      · have ha : noCF (EC ma) = true := noCF_EC ma
        have hr : noCF (EC mr) = true := noCF_EC mr
        rw [EC_assign_idx_sns]
        by_cases hid : ma.kind = NodeKind.Identifier
        · simp [hid, noCF_append, hr, noCF_STORE_INDEX]
        · simp [hid, noCF_append, ha, hr, noCF_STORE_INDEX]
      · have ha : noCF (EC ma) = true := noCF_EC ma
        have hi : noCF (EC mi) = true := noCF_EC mi
        rw [EC_assign_idx_ssn]
        by_cases hid : ma.kind = NodeKind.Identifier
        · simp [hid, noCF_append, hi, noCF_STORE_INDEX]
        · simp [hid, noCF_append, ha, hi, noCF_STORE_INDEX]
      · have ha : noCF (EC ma) = true := noCF_EC ma
        have hi : noCF (EC mi) = true := noCF_EC mi
        have hr : noCF (EC mr) = true := noCF_EC mr
        rw [EC_assign_idx_sss]
        by_cases hid : ma.kind = NodeKind.Identifier
        · simp [hid, noCF_append, hi, hr, noCF_STORE_INDEX]
        · simp [hid, noCF_append, ha, hi, hr, noCF_STORE_INDEX]
    · rcases c1 with _ | mr
      · rw [EC_assign_other_none lk hlk]
        rfl
      · have hr : noCF (EC mr) = true := noCF_EC mr
        rw [EC_assign_other_some lk hlk]
        simp [noCF_append, hr, noCF_STORE]
  case CommaExpr =>
    rw [EC_comma]
    exact noCF_ECL cs
  all_goals
    rw [EC_other _ (by decide)]
    rfl
termination_by sizeOf n

theorem noCF_ECL (cs : List (Option ASTNode)) : noCF (ECL cs) = true := by
  match cs with
  | [] =>
    rw [ECL_nil]
    rfl
  | Option.none :: rest =>
    rw [ECL_cons_none]
    exact noCF_ECL rest
  | Option.some m :: rest =>
    have h0 : noCF (EC m) = true := noCF_EC m
    have hr : noCF (ECL rest) = true := noCF_ECL rest
    rw [ECL_cons_some]
    simp [noCF_append, h0, hr]
termination_by sizeOf cs

end

end Petukh

namespace Petukh

/-! ## C3, part 3: label and jump argument multisets. -/

theorem NewLabel_eq (st : GenSt) :
    NewLabel st = (labelName st.labelCounter,
      { st with labelCounter := st.labelCounter + 1 }) := rfl

/-- Arguments of the LABEL instructions of a code list, in order. -/
def labelArgs (code : List Instruction) : List String :=
  (code.filter (fun i => i.op == OpCode.LABEL)).map Instruction.arg

/-- Arguments of the JMP and JZ instructions of a code list, in order. -/
def jumpArgs (code : List Instruction) : List String :=
  (code.filter (fun i => i.op == OpCode.JMP || i.op == OpCode.JZ)).map Instruction.arg

/-- The LABEL arguments as a multiset (order is irrelevant for counting). -/
def labelMS (code : List Instruction) : Multiset String := ↑(labelArgs code)

/-- The multiset of generated label names with counters in [a, a+n). -/
def rangeMS (a n : Nat) : Multiset String := ↑((List.range' a n).map labelName)

theorem labelArgs_append (A B : List Instruction) :
    labelArgs (A ++ B) = labelArgs A ++ labelArgs B := by
  simp [labelArgs]

theorem jumpArgs_append (A B : List Instruction) :
    jumpArgs (A ++ B) = jumpArgs A ++ jumpArgs B := by
  simp [jumpArgs]

theorem labelMS_append (A B : List Instruction) :
    labelMS (A ++ B) = labelMS A + labelMS B := by
  simp [labelMS, labelArgs_append]

theorem labelMS_nil : labelMS [] = 0 := rfl

theorem jumpArgs_nil : jumpArgs [] = [] := rfl

theorem labelArgs_LABEL (a : String) : labelArgs [⟨OpCode.LABEL, a⟩] = [a] := rfl

theorem labelMS_LABEL (a : String) : labelMS [⟨OpCode.LABEL, a⟩] = {a} := rfl

theorem labelMS_JMP (a : String) : labelMS [⟨OpCode.JMP, a⟩] = 0 := rfl

theorem labelMS_JZ (a : String) : labelMS [⟨OpCode.JZ, a⟩] = 0 := rfl

theorem labelMS_RET (a : String) : labelMS [⟨OpCode.RET, a⟩] = 0 := rfl

theorem labelMS_cons_LABEL (x : String) (D : List Instruction) :
    labelMS (⟨OpCode.LABEL, x⟩ :: D) = x ::ₘ labelMS D := rfl

theorem labelMS_cons_JMP (x : String) (D : List Instruction) :
    labelMS (⟨OpCode.JMP, x⟩ :: D) = labelMS D := rfl

theorem labelMS_cons_JZ (x : String) (D : List Instruction) :
    labelMS (⟨OpCode.JZ, x⟩ :: D) = labelMS D := rfl

theorem labelMS_cons_RET (x : String) (D : List Instruction) :
    labelMS (⟨OpCode.RET, x⟩ :: D) = labelMS D := rfl

theorem jumpArgs_LABEL (a : String) : jumpArgs [⟨OpCode.LABEL, a⟩] = [] := rfl

theorem jumpArgs_JMP (a : String) : jumpArgs [⟨OpCode.JMP, a⟩] = [a] := rfl

theorem jumpArgs_JZ (a : String) : jumpArgs [⟨OpCode.JZ, a⟩] = [a] := rfl

theorem jumpArgs_RET (a : String) : jumpArgs [⟨OpCode.RET, a⟩] = [] := rfl

theorem noCF_props (D : List Instruction) (h : noCF D = true) :
    ∀ i ∈ D, ¬i.op = OpCode.LABEL ∧ ¬i.op = OpCode.JMP ∧ ¬i.op = OpCode.JZ := by
  rw [noCF, List.all_eq_true] at h
  intro i hi
  have hh := h i hi
  simp at hh
  exact ⟨hh.1.1, hh.1.2, hh.2⟩

theorem labelArgs_noCF (D : List Instruction) (h : noCF D = true) :
    labelArgs D = [] := by
  have hp := noCF_props D h
  have hf : D.filter (fun i => i.op == OpCode.LABEL) = [] := by
    rw [List.filter_eq_nil]
    intro i hi
    simp [(hp i hi).1]
  rw [labelArgs, hf]
  rfl

theorem jumpArgs_noCF (D : List Instruction) (h : noCF D = true) :
    jumpArgs D = [] := by
  have hp := noCF_props D h
  have hf : D.filter (fun i => i.op == OpCode.JMP || i.op == OpCode.JZ) = [] := by
    rw [List.filter_eq_nil]
    intro i hi
    simp [(hp i hi).2.1, (hp i hi).2.2]
  rw [jumpArgs, hf]
  rfl

theorem noCF_ECO (c : Option ASTNode) : noCF (ECO c) = true := by
  cases c
  · rfl
  · next m =>
    have he : ECO (Option.some m) = EC m := rfl
    rw [he]
    exact noCF_EC m

theorem labelMS_ECO (c : Option ASTNode) : labelMS (ECO c) = 0 := by
  rw [labelMS, labelArgs_noCF _ (noCF_ECO c)]
  rfl

theorem jumpArgs_ECO (c : Option ASTNode) : jumpArgs (ECO c) = [] :=
  jumpArgs_noCF _ (noCF_ECO c)

theorem labelMS_EC (n : ASTNode) : labelMS (EC n) = 0 := by
  rw [labelMS, labelArgs_noCF _ (noCF_EC n)]
  rfl

theorem jumpArgs_EC (n : ASTNode) : jumpArgs (EC n) = [] :=
  jumpArgs_noCF _ (noCF_EC n)

theorem rangeMS_zero (a : Nat) : rangeMS a 0 = 0 := rfl

theorem rangeMS_succ (a n : Nat) :
    rangeMS a (n + 1) = labelName a ::ₘ rangeMS (a + 1) n := by
  rw [rangeMS, rangeMS, List.range'_succ]
  rfl

end Petukh

namespace Petukh

/-! ## C3, part 4: a pure, compositional mirror of the statement generator.

`GenStmtF n a bl cl` computes the instruction chunk a statement appends and
the final label counter, as a function of the incoming label counter `a` and
the break/continue label stacks; the equivalence with `GenStatementN` is
proved below, and the label bookkeeping is then analysed on this pure form. -/

/-- Chunk of the variable-declaration loop (no labels, no jumps). -/
def VDF : List (Option ASTNode) → List Instruction
  | [] => []
  | Option.none :: rest => VDF rest
  | Option.some (ASTNode.mk _ vtext varr vcs) :: rest =>
    (if varr then
      (match vcs with
       | [] => [(⟨OpCode.PUSH_INT, "0"⟩ : Instruction)]
       | c0 :: _ => ECO c0) ++ [⟨OpCode.NEW_ARRAY, ""⟩, ⟨OpCode.STORE, vtext⟩]
     else
      (match vcs with
       | [] => [(⟨OpCode.PUSH_INT, "0"⟩ : Instruction)]
       | c0 :: _ => ECO c0) ++ [⟨OpCode.STORE, vtext⟩]) ++ VDF rest

/-- The for-loop condition chunk (ends with the JZ to the end label). -/
def forCondF (c1 : Option ASTNode) (a : Nat) : List Instruction :=
  match c1 with
  | Option.none => []
  | Option.some _ => ECO c1 ++ [⟨OpCode.JZ, labelName (a+1+1)⟩]

/-- The for-loop step chunk (expression plus the discarding POP). -/
def forStepF (c2 : Option ASTNode) : List Instruction :=
  match c2 with
  | Option.none => []
  | Option.some e2 =>
    ECO c2 ++ (if e2.kind != NodeKind.Call && e2.kind != NodeKind.Assign then
      [(⟨OpCode.POP, ""⟩ : Instruction)] else [])

mutual

def GenStmtF : ASTNode → Nat → List String → List String → List Instruction × Nat
  | ASTNode.mk NodeKind.Block _ _ cs, a, bl, cl => GenStmtsF cs a bl cl
  | ASTNode.mk NodeKind.ExprStmt _ _ [], a, _, _ => ([], a)
  | ASTNode.mk NodeKind.ExprStmt _ _ (e :: _), a, _, _ =>
    (ECO e ++ (if optKind e != NodeKind.Call && optKind e != NodeKind.Assign then
      [(⟨OpCode.POP, ""⟩ : Instruction)] else []), a)
  | ASTNode.mk NodeKind.VarDeclList _ _ [], a, _, _ => ([], a)
  | ASTNode.mk NodeKind.VarDeclList _ _ (_ :: vars), a, _, _ => (VDF vars, a)
  | ASTNode.mk NodeKind.Assign t ar cs, a, _, _ =>
    (if cs.isEmpty then [] else EC (ASTNode.mk NodeKind.Assign t ar cs), a)
  | ASTNode.mk NodeKind.If _ _ cs, a, bl, cl => GenIfF cs a bl cl
  | ASTNode.mk NodeKind.While _ _ (c0 :: c1 :: _), a, bl, cl =>
    let r : List Instruction × Nat :=
      match c1 with
      | Option.none => ([], a + 1 + 1)
      | Option.some m => GenStmtF m (a + 1 + 1) (labelName (a+1) :: bl) (labelName a :: cl)
    ([(⟨OpCode.LABEL, labelName a⟩ : Instruction)] ++ ECO c0 ++
       [⟨OpCode.JZ, labelName (a+1)⟩] ++ r.1 ++
       [⟨OpCode.JMP, labelName a⟩] ++ [⟨OpCode.LABEL, labelName (a+1)⟩], r.2)
  | ASTNode.mk NodeKind.While _ _ _, a, _, _ => ([], a)
  | ASTNode.mk NodeKind.DoWhile _ _ (c0 :: c1 :: _), a, bl, cl =>
    let r : List Instruction × Nat :=
      match c0 with
      | Option.none => ([], a + 1 + 1)
      | Option.some m => GenStmtF m (a + 1 + 1) (labelName (a+1) :: bl) (labelName a :: cl)
    ([(⟨OpCode.LABEL, labelName a⟩ : Instruction)] ++ r.1 ++ ECO c1 ++
       [⟨OpCode.JZ, labelName (a+1)⟩] ++
       [⟨OpCode.JMP, labelName a⟩] ++ [⟨OpCode.LABEL, labelName (a+1)⟩], r.2)
  | ASTNode.mk NodeKind.DoWhile _ _ _, a, _, _ => ([], a)
  | ASTNode.mk NodeKind.For _ _ (c0 :: c1 :: c2 :: c3 :: _), a, bl, cl =>
    let r0 : List Instruction × Nat :=
      match c0 with
      | Option.none => ([], a + 1 + 1 + 1)
      | Option.some m =>
        GenStmtF m (a + 1 + 1 + 1) (labelName (a+1+1) :: bl) (labelName (a+1) :: cl)
    let r3 : List Instruction × Nat :=
      match c3 with
      | Option.none => ([], r0.2)
      | Option.some m => GenStmtF m r0.2 (labelName (a+1+1) :: bl) (labelName (a+1) :: cl)
    (r0.1 ++ [(⟨OpCode.LABEL, labelName a⟩ : Instruction)] ++ forCondF c1 a ++ r3.1 ++
       [⟨OpCode.LABEL, labelName (a+1)⟩] ++ forStepF c2 ++
       [⟨OpCode.JMP, labelName a⟩] ++ [⟨OpCode.LABEL, labelName (a+1+1)⟩], r3.2)
  | ASTNode.mk NodeKind.For _ _ _, a, _, _ => ([], a)
  | ASTNode.mk NodeKind.Break _ _ _, a, bl, _ =>
    ((match bl with
      | [] => []
      | l :: _ => [(⟨OpCode.JMP, l⟩ : Instruction)]), a)
  | ASTNode.mk NodeKind.Continue _ _ _, a, _, cl =>
    ((match cl with
      | [] => []
      | l :: _ => [(⟨OpCode.JMP, l⟩ : Instruction)]), a)
  | ASTNode.mk NodeKind.Return _ _ [], a, _, _ => ([(⟨OpCode.RET, ""⟩ : Instruction)], a)
  | ASTNode.mk NodeKind.Return _ _ (c0 :: _), a, _, _ => (ECO c0 ++ [⟨OpCode.RET, ""⟩], a)
  | ASTNode.mk _ _ _ _, a, _, _ => ([], a)

def GenStmtsF : List (Option ASTNode) → Nat → List String → List String →
    List Instruction × Nat
  | [], a, _, _ => ([], a)
  | c :: rest, a, bl, cl =>
    let r : List Instruction × Nat :=
      match c with
      | Option.none => ([], a)
      | Option.some m => GenStmtF m a bl cl
    let rr := GenStmtsF rest r.2 bl cl
    (r.1 ++ rr.1, rr.2)

def GenIfF : List (Option ASTNode) → Nat → List String → List String →
    List Instruction × Nat
  | c0 :: c1 :: rest, a, bl, cl =>
    let r : List Instruction × Nat :=
      match c1 with
      | Option.none => ([], a + 1 + 1)
      | Option.some m => GenStmtF m (a + 1 + 1) bl cl
    let rr := GenIfRestF rest (labelName a) r.2 bl cl
    (ECO c0 ++ [(⟨OpCode.JZ, labelName (a+1)⟩ : Instruction)] ++ r.1 ++
       [⟨OpCode.JMP, labelName a⟩] ++ [⟨OpCode.LABEL, labelName (a+1)⟩] ++ rr.1 ++
       [⟨OpCode.LABEL, labelName a⟩], rr.2)
  | _, a, _, _ => ([], a)

def GenIfRestF : List (Option ASTNode) → String → Nat → List String → List String →
    List Instruction × Nat
  | [], _, a, _, _ => ([], a)
  | Option.some (ASTNode.mk NodeKind.ElseIf _ _ (e0 :: e1 :: _)) :: rest, endLabel, a, bl, cl =>
    let r : List Instruction × Nat :=
      match e1 with
      | Option.none => ([], a + 1)
      | Option.some m => GenStmtF m (a + 1) bl cl
    let rr := GenIfRestF rest endLabel r.2 bl cl
    (ECO e0 ++ [(⟨OpCode.JZ, labelName a⟩ : Instruction)] ++ r.1 ++
       [⟨OpCode.JMP, endLabel⟩] ++ [⟨OpCode.LABEL, labelName a⟩] ++ rr.1, rr.2)
  | Option.some (ASTNode.mk NodeKind.ElseIf _ _ _) :: rest, endLabel, a, bl, cl =>
    GenIfRestF rest endLabel a bl cl
  | c :: rest, endLabel, a, bl, cl =>
    let r : List Instruction × Nat :=
      match c with
      | Option.none => ([], a)
      | Option.some m => GenStmtF m a bl cl
    let rr := GenIfRestF rest endLabel r.2 bl cl
    (r.1 ++ rr.1, rr.2)

end

end Petukh

namespace Petukh

/-! Arm equations for the pure mirror (children resolved far enough for
the inner option matches to reduce). -/

theorem gsf_block (t : String) (b : Bool) (cs : List (Option ASTNode))
    (a : Nat) (bl cl : List String) :
    GenStmtF (ASTNode.mk NodeKind.Block t b cs) a bl cl = GenStmtsF cs a bl cl := rfl

theorem gsf_exprstmt_nil (t : String) (b : Bool) (a : Nat) (bl cl : List String) :
    GenStmtF (ASTNode.mk NodeKind.ExprStmt t b []) a bl cl = ([], a) := rfl

theorem gsf_exprstmt_cons (t : String) (b : Bool) (e : Option ASTNode)
    (tl : List (Option ASTNode)) (a : Nat) (bl cl : List String) :
    GenStmtF (ASTNode.mk NodeKind.ExprStmt t b (e :: tl)) a bl cl =
      (ECO e ++ (if optKind e != NodeKind.Call && optKind e != NodeKind.Assign then
        [(⟨OpCode.POP, ""⟩ : Instruction)] else []), a) := rfl

theorem gsf_vdl_nil (t : String) (b : Bool) (a : Nat) (bl cl : List String) :
    GenStmtF (ASTNode.mk NodeKind.VarDeclList t b []) a bl cl = ([], a) := rfl

theorem gsf_vdl_cons (t : String) (b : Bool) (v0 : Option ASTNode)
    (vars : List (Option ASTNode)) (a : Nat) (bl cl : List String) :
    GenStmtF (ASTNode.mk NodeKind.VarDeclList t b (v0 :: vars)) a bl cl =
      (VDF vars, a) := rfl

theorem gsf_assign (t : String) (ar : Bool) (cs : List (Option ASTNode))
    (a : Nat) (bl cl : List String) :
    GenStmtF (ASTNode.mk NodeKind.Assign t ar cs) a bl cl =
      (if cs.isEmpty then [] else EC (ASTNode.mk NodeKind.Assign t ar cs), a) := rfl

theorem gsf_if (t : String) (b : Bool) (cs : List (Option ASTNode))
    (a : Nat) (bl cl : List String) :
    GenStmtF (ASTNode.mk NodeKind.If t b cs) a bl cl = GenIfF cs a bl cl := rfl

theorem gsf_while_nil (t : String) (b : Bool) (a : Nat) (bl cl : List String) :
    GenStmtF (ASTNode.mk NodeKind.While t b []) a bl cl = ([], a) := rfl

theorem gsf_while_one (t : String) (b : Bool) (c0 : Option ASTNode)
    (a : Nat) (bl cl : List String) :
    GenStmtF (ASTNode.mk NodeKind.While t b [c0]) a bl cl = ([], a) := rfl

theorem gsf_while_none (t : String) (b : Bool) (c0 : Option ASTNode)
    (tl : List (Option ASTNode)) (a : Nat) (bl cl : List String) :
    GenStmtF (ASTNode.mk NodeKind.While t b (c0 :: Option.none :: tl)) a bl cl =
      ([(⟨OpCode.LABEL, labelName a⟩ : Instruction)] ++ ECO c0 ++
        [⟨OpCode.JZ, labelName (a+1)⟩] ++ [] ++
        [⟨OpCode.JMP, labelName a⟩] ++ [⟨OpCode.LABEL, labelName (a+1)⟩],
       a + 1 + 1) := rfl

theorem gsf_while_some (t : String) (b : Bool) (c0 : Option ASTNode) (m : ASTNode)
    (tl : List (Option ASTNode)) (a : Nat) (bl cl : List String) :
    GenStmtF (ASTNode.mk NodeKind.While t b (c0 :: Option.some m :: tl)) a bl cl =
      ([(⟨OpCode.LABEL, labelName a⟩ : Instruction)] ++ ECO c0 ++
        [⟨OpCode.JZ, labelName (a+1)⟩] ++
        (GenStmtF m (a + 1 + 1) (labelName (a+1) :: bl) (labelName a :: cl)).1 ++
        [⟨OpCode.JMP, labelName a⟩] ++ [⟨OpCode.LABEL, labelName (a+1)⟩],
       (GenStmtF m (a + 1 + 1) (labelName (a+1) :: bl) (labelName a :: cl)).2) := rfl

theorem gsf_dowhile_nil (t : String) (b : Bool) (a : Nat) (bl cl : List String) :
    GenStmtF (ASTNode.mk NodeKind.DoWhile t b []) a bl cl = ([], a) := rfl

theorem gsf_dowhile_one (t : String) (b : Bool) (c0 : Option ASTNode)
    (a : Nat) (bl cl : List String) :
    GenStmtF (ASTNode.mk NodeKind.DoWhile t b [c0]) a bl cl = ([], a) := rfl

theorem gsf_dowhile_none (t : String) (b : Bool) (c1 : Option ASTNode)
    (tl : List (Option ASTNode)) (a : Nat) (bl cl : List String) :
    GenStmtF (ASTNode.mk NodeKind.DoWhile t b (Option.none :: c1 :: tl)) a bl cl =
      ([(⟨OpCode.LABEL, labelName a⟩ : Instruction)] ++ [] ++ ECO c1 ++
        [⟨OpCode.JZ, labelName (a+1)⟩] ++
        [⟨OpCode.JMP, labelName a⟩] ++ [⟨OpCode.LABEL, labelName (a+1)⟩],
       a + 1 + 1) := rfl

theorem gsf_dowhile_some (t : String) (b : Bool) (m : ASTNode) (c1 : Option ASTNode)
    (tl : List (Option ASTNode)) (a : Nat) (bl cl : List String) :
    GenStmtF (ASTNode.mk NodeKind.DoWhile t b (Option.some m :: c1 :: tl)) a bl cl =
      ([(⟨OpCode.LABEL, labelName a⟩ : Instruction)] ++
        (GenStmtF m (a + 1 + 1) (labelName (a+1) :: bl) (labelName a :: cl)).1 ++
        ECO c1 ++ [⟨OpCode.JZ, labelName (a+1)⟩] ++
        [⟨OpCode.JMP, labelName a⟩] ++ [⟨OpCode.LABEL, labelName (a+1)⟩],
       (GenStmtF m (a + 1 + 1) (labelName (a+1) :: bl) (labelName a :: cl)).2) := rfl

theorem gsf_for_nil (t : String) (b : Bool) (a : Nat) (bl cl : List String) :
    GenStmtF (ASTNode.mk NodeKind.For t b []) a bl cl = ([], a) := rfl

theorem gsf_for_one (t : String) (b : Bool) (c0 : Option ASTNode)
    (a : Nat) (bl cl : List String) :
    GenStmtF (ASTNode.mk NodeKind.For t b [c0]) a bl cl = ([], a) := rfl

theorem gsf_for_two (t : String) (b : Bool) (c0 c1 : Option ASTNode)
    (a : Nat) (bl cl : List String) :
    GenStmtF (ASTNode.mk NodeKind.For t b [c0, c1]) a bl cl = ([], a) := rfl

theorem gsf_for_three (t : String) (b : Bool) (c0 c1 c2 : Option ASTNode)
    (a : Nat) (bl cl : List String) :
    GenStmtF (ASTNode.mk NodeKind.For t b [c0, c1, c2]) a bl cl = ([], a) := rfl

theorem gsf_for_nn (t : String) (b : Bool) (c1 c2 : Option ASTNode)
    (tl : List (Option ASTNode)) (a : Nat) (bl cl : List String) :
    GenStmtF (ASTNode.mk NodeKind.For t b
        (Option.none :: c1 :: c2 :: Option.none :: tl)) a bl cl =
      ([] ++ [(⟨OpCode.LABEL, labelName a⟩ : Instruction)] ++ forCondF c1 a ++ [] ++
        [⟨OpCode.LABEL, labelName (a+1)⟩] ++ forStepF c2 ++
        [⟨OpCode.JMP, labelName a⟩] ++ [⟨OpCode.LABEL, labelName (a+1+1)⟩],
       a + 1 + 1 + 1) := rfl

theorem gsf_for_ns (t : String) (b : Bool) (c1 c2 : Option ASTNode) (s3 : ASTNode)
    (tl : List (Option ASTNode)) (a : Nat) (bl cl : List String) :
    GenStmtF (ASTNode.mk NodeKind.For t b
        (Option.none :: c1 :: c2 :: Option.some s3 :: tl)) a bl cl =
      ([] ++ [(⟨OpCode.LABEL, labelName a⟩ : Instruction)] ++ forCondF c1 a ++
        (GenStmtF s3 (a + 1 + 1 + 1) (labelName (a+1+1) :: bl) (labelName (a+1) :: cl)).1 ++
        [⟨OpCode.LABEL, labelName (a+1)⟩] ++ forStepF c2 ++
        [⟨OpCode.JMP, labelName a⟩] ++ [⟨OpCode.LABEL, labelName (a+1+1)⟩],
       (GenStmtF s3 (a + 1 + 1 + 1) (labelName (a+1+1) :: bl)
         (labelName (a+1) :: cl)).2) := rfl

theorem gsf_for_sn (t : String) (b : Bool) (s0 : ASTNode) (c1 c2 : Option ASTNode)
    (tl : List (Option ASTNode)) (a : Nat) (bl cl : List String) :
    GenStmtF (ASTNode.mk NodeKind.For t b
        (Option.some s0 :: c1 :: c2 :: Option.none :: tl)) a bl cl =
      ((GenStmtF s0 (a + 1 + 1 + 1) (labelName (a+1+1) :: bl) (labelName (a+1) :: cl)).1 ++
        [(⟨OpCode.LABEL, labelName a⟩ : Instruction)] ++ forCondF c1 a ++ [] ++
        [⟨OpCode.LABEL, labelName (a+1)⟩] ++ forStepF c2 ++
        [⟨OpCode.JMP, labelName a⟩] ++ [⟨OpCode.LABEL, labelName (a+1+1)⟩],
       (GenStmtF s0 (a + 1 + 1 + 1) (labelName (a+1+1) :: bl)
         (labelName (a+1) :: cl)).2) := rfl

theorem gsf_for_ss (t : String) (b : Bool) (s0 : ASTNode) (c1 c2 : Option ASTNode)
    (s3 : ASTNode) (tl : List (Option ASTNode)) (a : Nat) (bl cl : List String) :
    GenStmtF (ASTNode.mk NodeKind.For t b
        (Option.some s0 :: c1 :: c2 :: Option.some s3 :: tl)) a bl cl =
      ((GenStmtF s0 (a + 1 + 1 + 1) (labelName (a+1+1) :: bl) (labelName (a+1) :: cl)).1 ++
        [(⟨OpCode.LABEL, labelName a⟩ : Instruction)] ++ forCondF c1 a ++
        (GenStmtF s3
          (GenStmtF s0 (a + 1 + 1 + 1) (labelName (a+1+1) :: bl) (labelName (a+1) :: cl)).2
          (labelName (a+1+1) :: bl) (labelName (a+1) :: cl)).1 ++
        [⟨OpCode.LABEL, labelName (a+1)⟩] ++ forStepF c2 ++
        [⟨OpCode.JMP, labelName a⟩] ++ [⟨OpCode.LABEL, labelName (a+1+1)⟩],
       (GenStmtF s3
         (GenStmtF s0 (a + 1 + 1 + 1) (labelName (a+1+1) :: bl) (labelName (a+1) :: cl)).2
         (labelName (a+1+1) :: bl) (labelName (a+1) :: cl)).2) := rfl

theorem gsf_break (t : String) (b : Bool) (cs : List (Option ASTNode))
    (a : Nat) (bl cl : List String) :
    GenStmtF (ASTNode.mk NodeKind.Break t b cs) a bl cl =
      ((match bl with
        | [] => []
        | l :: _ => [(⟨OpCode.JMP, l⟩ : Instruction)]), a) := rfl

theorem gsf_continue (t : String) (b : Bool) (cs : List (Option ASTNode))
    (a : Nat) (bl cl : List String) :
    GenStmtF (ASTNode.mk NodeKind.Continue t b cs) a bl cl =
      ((match cl with
        | [] => []
        | l :: _ => [(⟨OpCode.JMP, l⟩ : Instruction)]), a) := rfl

theorem gsf_return_nil (t : String) (b : Bool) (a : Nat) (bl cl : List String) :
    GenStmtF (ASTNode.mk NodeKind.Return t b []) a bl cl =
      ([(⟨OpCode.RET, ""⟩ : Instruction)], a) := rfl

theorem gsf_return_cons (t : String) (b : Bool) (c0 : Option ASTNode)
    (tl : List (Option ASTNode)) (a : Nat) (bl cl : List String) :
    GenStmtF (ASTNode.mk NodeKind.Return t b (c0 :: tl)) a bl cl =
      (ECO c0 ++ [⟨OpCode.RET, ""⟩], a) := rfl

theorem gsf_other (k : NodeKind)
    (hk : k ∈ [NodeKind.Program, NodeKind.Function, NodeKind.FuncArg, NodeKind.VarDecl,
               NodeKind.ElseIf, NodeKind.CommaExpr, NodeKind.Binary, NodeKind.Unary,
               NodeKind.Number, NodeKind.String, NodeKind.Identifier, NodeKind.Call,
               NodeKind.Index, NodeKind.TypeNode])
    (t : String) (b : Bool) (cs : List (Option ASTNode))
    (a : Nat) (bl cl : List String) :
    GenStmtF (ASTNode.mk k t b cs) a bl cl = ([], a) := by
  fin_cases hk
  all_goals rfl

theorem gssf_nil (a : Nat) (bl cl : List String) : GenStmtsF [] a bl cl = ([], a) := rfl

theorem gssf_cons_none (rest : List (Option ASTNode)) (a : Nat) (bl cl : List String) :
    GenStmtsF (Option.none :: rest) a bl cl =
      ([] ++ (GenStmtsF rest a bl cl).1, (GenStmtsF rest a bl cl).2) := rfl

theorem gssf_cons_some (m : ASTNode) (rest : List (Option ASTNode))
    (a : Nat) (bl cl : List String) :
    GenStmtsF (Option.some m :: rest) a bl cl =
      ((GenStmtF m a bl cl).1 ++ (GenStmtsF rest (GenStmtF m a bl cl).2 bl cl).1,
       (GenStmtsF rest (GenStmtF m a bl cl).2 bl cl).2) := rfl

theorem giff_nil (a : Nat) (bl cl : List String) : GenIfF [] a bl cl = ([], a) := rfl

theorem giff_one (c0 : Option ASTNode) (a : Nat) (bl cl : List String) :
    GenIfF [c0] a bl cl = ([], a) := rfl

theorem giff_cons_none (c0 : Option ASTNode) (rest : List (Option ASTNode))
    (a : Nat) (bl cl : List String) :
    GenIfF (c0 :: Option.none :: rest) a bl cl =
      (ECO c0 ++ [(⟨OpCode.JZ, labelName (a+1)⟩ : Instruction)] ++ [] ++
        [⟨OpCode.JMP, labelName a⟩] ++ [⟨OpCode.LABEL, labelName (a+1)⟩] ++
        (GenIfRestF rest (labelName a) (a + 1 + 1) bl cl).1 ++
        [⟨OpCode.LABEL, labelName a⟩],
       (GenIfRestF rest (labelName a) (a + 1 + 1) bl cl).2) := rfl

theorem giff_cons_some (c0 : Option ASTNode) (m : ASTNode)
    (rest : List (Option ASTNode)) (a : Nat) (bl cl : List String) :
    GenIfF (c0 :: Option.some m :: rest) a bl cl =
      (ECO c0 ++ [(⟨OpCode.JZ, labelName (a+1)⟩ : Instruction)] ++
        (GenStmtF m (a + 1 + 1) bl cl).1 ++
        [⟨OpCode.JMP, labelName a⟩] ++ [⟨OpCode.LABEL, labelName (a+1)⟩] ++
        (GenIfRestF rest (labelName a) (GenStmtF m (a + 1 + 1) bl cl).2 bl cl).1 ++
        [⟨OpCode.LABEL, labelName a⟩],
       (GenIfRestF rest (labelName a) (GenStmtF m (a + 1 + 1) bl cl).2 bl cl).2) := rfl

theorem girf_nil (endLabel : String) (a : Nat) (bl cl : List String) :
    GenIfRestF [] endLabel a bl cl = ([], a) := rfl

theorem girf_elseif_none (et : String) (eb : Bool) (e0 : Option ASTNode)
    (etl rest : List (Option ASTNode)) (endLabel : String) (a : Nat) (bl cl : List String) :
    GenIfRestF (Option.some (ASTNode.mk NodeKind.ElseIf et eb
        (e0 :: Option.none :: etl)) :: rest) endLabel a bl cl =
      (ECO e0 ++ [(⟨OpCode.JZ, labelName a⟩ : Instruction)] ++ [] ++
        [⟨OpCode.JMP, endLabel⟩] ++ [⟨OpCode.LABEL, labelName a⟩] ++
        (GenIfRestF rest endLabel (a + 1) bl cl).1,
       (GenIfRestF rest endLabel (a + 1) bl cl).2) := rfl

theorem girf_elseif_some (et : String) (eb : Bool) (e0 : Option ASTNode) (m : ASTNode)
    (etl rest : List (Option ASTNode)) (endLabel : String) (a : Nat) (bl cl : List String) :
    GenIfRestF (Option.some (ASTNode.mk NodeKind.ElseIf et eb
        (e0 :: Option.some m :: etl)) :: rest) endLabel a bl cl =
      (ECO e0 ++ [(⟨OpCode.JZ, labelName a⟩ : Instruction)] ++
        (GenStmtF m (a + 1) bl cl).1 ++
        [⟨OpCode.JMP, endLabel⟩] ++ [⟨OpCode.LABEL, labelName a⟩] ++
        (GenIfRestF rest endLabel (GenStmtF m (a + 1) bl cl).2 bl cl).1,
       (GenIfRestF rest endLabel (GenStmtF m (a + 1) bl cl).2 bl cl).2) := rfl

theorem girf_elseif_nilc (et : String) (eb : Bool)
    (rest : List (Option ASTNode)) (endLabel : String) (a : Nat) (bl cl : List String) :
    GenIfRestF (Option.some (ASTNode.mk NodeKind.ElseIf et eb []) :: rest)
        endLabel a bl cl =
      GenIfRestF rest endLabel a bl cl := rfl

theorem girf_elseif_onec (et : String) (eb : Bool) (e0 : Option ASTNode)
    (rest : List (Option ASTNode)) (endLabel : String) (a : Nat) (bl cl : List String) :
    GenIfRestF (Option.some (ASTNode.mk NodeKind.ElseIf et eb [e0]) :: rest)
        endLabel a bl cl =
      GenIfRestF rest endLabel a bl cl := rfl

theorem girf_cons_none (rest : List (Option ASTNode)) (endLabel : String)
    (a : Nat) (bl cl : List String) :
    GenIfRestF (Option.none :: rest) endLabel a bl cl =
      ([] ++ (GenIfRestF rest endLabel a bl cl).1,
       (GenIfRestF rest endLabel a bl cl).2) := rfl

theorem girf_other (k : NodeKind) (hk : k ≠ NodeKind.ElseIf) (kt : String) (kb : Bool)
    (kcs : List (Option ASTNode)) (rest : List (Option ASTNode))
    (endLabel : String) (a : Nat) (bl cl : List String) :
    GenIfRestF (Option.some (ASTNode.mk k kt kb kcs) :: rest) endLabel a bl cl =
      ((GenStmtF (ASTNode.mk k kt kb kcs) a bl cl).1 ++
        (GenIfRestF rest endLabel
          (GenStmtF (ASTNode.mk k kt kb kcs) a bl cl).2 bl cl).1,
       (GenIfRestF rest endLabel
         (GenStmtF (ASTNode.mk k kt kb kcs) a bl cl).2 bl cl).2) := by
  cases k
  case ElseIf => exact absurd rfl hk
  all_goals rfl

end Petukh

namespace Petukh

theorem gvd_F (vars : List (Option ASTNode)) (st : GenSt) :
    GenVarDecls vars st = { st with code := st.code ++ VDF vars } := by
  induction vars generalizing st with
  | nil => simp [gvd_nil, VDF]
  | cons v rest ih =>
    rcases v with _ | ⟨vk, vtext, varr, vcs⟩
    · rw [gvd_none, ih]
      simp [VDF]
    · simp only [gvd_some, VDF]
      rcases vcs with _ | ⟨c0, vtl⟩
      · by_cases hv : varr = true
        · simp [hv, ih, emit_frame, List.append_assoc]
        · simp [hv, ih, emit_frame, List.append_assoc]
      · by_cases hv : varr = true
        · simp [hv, ih, GenExpression_frame, emit_frame, List.append_assoc]
        · simp [hv, ih, GenExpression_frame, emit_frame, List.append_assoc]

theorem noCF_PUSH_INT (a : String) : noCF [⟨OpCode.PUSH_INT, a⟩] = true := rfl

theorem noCF_NA_STORE (x y : String) :
    noCF [⟨OpCode.NEW_ARRAY, x⟩, ⟨OpCode.STORE, y⟩] = true := rfl

theorem noCF_PUSH_INT_cons (x : String) (D : List Instruction) :
    noCF (⟨OpCode.PUSH_INT, x⟩ :: D) = noCF D := rfl

theorem noCF_NEW_ARRAY_cons (x : String) (D : List Instruction) :
    noCF (⟨OpCode.NEW_ARRAY, x⟩ :: D) = noCF D := rfl

theorem noCF_STORE_cons (x : String) (D : List Instruction) :
    noCF (⟨OpCode.STORE, x⟩ :: D) = noCF D := rfl

theorem noCF_VDF (vars : List (Option ASTNode)) : noCF (VDF vars) = true := by
  induction vars with
  | nil => rfl
  | cons v rest ih =>
    rcases v with _ | ⟨vk, vtext, varr, vcs⟩
    · simpa [VDF] using ih
    · rcases vcs with _ | ⟨c0, vtl⟩ <;> by_cases hv : varr = true <;>
        simp [VDF, hv, noCF_append, ih, noCF_ECO, noCF_PUSH_INT_cons,
          noCF_NEW_ARRAY_cons, noCF_STORE_cons]

theorem labelMS_VDF (vars : List (Option ASTNode)) : labelMS (VDF vars) = 0 := by
  rw [labelMS, labelArgs_noCF _ (noCF_VDF vars)]
  rfl

theorem jumpArgs_VDF (vars : List (Option ASTNode)) : jumpArgs (VDF vars) = [] :=
  jumpArgs_noCF _ (noCF_VDF vars)

end Petukh

namespace Petukh

mutual

theorem genStmtN_F (n : ASTNode) (st : GenSt) :
    GenStatementN n st =
      { st with
        code := st.code ++
          (GenStmtF n st.labelCounter st.breakLabels st.continueLabels).1,
        labelCounter :=
          (GenStmtF n st.labelCounter st.breakLabels st.continueLabels).2 } := by
  obtain ⟨k, t, b, cs⟩ := n
  cases k
  case Block =>
    simp only [gseq_block, gsf_block]
    exact genStmts_F cs st
  case ExprStmt =>
    rcases cs with _ | ⟨e, tl⟩
    · simp [gseq_exprstmt_nil, gsf_exprstmt_nil]
    · simp only [gseq_exprstmt_cons, gsf_exprstmt_cons]
      by_cases hc : (optKind e != NodeKind.Call && optKind e != NodeKind.Assign) = true
      · simp [hc, GenExpression_frame, emit_frame, List.append_assoc]
      · simp [hc, GenExpression_frame]
  case VarDeclList =>
    rcases cs with _ | ⟨v0, vars⟩
    · simp [gseq_vdl_nil, gsf_vdl_nil]
    · simp [gseq_vdl_cons, gsf_vdl_cons, gvd_F]
  case Assign =>
    by_cases hc : cs.isEmpty = true
    · simp [gseq_assign_stmt, gsf_assign, hc]
    · simp [gseq_assign_stmt, gsf_assign, hc, GenExpression_frame, ECO_some]
  case If =>
    simp only [gseq_if, gsf_if]
    exact genIf_F cs st
  case While =>
    rcases cs with _ | ⟨c0, cs1⟩
    · simp [gseq_while_nil, gsf_while_nil]
    rcases cs1 with _ | ⟨c1, tl⟩
    · simp [gseq_while_one, gsf_while_one]
    rcases c1 with _ | m
    · simp only [gseq_while_none, gsf_while_none]
      simp [NewLabel_eq, GenExpression_frame, emit_frame, List.append_assoc]
    · have hm := fun s => genStmtN_F m s
      simp only [gseq_while_some, gsf_while_some]
      simp [NewLabel_eq, GenExpression_frame, emit_frame, hm, List.append_assoc]
  case DoWhile =>
    rcases cs with _ | ⟨c0, cs1⟩
    · simp [gseq_dowhile_nil, gsf_dowhile_nil]
    rcases cs1 with _ | ⟨c1, tl⟩
    · simp [gseq_dowhile_one, gsf_dowhile_one]
    rcases c0 with _ | m
    · simp only [gseq_dowhile_none, gsf_dowhile_none]
      simp [NewLabel_eq, GenExpression_frame, emit_frame, List.append_assoc]
    · have hm := fun s => genStmtN_F m s
      simp only [gseq_dowhile_some, gsf_dowhile_some]
      simp [NewLabel_eq, GenExpression_frame, emit_frame, hm, List.append_assoc]
  case For =>
    rcases cs with _ | ⟨c0, cs1⟩
    · simp [gseq_for_nil, gsf_for_nil]
    rcases cs1 with _ | ⟨c1, cs2⟩
    · simp [gseq_for_one, gsf_for_one]
    rcases cs2 with _ | ⟨c2, cs3⟩
    · simp [gseq_for_two, gsf_for_two]
    rcases cs3 with _ | ⟨c3, tl⟩
    · simp [gseq_for_three, gsf_for_three]
    rcases c0 with _ | s0 <;> rcases c1 with _ | e1 <;>
      rcases c2 with _ | e2 <;> rcases c3 with _ | s3
    all_goals try (have h0 := fun s => genStmtN_F s0 s)
    all_goals try (have h3 := fun s => genStmtN_F s3 s)
    · simp only [gseq_for_nnnn, gsf_for_nn]
      simp [NewLabel_eq, emit_frame, forCondF, forStepF, List.append_assoc]
    · simp only [gseq_for_nnns, gsf_for_ns]
      simp [NewLabel_eq, emit_frame, forCondF, forStepF, h3, List.append_assoc]
    · simp only [gseq_for_nnsn, gsf_for_nn]
      by_cases hstep : (e2.kind != NodeKind.Call && e2.kind != NodeKind.Assign) = true
      · simp [hstep, NewLabel_eq, GenExpression_frame, emit_frame, forCondF, forStepF,
          List.append_assoc]
      · simp [hstep, NewLabel_eq, GenExpression_frame, emit_frame, forCondF, forStepF,
          List.append_assoc]
    · simp only [gseq_for_nnss, gsf_for_ns]
      by_cases hstep : (e2.kind != NodeKind.Call && e2.kind != NodeKind.Assign) = true
      · simp [hstep, NewLabel_eq, GenExpression_frame, emit_frame, forCondF, forStepF,
          h3, List.append_assoc]
      · simp [hstep, NewLabel_eq, GenExpression_frame, emit_frame, forCondF, forStepF,
          h3, List.append_assoc]
    · simp only [gseq_for_nsnn, gsf_for_nn]
      simp [NewLabel_eq, GenExpression_frame, emit_frame, forCondF, forStepF,
        List.append_assoc]
    · simp only [gseq_for_nsns, gsf_for_ns]
      simp [NewLabel_eq, GenExpression_frame, emit_frame, forCondF, forStepF, h3,
        List.append_assoc]
    · simp only [gseq_for_nssn, gsf_for_nn]
      by_cases hstep : (e2.kind != NodeKind.Call && e2.kind != NodeKind.Assign) = true
      · simp [hstep, NewLabel_eq, GenExpression_frame, emit_frame, forCondF, forStepF,
          List.append_assoc]
      · simp [hstep, NewLabel_eq, GenExpression_frame, emit_frame, forCondF, forStepF,
          List.append_assoc]
    · simp only [gseq_for_nsss, gsf_for_ns]
      by_cases hstep : (e2.kind != NodeKind.Call && e2.kind != NodeKind.Assign) = true
      · simp [hstep, NewLabel_eq, GenExpression_frame, emit_frame, forCondF, forStepF,
          h3, List.append_assoc]
      · simp [hstep, NewLabel_eq, GenExpression_frame, emit_frame, forCondF, forStepF,
          h3, List.append_assoc]
    · simp only [gseq_for_snnn, gsf_for_sn]
      simp [NewLabel_eq, emit_frame, forCondF, forStepF, h0, List.append_assoc]
    · simp only [gseq_for_snns, gsf_for_ss]
      simp [NewLabel_eq, emit_frame, forCondF, forStepF, h0, h3, List.append_assoc]
    · simp only [gseq_for_snsn, gsf_for_sn]
      by_cases hstep : (e2.kind != NodeKind.Call && e2.kind != NodeKind.Assign) = true
      · simp [hstep, NewLabel_eq, GenExpression_frame, emit_frame, forCondF, forStepF,
          h0, List.append_assoc]
      · simp [hstep, NewLabel_eq, GenExpression_frame, emit_frame, forCondF, forStepF,
          h0, List.append_assoc]
    · simp only [gseq_for_snss, gsf_for_ss]
      by_cases hstep : (e2.kind != NodeKind.Call && e2.kind != NodeKind.Assign) = true
      · simp [hstep, NewLabel_eq, GenExpression_frame, emit_frame, forCondF, forStepF,
          h0, h3, List.append_assoc]
      · simp [hstep, NewLabel_eq, GenExpression_frame, emit_frame, forCondF, forStepF,
          h0, h3, List.append_assoc]
    · simp only [gseq_for_ssnn, gsf_for_sn]
      simp [NewLabel_eq, GenExpression_frame, emit_frame, forCondF, forStepF, h0,
        List.append_assoc]
    · simp only [gseq_for_ssns, gsf_for_ss]
      simp [NewLabel_eq, GenExpression_frame, emit_frame, forCondF, forStepF, h0, h3,
        List.append_assoc]
    · simp only [gseq_for_sssn, gsf_for_sn]
      by_cases hstep : (e2.kind != NodeKind.Call && e2.kind != NodeKind.Assign) = true
      · simp [hstep, NewLabel_eq, GenExpression_frame, emit_frame, forCondF, forStepF,
          h0, List.append_assoc]
      · simp [hstep, NewLabel_eq, GenExpression_frame, emit_frame, forCondF, forStepF,
          h0, List.append_assoc]
    · simp only [gseq_for_ssss, gsf_for_ss]
      by_cases hstep : (e2.kind != NodeKind.Call && e2.kind != NodeKind.Assign) = true
      · simp [hstep, NewLabel_eq, GenExpression_frame, emit_frame, forCondF, forStepF,
          h0, h3, List.append_assoc]
      · simp [hstep, NewLabel_eq, GenExpression_frame, emit_frame, forCondF, forStepF,
          h0, h3, List.append_assoc]
  case Break =>
    obtain ⟨sc, slc, sbl, scl⟩ := st
    rcases sbl with _ | ⟨l, bls⟩
    · simp [gseq_break_nil, gsf_break]
    · simp [gseq_break_cons, gsf_break, emit_frame]
  case Continue =>
    obtain ⟨sc, slc, sbl, scl⟩ := st
    rcases scl with _ | ⟨l, cls⟩
    · simp [gseq_continue_nil, gsf_continue]
    · simp [gseq_continue_cons, gsf_continue, emit_frame]
  case Return =>
    rcases cs with _ | ⟨c0, tl⟩
    · simp [gseq_return_nil, gsf_return_nil, emit_frame]
    · simp [gseq_return_cons, gsf_return_cons, GenExpression_frame, emit_frame,
        List.append_assoc]
  all_goals
    rw [gseq_other _ (by decide), gsf_other _ (by decide)]
    simp
termination_by sizeOf n

theorem genStmts_F (cs : List (Option ASTNode)) (st : GenSt) :
    GenStatements cs st =
      { st with
        code := st.code ++
          (GenStmtsF cs st.labelCounter st.breakLabels st.continueLabels).1,
        labelCounter :=
          (GenStmtsF cs st.labelCounter st.breakLabels st.continueLabels).2 } := by
  rcases cs with _ | ⟨c, rest⟩
  · simp [gss_nil, gssf_nil]
  have hr := fun s => genStmts_F rest s
  rcases c with _ | m
  · simp only [gss_cons_none, gssf_cons_none]
    simp [hr]
  · have hm := fun s => genStmtN_F m s
    simp only [gss_cons_some, gssf_cons_some]
    simp [hm, hr, List.append_assoc]
termination_by sizeOf cs

theorem genIf_F (cs : List (Option ASTNode)) (st : GenSt) :
    GenIf cs st =
      { st with
        code := st.code ++
          (GenIfF cs st.labelCounter st.breakLabels st.continueLabels).1,
        labelCounter :=
          (GenIfF cs st.labelCounter st.breakLabels st.continueLabels).2 } := by
  rcases cs with _ | ⟨c0, cs1⟩
  · simp [gif_nil, giff_nil]
  rcases cs1 with _ | ⟨c1, rest⟩
  · simp [gif_one, giff_one]
  have hR := fun l s => genIfRest_F rest l s
  rcases c1 with _ | m
  · simp only [gif_cons_none, giff_cons_none]
    simp [NewLabel_eq, GenExpression_frame, emit_frame, hR, List.append_assoc]
  · have hm := fun s => genStmtN_F m s
    simp only [gif_cons_some, giff_cons_some]
    simp [NewLabel_eq, GenExpression_frame, emit_frame, hm, hR, List.append_assoc]
termination_by sizeOf cs

theorem genIfRest_F (rest : List (Option ASTNode)) (endLabel : String) (st : GenSt) :
    GenIfRest rest endLabel st =
      { st with
        code := st.code ++
          (GenIfRestF rest endLabel st.labelCounter st.breakLabels st.continueLabels).1,
        labelCounter :=
          (GenIfRestF rest endLabel st.labelCounter st.breakLabels
            st.continueLabels).2 } := by
  rcases rest with _ | ⟨c, rest2⟩
  · simp [gir_nil, girf_nil]
  have hr := fun l s => genIfRest_F rest2 l s
  rcases c with _ | ⟨ck, kt, kb, kcs⟩
  · simp only [gir_cons_none, girf_cons_none]
    simp [hr]
  by_cases hck : ck = NodeKind.ElseIf
  · subst hck
    rcases kcs with _ | ⟨e0, kcs1⟩
    · simp only [gir_elseif_nilc, girf_elseif_nilc]
      exact hr endLabel st
    rcases kcs1 with _ | ⟨e1, etl⟩
    · simp only [gir_elseif_onec, girf_elseif_onec]
      exact hr endLabel st
    rcases e1 with _ | m
    · simp only [gir_elseif_none, girf_elseif_none]
      simp [NewLabel_eq, GenExpression_frame, emit_frame, hr, List.append_assoc]
    · have hm := fun s => genStmtN_F m s
      simp only [gir_elseif_some, girf_elseif_some]
      simp [NewLabel_eq, GenExpression_frame, emit_frame, hm, hr, List.append_assoc]
  · have hm := fun s => genStmtN_F (ASTNode.mk ck kt kb kcs) s
    rw [gir_other ck hck, girf_other ck hck]
    simp [hm, hr, List.append_assoc]
termination_by sizeOf rest

end

end Petukh

namespace Petukh

/-! ## C3, part 5: jump-target bookkeeping toolkit. -/

/-- Every JMP/JZ argument of `D` is a generated label with counter in
`[a, b)`, or a label on the break/continue stack. -/
def jumpOK (a b : Nat) (bl cl : List String) (D : List Instruction) : Prop :=
  ∀ x ∈ jumpArgs D, (∃ k, a ≤ k ∧ k < b ∧ x = labelName k) ∨ x ∈ bl ∨ x ∈ cl

theorem jumpOK_nil (a b : Nat) (bl cl : List String) : jumpOK a b bl cl [] := by
  intro x hx
  simp [jumpArgs_nil] at hx

theorem jumpOK_append {a b : Nat} {bl cl : List String} {A B : List Instruction}
    (hA : jumpOK a b bl cl A) (hB : jumpOK a b bl cl B) :
    jumpOK a b bl cl (A ++ B) := by
  intro x hx
  rw [jumpArgs_append] at hx
  rcases List.mem_append.mp hx with h | h
  · exact hA x h
  · exact hB x h

theorem jumpOK_noCF {a b : Nat} {bl cl : List String} {D : List Instruction}
    (h : noCF D = true) : jumpOK a b bl cl D := by
  intro x hx
  rw [jumpArgs_noCF D h] at hx
  simp at hx

theorem jumpOK_LABEL (a b : Nat) (bl cl : List String) (x : String) :
    jumpOK a b bl cl [⟨OpCode.LABEL, x⟩] := by
  intro y hy
  simp [jumpArgs_LABEL] at hy

theorem jumpOK_JMP_fresh {a b : Nat} (bl cl : List String) {k : Nat}
    (h1 : a ≤ k) (h2 : k < b) : jumpOK a b bl cl [⟨OpCode.JMP, labelName k⟩] := by
  intro y hy
  simp [jumpArgs_JMP] at hy
  exact Or.inl ⟨k, h1, h2, hy⟩

theorem jumpOK_JZ_fresh {a b : Nat} (bl cl : List String) {k : Nat}
    (h1 : a ≤ k) (h2 : k < b) : jumpOK a b bl cl [⟨OpCode.JZ, labelName k⟩] := by
  intro y hy
  simp [jumpArgs_JZ] at hy
  exact Or.inl ⟨k, h1, h2, hy⟩

theorem jumpOK_JMP_b {a b : Nat} {bl : List String} (cl : List String) {l : String}
    (h : l ∈ bl) : jumpOK a b bl cl [⟨OpCode.JMP, l⟩] := by
  intro y hy
  simp [jumpArgs_JMP] at hy
  subst hy
  exact Or.inr (Or.inl h)

theorem jumpOK_JMP_c {a b : Nat} (bl : List String) {cl : List String} {l : String}
    (h : l ∈ cl) : jumpOK a b bl cl [⟨OpCode.JMP, l⟩] := by
  intro y hy
  simp [jumpArgs_JMP] at hy
  subst hy
  exact Or.inr (Or.inr h)

theorem jumpOK_mono {a b a' b' : Nat} {bl cl : List String} {D : List Instruction}
    (h : jumpOK a' b' bl cl D) (ha : a ≤ a') (hb : b' ≤ b) : jumpOK a b bl cl D := by
  intro x hx
  rcases h x hx with ⟨k, h1, h2, rfl⟩ | hB | hC
  · exact Or.inl ⟨k, le_trans ha h1, lt_of_lt_of_le h2 hb, rfl⟩
  · exact Or.inr (Or.inl hB)
  · exact Or.inr (Or.inr hC)

theorem jumpOK_weaken_b {a b : Nat} {bl cl : List String} {D : List Instruction}
    (l : String) (h : jumpOK a b bl cl D) : jumpOK a b (l :: bl) cl D := by
  intro x hx
  rcases h x hx with hF | hB | hC
  · exact Or.inl hF
  · exact Or.inr (Or.inl (List.mem_cons_of_mem l hB))
  · exact Or.inr (Or.inr hC)

theorem jumpOK_unstack_b (a : Nat) {b a' : Nat} {bl cl : List String} {lb : String}
    {D : List Instruction} (h : jumpOK a' b (lb :: bl) cl D)
    (hlb : ∃ k, a ≤ k ∧ k < b ∧ lb = labelName k) (haa : a ≤ a') :
    jumpOK a b bl cl D := by
  intro x hx
  rcases h x hx with ⟨k, h1, h2, rfl⟩ | hB | hC
  · exact Or.inl ⟨k, le_trans haa h1, h2, rfl⟩
  · rcases List.mem_cons.mp hB with rfl | hB2
    · exact Or.inl hlb
    · exact Or.inr (Or.inl hB2)
  · exact Or.inr (Or.inr hC)

theorem jumpOK_unstack_c (a : Nat) {b a' : Nat} {bl cl : List String} {lc : String}
    {D : List Instruction} (h : jumpOK a' b bl (lc :: cl) D)
    (hlc : ∃ k, a ≤ k ∧ k < b ∧ lc = labelName k) (haa : a ≤ a') :
    jumpOK a b bl cl D := by
  intro x hx
  rcases h x hx with ⟨k, h1, h2, rfl⟩ | hB | hC
  · exact Or.inl ⟨k, le_trans haa h1, h2, rfl⟩
  · exact Or.inr (Or.inl hB)
  · rcases List.mem_cons.mp hC with rfl | hC2
    · exact Or.inl hlc
    · exact Or.inr (Or.inr hC2)

theorem ms_cons_add_form (x : String) (s : Multiset String) :
    x ::ₘ s = {x} + s := (Multiset.singleton_add x s).symm

theorem labelMS_noCF {D : List Instruction} (h : noCF D = true) : labelMS D = 0 := by
  rw [labelMS, labelArgs_noCF D h]
  rfl

theorem noCF_POP (x : String) : noCF [⟨OpCode.POP, x⟩] = true := rfl

theorem noCF_forStepF (c2 : Option ASTNode) : noCF (forStepF c2) = true := by
  cases c2
  · rfl
  · next e2 =>
    by_cases hc : (e2.kind != NodeKind.Call && e2.kind != NodeKind.Assign) = true
    · simp [forStepF, hc, noCF_append, noCF_ECO, noCF_POP]
    · simp [forStepF, hc, noCF_append, noCF_ECO]

theorem labelMS_forCondF (c1 : Option ASTNode) (a : Nat) :
    labelMS (forCondF c1 a) = 0 := by
  cases c1
  · rfl
  · simp [forCondF, labelMS_append, labelMS_ECO, labelMS_JZ]

theorem jumpOK_forCondF {a b : Nat} (bl cl : List String) (c1 : Option ASTNode)
    (h : a + 1 + 1 < b) : jumpOK a b bl cl (forCondF c1 a) := by
  cases c1
  · exact jumpOK_nil a b bl cl
  · exact jumpOK_append (jumpOK_noCF (noCF_ECO _))
      (jumpOK_JZ_fresh bl cl (by omega) h)

theorem rangeMS_one (a : Nat) : rangeMS a 1 = {labelName a} := rfl

theorem rangeMS_two (a : Nat) :
    rangeMS a 2 = labelName a ::ₘ labelName (a+1) ::ₘ 0 := rfl

theorem rangeMS_three (a : Nat) :
    rangeMS a 3 = labelName a ::ₘ labelName (a+1) ::ₘ labelName (a+1+1) ::ₘ 0 := rfl

theorem rangeMS_split (a b c : Nat) (hab : a ≤ b) (hbc : b ≤ c) :
    rangeMS a (b - a) + rangeMS b (c - b) = rangeMS a (c - a) := by
  have h := List.range'_append a (b - a) (c - b) 1
  rw [one_mul, show a + (b - a) = b from by omega,
      show (c - b) + (b - a) = c - a from by omega] at h
  rw [rangeMS, rangeMS, rangeMS, ← h]
  simp

end Petukh

namespace Petukh

theorem noCF_nil : noCF [] = true := rfl

theorem noCF_RET (x : String) : noCF [⟨OpCode.RET, x⟩] = true := rfl

/-- Trivial case of the label invariant: empty chunk, unchanged counter. -/
theorem lab_triv (a : Nat) (bl cl : List String) :
    a ≤ (([] : List Instruction), a).2 ∧
    labelMS (([] : List Instruction), a).1 =
      rangeMS a ((([] : List Instruction), a).2 - a) ∧
    jumpOK a (([] : List Instruction), a).2 bl cl (([] : List Instruction), a).1 := by
  refine ⟨le_refl a, ?_, jumpOK_nil a a bl cl⟩
  simp [labelMS_nil, Nat.sub_self, rangeMS_zero]

/-- Label invariant for a chunk without control flow and unchanged counter. -/
theorem lab_noCF {D : List Instruction} (a : Nat) (bl cl : List String)
    (h : noCF D = true) :
    a ≤ (D, a).2 ∧ labelMS (D, a).1 = rangeMS a ((D, a).2 - a) ∧
    jumpOK a (D, a).2 bl cl (D, a).1 := by
  refine ⟨le_refl a, ?_, jumpOK_noCF h⟩
  simp [labelMS_noCF h, Nat.sub_self, rangeMS_zero]

mutual

theorem stmtF_lab (n : ASTNode) (a : Nat) (bl cl : List String) :
    a ≤ (GenStmtF n a bl cl).2 ∧
    labelMS (GenStmtF n a bl cl).1 = rangeMS a ((GenStmtF n a bl cl).2 - a) ∧
    jumpOK a (GenStmtF n a bl cl).2 bl cl (GenStmtF n a bl cl).1 := by
  obtain ⟨k, t, b, cs⟩ := n
  cases k
  case Block =>
    simp only [gsf_block]
    exact stmtsF_lab cs a bl cl
  case ExprStmt =>
    rcases cs with _ | ⟨e, tl⟩
    · rw [gsf_exprstmt_nil]
      exact lab_triv a bl cl
    · rw [gsf_exprstmt_cons]
      apply lab_noCF
      by_cases hc : (optKind e != NodeKind.Call && optKind e != NodeKind.Assign) = true
      · simp [hc, noCF_append, noCF_ECO, noCF_POP]
      · simp [hc, noCF_append, noCF_ECO]
  case VarDeclList =>
    rcases cs with _ | ⟨v0, vars⟩
    · rw [gsf_vdl_nil]
      exact lab_triv a bl cl
    · rw [gsf_vdl_cons]
      exact lab_noCF a bl cl (noCF_VDF vars)
  case Assign =>
    rw [gsf_assign]
    apply lab_noCF
    by_cases hc : cs.isEmpty = true
    · simp [hc, noCF_nil]
    · simp [hc, noCF_EC]
  case If =>
    simp only [gsf_if]
    exact ifF_lab cs a bl cl
  case While =>
    rcases cs with _ | ⟨c0, cs1⟩
    · rw [gsf_while_nil]
      exact lab_triv a bl cl
    rcases cs1 with _ | ⟨c1, tl⟩
    · rw [gsf_while_one]
      exact lab_triv a bl cl
    rcases c1 with _ | m
    · simp only [gsf_while_none]
      refine ⟨by omega, ?_, ?_⟩
      · rw [show a + 1 + 1 - a = 2 from by omega, rangeMS_two]
        simp [labelMS_append, labelMS_LABEL, labelMS_ECO, labelMS_JZ, labelMS_JMP,
              labelMS_cons_LABEL, labelMS_cons_JMP, labelMS_cons_JZ,
              labelMS_nil, labelMS_nil, zero_add, add_zero] <;>
        (try simp only [ms_cons_add_form]) <;> abel
      · refine jumpOK_append (jumpOK_append (jumpOK_append (jumpOK_append (jumpOK_append
          (jumpOK_LABEL _ _ bl cl _) (jumpOK_noCF (noCF_ECO c0)))
          (jumpOK_JZ_fresh bl cl (by omega) (by omega)))
          (jumpOK_nil _ _ bl cl))
          (jumpOK_JMP_fresh bl cl (by omega) (by omega)))
          (jumpOK_LABEL _ _ bl cl _)
    · obtain ⟨h1, h2, h3⟩ :=
        stmtF_lab m (a + 1 + 1) (labelName (a+1) :: bl) (labelName a :: cl)
      simp only [gsf_while_some]
      refine ⟨by omega, ?_, ?_⟩
      · rw [← rangeMS_split a (a + 1 + 1)
            ((GenStmtF m (a + 1 + 1) (labelName (a+1) :: bl) (labelName a :: cl)).2)
            (by omega) h1,
          show a + 1 + 1 - a = 2 from by omega, rangeMS_two]
        simp [labelMS_append, labelMS_LABEL, labelMS_ECO, labelMS_JZ, labelMS_JMP,
              labelMS_cons_LABEL, labelMS_cons_JMP, labelMS_cons_JZ,
              h2, labelMS_nil, zero_add, add_zero] <;>
        (try simp only [ms_cons_add_form]) <;> abel
      · refine jumpOK_append (jumpOK_append (jumpOK_append (jumpOK_append (jumpOK_append
          (jumpOK_LABEL _ _ bl cl _) (jumpOK_noCF (noCF_ECO c0)))
          (jumpOK_JZ_fresh bl cl (by omega) (by omega)))
          ?_)
          (jumpOK_JMP_fresh bl cl (by omega) (by omega)))
          (jumpOK_LABEL _ _ bl cl _)
        exact jumpOK_unstack_b a
          (jumpOK_unstack_c a h3 ⟨a, le_refl a, by omega, rfl⟩ (by omega))
          ⟨a + 1, by omega, by omega, rfl⟩ (by omega)
  case DoWhile =>
    rcases cs with _ | ⟨c0, cs1⟩
    · rw [gsf_dowhile_nil]
      exact lab_triv a bl cl
    rcases cs1 with _ | ⟨c1, tl⟩
    · rw [gsf_dowhile_one]
      exact lab_triv a bl cl
    rcases c0 with _ | m
    · simp only [gsf_dowhile_none]
      refine ⟨by omega, ?_, ?_⟩
      · rw [show a + 1 + 1 - a = 2 from by omega, rangeMS_two]
        simp [labelMS_append, labelMS_LABEL, labelMS_ECO, labelMS_JZ, labelMS_JMP,
              labelMS_cons_LABEL, labelMS_cons_JMP, labelMS_cons_JZ,
              labelMS_nil, labelMS_nil, zero_add, add_zero] <;>
        (try simp only [ms_cons_add_form]) <;> abel
      · refine jumpOK_append (jumpOK_append (jumpOK_append (jumpOK_append (jumpOK_append
          (jumpOK_LABEL _ _ bl cl _) (jumpOK_nil _ _ bl cl))
          (jumpOK_noCF (noCF_ECO c1)))
          (jumpOK_JZ_fresh bl cl (by omega) (by omega)))
          (jumpOK_JMP_fresh bl cl (by omega) (by omega)))
          (jumpOK_LABEL _ _ bl cl _)
    · obtain ⟨h1, h2, h3⟩ :=
        stmtF_lab m (a + 1 + 1) (labelName (a+1) :: bl) (labelName a :: cl)
      simp only [gsf_dowhile_some]
      refine ⟨by omega, ?_, ?_⟩
      · rw [← rangeMS_split a (a + 1 + 1)
            ((GenStmtF m (a + 1 + 1) (labelName (a+1) :: bl) (labelName a :: cl)).2)
            (by omega) h1,
          show a + 1 + 1 - a = 2 from by omega, rangeMS_two]
        simp [labelMS_append, labelMS_LABEL, labelMS_ECO, labelMS_JZ, labelMS_JMP,
              labelMS_cons_LABEL, labelMS_cons_JMP, labelMS_cons_JZ,
              h2, labelMS_nil, zero_add, add_zero] <;>
        (try simp only [ms_cons_add_form]) <;> abel
      · refine jumpOK_append (jumpOK_append (jumpOK_append (jumpOK_append (jumpOK_append
          (jumpOK_LABEL _ _ bl cl _) ?_)
          (jumpOK_noCF (noCF_ECO c1)))
          (jumpOK_JZ_fresh bl cl (by omega) (by omega)))
          (jumpOK_JMP_fresh bl cl (by omega) (by omega)))
          (jumpOK_LABEL _ _ bl cl _)
        exact jumpOK_unstack_b a
          (jumpOK_unstack_c a h3 ⟨a, le_refl a, by omega, rfl⟩ (by omega))
          ⟨a + 1, by omega, by omega, rfl⟩ (by omega)
  case For =>
    rcases cs with _ | ⟨c0, cs1⟩
    · rw [gsf_for_nil]
      exact lab_triv a bl cl
    rcases cs1 with _ | ⟨c1, cs2⟩
    · rw [gsf_for_one]
      exact lab_triv a bl cl
    rcases cs2 with _ | ⟨c2, cs3⟩
    · rw [gsf_for_two]
      exact lab_triv a bl cl
    rcases cs3 with _ | ⟨c3, tl⟩
    · rw [gsf_for_three]
      exact lab_triv a bl cl
    rcases c0 with _ | s0 <;> rcases c3 with _ | s3
    · simp only [gsf_for_nn]
      refine ⟨by omega, ?_, ?_⟩
      · rw [show a + 1 + 1 + 1 - a = 3 from by omega, rangeMS_three]
        simp [labelMS_append, labelMS_LABEL, labelMS_forCondF, labelMS_JMP,
              labelMS_cons_LABEL, labelMS_cons_JMP, labelMS_cons_JZ,
              labelMS_noCF (noCF_forStepF c2), labelMS_nil,
              labelMS_nil, zero_add, add_zero] <;>
        (try simp only [ms_cons_add_form]) <;> abel
      · refine jumpOK_append (jumpOK_append (jumpOK_append (jumpOK_append (jumpOK_append
          (jumpOK_append (jumpOK_append
            (jumpOK_nil _ _ bl cl) (jumpOK_LABEL _ _ bl cl _))
            (jumpOK_forCondF bl cl c1 (by omega)))
            (jumpOK_nil _ _ bl cl))
            (jumpOK_LABEL _ _ bl cl _))
            (jumpOK_noCF (noCF_forStepF c2)))
            (jumpOK_JMP_fresh bl cl (by omega) (by omega)))
            (jumpOK_LABEL _ _ bl cl _)
    · obtain ⟨h31, h32, h33⟩ :=
        stmtF_lab s3 (a + 1 + 1 + 1) (labelName (a+1+1) :: bl) (labelName (a+1) :: cl)
      simp only [gsf_for_ns]
      refine ⟨by omega, ?_, ?_⟩
      · rw [← rangeMS_split a (a + 1 + 1 + 1)
            ((GenStmtF s3 (a + 1 + 1 + 1) (labelName (a+1+1) :: bl)
              (labelName (a+1) :: cl)).2) (by omega) h31,
          show a + 1 + 1 + 1 - a = 3 from by omega, rangeMS_three]
        simp [labelMS_append, labelMS_LABEL, labelMS_forCondF, labelMS_JMP,
              labelMS_cons_LABEL, labelMS_cons_JMP, labelMS_cons_JZ,
              labelMS_noCF (noCF_forStepF c2), labelMS_nil, h32,
              labelMS_nil, zero_add, add_zero] <;>
        (try simp only [ms_cons_add_form]) <;> abel
      · refine jumpOK_append (jumpOK_append (jumpOK_append (jumpOK_append (jumpOK_append
          (jumpOK_append (jumpOK_append
            (jumpOK_nil _ _ bl cl) (jumpOK_LABEL _ _ bl cl _))
            (jumpOK_forCondF bl cl c1 (by omega)))
            ?_)
            (jumpOK_LABEL _ _ bl cl _))
            (jumpOK_noCF (noCF_forStepF c2)))
            (jumpOK_JMP_fresh bl cl (by omega) (by omega)))
            (jumpOK_LABEL _ _ bl cl _)
        exact jumpOK_unstack_b a
          (jumpOK_unstack_c a h33 ⟨a + 1, by omega, by omega, rfl⟩ (by omega))
          ⟨a + 1 + 1, by omega, by omega, rfl⟩ (by omega)
    · obtain ⟨h01, h02, h03⟩ :=
        stmtF_lab s0 (a + 1 + 1 + 1) (labelName (a+1+1) :: bl) (labelName (a+1) :: cl)
      simp only [gsf_for_sn]
      refine ⟨by omega, ?_, ?_⟩
      · rw [← rangeMS_split a (a + 1 + 1 + 1)
            ((GenStmtF s0 (a + 1 + 1 + 1) (labelName (a+1+1) :: bl)
              (labelName (a+1) :: cl)).2) (by omega) h01,
          show a + 1 + 1 + 1 - a = 3 from by omega, rangeMS_three]
        simp [labelMS_append, labelMS_LABEL, labelMS_forCondF, labelMS_JMP,
              labelMS_cons_LABEL, labelMS_cons_JMP, labelMS_cons_JZ,
              labelMS_noCF (noCF_forStepF c2), labelMS_nil, h02,
              labelMS_nil, zero_add, add_zero] <;>
        (try simp only [ms_cons_add_form]) <;> abel
      · refine jumpOK_append (jumpOK_append (jumpOK_append (jumpOK_append (jumpOK_append
          (jumpOK_append (jumpOK_append
            ?_ (jumpOK_LABEL _ _ bl cl _))
            (jumpOK_forCondF bl cl c1 (by omega)))
            (jumpOK_nil _ _ bl cl))
            (jumpOK_LABEL _ _ bl cl _))
            (jumpOK_noCF (noCF_forStepF c2)))
            (jumpOK_JMP_fresh bl cl (by omega) (by omega)))
            (jumpOK_LABEL _ _ bl cl _)
        exact jumpOK_unstack_b a
          (jumpOK_unstack_c a h03 ⟨a + 1, by omega, by omega, rfl⟩ (by omega))
          ⟨a + 1 + 1, by omega, by omega, rfl⟩ (by omega)
    · obtain ⟨h01, h02, h03⟩ :=
        stmtF_lab s0 (a + 1 + 1 + 1) (labelName (a+1+1) :: bl) (labelName (a+1) :: cl)
      obtain ⟨h31, h32, h33⟩ :=
        stmtF_lab s3
          ((GenStmtF s0 (a + 1 + 1 + 1) (labelName (a+1+1) :: bl)
            (labelName (a+1) :: cl)).2)
          (labelName (a+1+1) :: bl) (labelName (a+1) :: cl)
      simp only [gsf_for_ss]
      refine ⟨by omega, ?_, ?_⟩
      · rw [← rangeMS_split a (a + 1 + 1 + 1)
            ((GenStmtF s3
              ((GenStmtF s0 (a + 1 + 1 + 1) (labelName (a+1+1) :: bl)
                (labelName (a+1) :: cl)).2)
              (labelName (a+1+1) :: bl) (labelName (a+1) :: cl)).2)
            (by omega) (by omega),
          ← rangeMS_split (a + 1 + 1 + 1)
            ((GenStmtF s0 (a + 1 + 1 + 1) (labelName (a+1+1) :: bl)
              (labelName (a+1) :: cl)).2)
            ((GenStmtF s3
              ((GenStmtF s0 (a + 1 + 1 + 1) (labelName (a+1+1) :: bl)
                (labelName (a+1) :: cl)).2)
              (labelName (a+1+1) :: bl) (labelName (a+1) :: cl)).2)
            h01 h31,
          show a + 1 + 1 + 1 - a = 3 from by omega, rangeMS_three]
        simp [labelMS_append, labelMS_LABEL, labelMS_forCondF, labelMS_JMP,
              labelMS_cons_LABEL, labelMS_cons_JMP, labelMS_cons_JZ,
              labelMS_noCF (noCF_forStepF c2), labelMS_nil, h02, h32,
              labelMS_nil, zero_add, add_zero] <;>
        (try simp only [ms_cons_add_form]) <;> abel
      · refine jumpOK_append (jumpOK_append (jumpOK_append (jumpOK_append (jumpOK_append
          (jumpOK_append (jumpOK_append
            ?_ (jumpOK_LABEL _ _ bl cl _))
            (jumpOK_forCondF bl cl c1 (by omega)))
            ?_)
            (jumpOK_LABEL _ _ bl cl _))
            (jumpOK_noCF (noCF_forStepF c2)))
            (jumpOK_JMP_fresh bl cl (by omega) (by omega)))
            (jumpOK_LABEL _ _ bl cl _)
        · exact jumpOK_mono
            (jumpOK_unstack_b a
              (jumpOK_unstack_c a h03 ⟨a + 1, by omega, by omega, rfl⟩ (by omega))
              ⟨a + 1 + 1, by omega, by omega, rfl⟩ (by omega))
            (le_refl a) h31
        · exact jumpOK_unstack_b a
            (jumpOK_unstack_c a h33 ⟨a + 1, by omega, by omega, rfl⟩ (by omega))
            ⟨a + 1 + 1, by omega, by omega, rfl⟩ (by omega)
  case Break =>
    rw [gsf_break]
    rcases bl with _ | ⟨l, bls⟩
    · exact lab_triv a [] cl
    · refine ⟨le_refl a, ?_, ?_⟩
      · simp [labelMS_JMP, Nat.sub_self, rangeMS_zero]
      · exact jumpOK_JMP_b cl (List.mem_cons_self l bls)
  case Continue =>
    rw [gsf_continue]
    rcases cl with _ | ⟨l, cls⟩
    · exact lab_triv a bl []
    · refine ⟨le_refl a, ?_, ?_⟩
      · simp [labelMS_JMP, Nat.sub_self, rangeMS_zero]
      · exact jumpOK_JMP_c bl (List.mem_cons_self l cls)
  case Return =>
    rcases cs with _ | ⟨c0, tl⟩
    · rw [gsf_return_nil]
      exact lab_noCF a bl cl (noCF_RET "")
    · rw [gsf_return_cons]
      apply lab_noCF
      simp [noCF_append, noCF_ECO, noCF_RET]
  all_goals
    rw [gsf_other _ (by decide)]
    exact lab_triv a bl cl
termination_by sizeOf n

theorem stmtsF_lab (cs : List (Option ASTNode)) (a : Nat) (bl cl : List String) :
    a ≤ (GenStmtsF cs a bl cl).2 ∧
    labelMS (GenStmtsF cs a bl cl).1 = rangeMS a ((GenStmtsF cs a bl cl).2 - a) ∧
    jumpOK a (GenStmtsF cs a bl cl).2 bl cl (GenStmtsF cs a bl cl).1 := by
  rcases cs with _ | ⟨c, rest⟩
  · rw [gssf_nil]
    exact lab_triv a bl cl
  rcases c with _ | m
  · obtain ⟨r1, r2, r3⟩ := stmtsF_lab rest a bl cl
    simp only [gssf_cons_none]
    refine ⟨r1, ?_, ?_⟩
    · simp [labelMS_append, labelMS_nil, r2]
    · exact jumpOK_append (jumpOK_nil _ _ bl cl) r3
  · obtain ⟨h1, h2, h3⟩ := stmtF_lab m a bl cl
    obtain ⟨r1, r2, r3⟩ := stmtsF_lab rest ((GenStmtF m a bl cl).2) bl cl
    simp only [gssf_cons_some]
    refine ⟨by omega, ?_, ?_⟩
    · rw [← rangeMS_split a ((GenStmtF m a bl cl).2)
          ((GenStmtsF rest ((GenStmtF m a bl cl).2) bl cl).2) h1 r1]
      simp [labelMS_append, h2, r2]
    · exact jumpOK_append (jumpOK_mono h3 (le_refl a) r1)
        (jumpOK_mono r3 h1 (le_refl _))
termination_by sizeOf cs

theorem ifF_lab (cs : List (Option ASTNode)) (a : Nat) (bl cl : List String) :
    a ≤ (GenIfF cs a bl cl).2 ∧
    labelMS (GenIfF cs a bl cl).1 = rangeMS a ((GenIfF cs a bl cl).2 - a) ∧
    jumpOK a (GenIfF cs a bl cl).2 bl cl (GenIfF cs a bl cl).1 := by
  rcases cs with _ | ⟨c0, cs1⟩
  · rw [giff_nil]
    exact lab_triv a bl cl
  rcases cs1 with _ | ⟨c1, rest⟩
  · rw [giff_one]
    exact lab_triv a bl cl
  rcases c1 with _ | m
  · obtain ⟨r1, r2, r3⟩ := ifRestF_lab rest (labelName a) (a + 1 + 1) bl cl
    simp only [giff_cons_none]
    refine ⟨by omega, ?_, ?_⟩
    · rw [← rangeMS_split a (a + 1 + 1)
          ((GenIfRestF rest (labelName a) (a + 1 + 1) bl cl).2) (by omega) r1,
        show a + 1 + 1 - a = 2 from by omega, rangeMS_two]
      simp [labelMS_append, labelMS_LABEL, labelMS_ECO, labelMS_JZ, labelMS_JMP,
              labelMS_cons_LABEL, labelMS_cons_JMP, labelMS_cons_JZ,
            labelMS_nil, r2, zero_add, add_zero] <;>
        (try simp only [ms_cons_add_form]) <;> abel
    · refine jumpOK_append (jumpOK_append (jumpOK_append (jumpOK_append (jumpOK_append
        (jumpOK_append
          (jumpOK_noCF (noCF_ECO c0)) (jumpOK_JZ_fresh bl cl (by omega) (by omega)))
          (jumpOK_nil _ _ bl cl))
          (jumpOK_JMP_fresh bl cl (by omega) (by omega)))
          (jumpOK_LABEL _ _ bl cl _))
          ?_)
          (jumpOK_LABEL _ _ bl cl _)
      exact jumpOK_unstack_b a r3 ⟨a, le_refl a, by omega, rfl⟩ (by omega)
  · obtain ⟨h1, h2, h3⟩ := stmtF_lab m (a + 1 + 1) bl cl
    obtain ⟨r1, r2, r3⟩ :=
      ifRestF_lab rest (labelName a) ((GenStmtF m (a + 1 + 1) bl cl).2) bl cl
    simp only [giff_cons_some]
    refine ⟨by omega, ?_, ?_⟩
    · rw [← rangeMS_split a (a + 1 + 1)
          ((GenIfRestF rest (labelName a) ((GenStmtF m (a + 1 + 1) bl cl).2) bl cl).2)
          (by omega) (by omega),
        ← rangeMS_split (a + 1 + 1) ((GenStmtF m (a + 1 + 1) bl cl).2)
          ((GenIfRestF rest (labelName a) ((GenStmtF m (a + 1 + 1) bl cl).2) bl cl).2)
          h1 r1,
        show a + 1 + 1 - a = 2 from by omega, rangeMS_two]
      simp [labelMS_append, labelMS_LABEL, labelMS_ECO, labelMS_JZ, labelMS_JMP,
              labelMS_cons_LABEL, labelMS_cons_JMP, labelMS_cons_JZ,
            labelMS_nil, h2, r2, zero_add, add_zero] <;>
        (try simp only [ms_cons_add_form]) <;> abel
    · refine jumpOK_append (jumpOK_append (jumpOK_append (jumpOK_append (jumpOK_append
        (jumpOK_append
          (jumpOK_noCF (noCF_ECO c0)) (jumpOK_JZ_fresh bl cl (by omega) (by omega)))
          (jumpOK_mono h3 (by omega) r1))
          (jumpOK_JMP_fresh bl cl (by omega) (by omega)))
          (jumpOK_LABEL _ _ bl cl _))
          ?_)
          (jumpOK_LABEL _ _ bl cl _)
      exact jumpOK_unstack_b a r3 ⟨a, le_refl a, by omega, rfl⟩ (by omega)
termination_by sizeOf cs

theorem ifRestF_lab (rest : List (Option ASTNode)) (endLabel : String) (a : Nat)
    (bl cl : List String) :
    a ≤ (GenIfRestF rest endLabel a bl cl).2 ∧
    labelMS (GenIfRestF rest endLabel a bl cl).1 =
      rangeMS a ((GenIfRestF rest endLabel a bl cl).2 - a) ∧
    jumpOK a (GenIfRestF rest endLabel a bl cl).2 (endLabel :: bl) cl
      (GenIfRestF rest endLabel a bl cl).1 := by
  rcases rest with _ | ⟨c, rest2⟩
  · rw [girf_nil]
    exact lab_triv a (endLabel :: bl) cl
  rcases c with _ | ⟨ck, kt, kb, kcs⟩
  · obtain ⟨r1, r2, r3⟩ := ifRestF_lab rest2 endLabel a bl cl
    simp only [girf_cons_none]
    refine ⟨r1, ?_, ?_⟩
    · simp [labelMS_append, labelMS_nil, r2]
    · exact jumpOK_append (jumpOK_nil _ _ (endLabel :: bl) cl) r3
  by_cases hck : ck = NodeKind.ElseIf
  · subst hck
    rcases kcs with _ | ⟨e0, kcs1⟩
    · simp only [girf_elseif_nilc]
      exact ifRestF_lab rest2 endLabel a bl cl
    rcases kcs1 with _ | ⟨e1, etl⟩
    · simp only [girf_elseif_onec]
      exact ifRestF_lab rest2 endLabel a bl cl
    rcases e1 with _ | m
    · obtain ⟨r1, r2, r3⟩ := ifRestF_lab rest2 endLabel (a + 1) bl cl
      simp only [girf_elseif_none]
      refine ⟨by omega, ?_, ?_⟩
      · rw [← rangeMS_split a (a + 1)
            ((GenIfRestF rest2 endLabel (a + 1) bl cl).2) (by omega) r1,
          show a + 1 - a = 1 from by omega, rangeMS_one]
        simp [labelMS_append, labelMS_LABEL, labelMS_ECO, labelMS_JZ, labelMS_JMP,
              labelMS_cons_LABEL, labelMS_cons_JMP, labelMS_cons_JZ,
              labelMS_nil, r2, labelMS_nil, zero_add, add_zero] <;>
        (try simp only [ms_cons_add_form]) <;> abel
      · refine jumpOK_append (jumpOK_append (jumpOK_append (jumpOK_append (jumpOK_append
          (jumpOK_noCF (noCF_ECO e0))
          (jumpOK_JZ_fresh (endLabel :: bl) cl (by omega) (by omega)))
          (jumpOK_nil _ _ (endLabel :: bl) cl))
          (jumpOK_JMP_b cl (List.mem_cons_self endLabel bl)))
          (jumpOK_LABEL _ _ (endLabel :: bl) cl _))
          (jumpOK_mono r3 (by omega) (le_refl _))
    · obtain ⟨h1, h2, h3⟩ := stmtF_lab m (a + 1) bl cl
      obtain ⟨r1, r2, r3⟩ :=
        ifRestF_lab rest2 endLabel ((GenStmtF m (a + 1) bl cl).2) bl cl
      simp only [girf_elseif_some]
      refine ⟨by omega, ?_, ?_⟩
      · rw [← rangeMS_split a (a + 1)
            ((GenIfRestF rest2 endLabel ((GenStmtF m (a + 1) bl cl).2) bl cl).2)
            (by omega) (by omega),
          ← rangeMS_split (a + 1) ((GenStmtF m (a + 1) bl cl).2)
            ((GenIfRestF rest2 endLabel ((GenStmtF m (a + 1) bl cl).2) bl cl).2)
            h1 r1,
          show a + 1 - a = 1 from by omega, rangeMS_one]
        simp [labelMS_append, labelMS_LABEL, labelMS_ECO, labelMS_JZ, labelMS_JMP,
              labelMS_cons_LABEL, labelMS_cons_JMP, labelMS_cons_JZ,
              labelMS_nil, h2, r2, labelMS_nil, zero_add, add_zero] <;>
        (try simp only [ms_cons_add_form]) <;> abel
      · refine jumpOK_append (jumpOK_append (jumpOK_append (jumpOK_append (jumpOK_append
          (jumpOK_noCF (noCF_ECO e0))
          (jumpOK_JZ_fresh (endLabel :: bl) cl (by omega) (by omega)))
          (jumpOK_weaken_b endLabel (jumpOK_mono h3 (by omega) r1)))
          (jumpOK_JMP_b cl (List.mem_cons_self endLabel bl)))
          (jumpOK_LABEL _ _ (endLabel :: bl) cl _))
          (jumpOK_mono r3 (by omega) (le_refl _))
  · obtain ⟨h1, h2, h3⟩ := stmtF_lab (ASTNode.mk ck kt kb kcs) a bl cl
    obtain ⟨r1, r2, r3⟩ :=
      ifRestF_lab rest2 endLabel ((GenStmtF (ASTNode.mk ck kt kb kcs) a bl cl).2) bl cl
    rw [girf_other ck hck]
    refine ⟨by omega, ?_, ?_⟩
    · rw [← rangeMS_split a ((GenStmtF (ASTNode.mk ck kt kb kcs) a bl cl).2)
          ((GenIfRestF rest2 endLabel
            ((GenStmtF (ASTNode.mk ck kt kb kcs) a bl cl).2) bl cl).2) h1 r1]
      simp [labelMS_append, h2, r2]
    · exact jumpOK_append
        (jumpOK_weaken_b endLabel (jumpOK_mono h3 (le_refl a) r1))
        (jumpOK_mono r3 h1 (le_refl _))
termination_by sizeOf rest

end

end Petukh

namespace Petukh

/-! ## C3, part 6: the function and program levels. -/

/-- The conditional trailing RET of GenFunction appends either nothing or
a single RET instruction. -/
theorem retTail_ex (X : GenSt) :
    ∃ T : List Instruction, noCF T = true ∧
      (match X.code.getLast? with
       | Option.none => emit X OpCode.RET
       | Option.some i =>
         if i.op ≠ OpCode.RET then emit X OpCode.RET else X) =
      { X with code := X.code ++ T } := by
  cases hg : X.code.getLast? with
  | none =>
    refine ⟨[⟨OpCode.RET, ""⟩], rfl, ?_⟩
    simp [emit_frame]
  | some i =>
    by_cases hi : i.op ≠ OpCode.RET
    · refine ⟨[⟨OpCode.RET, ""⟩], rfl, ?_⟩
      simp [hi, emit_frame]
    · refine ⟨[], rfl, ?_⟩
      simp [hi]

theorem noCF_paramStores (cs : List (Option ASTNode)) :
    noCF (paramStores cs) = true := by
  rw [noCF, List.all_eq_true]
  intro i hi
  rw [paramStores] at hi
  obtain ⟨p, hp, rfl⟩ := List.mem_map.mp hi
  rfl

theorem genFunction_lab (f : String) (ar : Bool) (cs : List (Option ASTNode))
    (st : GenSt) :
    ∃ D lc',
      GenFunction (ASTNode.mk NodeKind.Function f ar cs) st =
        { st with code := st.code ++ D, labelCounter := lc' } ∧
      st.labelCounter ≤ lc' ∧
      labelMS D = {f} + rangeMS st.labelCounter (lc' - st.labelCounter) ∧
      jumpOK st.labelCounter lc' st.breakLabels st.continueLabels D := by
  by_cases hne : cs.isEmpty = true
  · obtain ⟨T, hT, hTeq⟩ := retTail_ex
      { st with code := st.code ++ [⟨OpCode.LABEL, f⟩] ++ paramStores cs }
    have hcode : GenFunction (ASTNode.mk NodeKind.Function f ar cs) st =
        { st with code := st.code ++ ([⟨OpCode.LABEL, f⟩] ++ paramStores cs ++ T) } := by
      rw [GenFunction]
      simp only [ASTNode.text, ASTNode.children, hne, if_true]
      rw [stores_foldl]
      rw [show ({ (emit st OpCode.LABEL f) with
          code := (emit st OpCode.LABEL f).code ++
            (((cs.drop 1).dropLast).map optText).reverse.map
              (fun p => ⟨OpCode.STORE, p⟩) } : GenSt) =
        { st with code := st.code ++ [⟨OpCode.LABEL, f⟩] ++ paramStores cs } from rfl]
      rw [hTeq]
      simp [List.append_assoc]
    refine ⟨[⟨OpCode.LABEL, f⟩] ++ paramStores cs ++ T, st.labelCounter,
      hcode, le_refl _, ?_, ?_⟩
    · simp [labelMS_append, labelMS_LABEL, labelMS_cons_LABEL,
            labelMS_noCF (noCF_paramStores cs),
            labelMS_noCF hT, Nat.sub_self, rangeMS_zero]
    · exact jumpOK_append (jumpOK_append (jumpOK_LABEL _ _ _ _ _)
        (jumpOK_noCF (noCF_paramStores cs))) (jumpOK_noCF hT)
  · have hne' : cs.isEmpty = false := by
      rcases cs with _ | ⟨c0, cs2⟩
      · exact absurd rfl hne
      · rfl
    cases hch : childOpt cs (cs.length - 1) with
    | none =>
      obtain ⟨T, hT, hTeq⟩ := retTail_ex
        { st with code := st.code ++ [⟨OpCode.LABEL, f⟩] ++ paramStores cs }
      have hcode : GenFunction (ASTNode.mk NodeKind.Function f ar cs) st =
          { st with code := st.code ++ ([⟨OpCode.LABEL, f⟩] ++ paramStores cs ++ T) } := by
        rw [GenFunction]
        simp only [ASTNode.text, ASTNode.children, hne', Bool.false_eq_true, if_false]
        rw [stores_foldl]
        rw [show ({ (emit st OpCode.LABEL f) with
            code := (emit st OpCode.LABEL f).code ++
              (((cs.drop 1).dropLast).map optText).reverse.map
                (fun p => ⟨OpCode.STORE, p⟩) } : GenSt) =
          { st with code := st.code ++ [⟨OpCode.LABEL, f⟩] ++ paramStores cs } from rfl]
        rw [hch]
        rw [show GenStatement Option.none
            { st with code := st.code ++ [⟨OpCode.LABEL, f⟩] ++ paramStores cs } =
          { st with code := st.code ++ [⟨OpCode.LABEL, f⟩] ++ paramStores cs } from rfl]
        rw [hTeq]
        simp [List.append_assoc]
      refine ⟨[⟨OpCode.LABEL, f⟩] ++ paramStores cs ++ T, st.labelCounter,
        hcode, le_refl _, ?_, ?_⟩
      · simp [labelMS_append, labelMS_LABEL, labelMS_cons_LABEL,
              labelMS_noCF (noCF_paramStores cs),
              labelMS_noCF hT, Nat.sub_self, rangeMS_zero]
      · exact jumpOK_append (jumpOK_append (jumpOK_LABEL _ _ _ _ _)
          (jumpOK_noCF (noCF_paramStores cs))) (jumpOK_noCF hT)
    | some m =>
      obtain ⟨hb1, hb2, hb3⟩ := stmtF_lab m st.labelCounter st.breakLabels st.continueLabels
      obtain ⟨T, hT, hTeq⟩ := retTail_ex
        { st with
          code := st.code ++ [⟨OpCode.LABEL, f⟩] ++ paramStores cs ++
            (GenStmtF m st.labelCounter st.breakLabels st.continueLabels).1,
          labelCounter := (GenStmtF m st.labelCounter st.breakLabels st.continueLabels).2 }
      have hcode : GenFunction (ASTNode.mk NodeKind.Function f ar cs) st =
          { st with
            code := st.code ++ ([⟨OpCode.LABEL, f⟩] ++ paramStores cs ++
              (GenStmtF m st.labelCounter st.breakLabels st.continueLabels).1 ++ T),
            labelCounter :=
              (GenStmtF m st.labelCounter st.breakLabels st.continueLabels).2 } := by
        rw [GenFunction]
        simp only [ASTNode.text, ASTNode.children, hne', Bool.false_eq_true, if_false]
        rw [stores_foldl]
        rw [show ({ (emit st OpCode.LABEL f) with
            code := (emit st OpCode.LABEL f).code ++
              (((cs.drop 1).dropLast).map optText).reverse.map
                (fun p => ⟨OpCode.STORE, p⟩) } : GenSt) =
          { st with code := st.code ++ [⟨OpCode.LABEL, f⟩] ++ paramStores cs } from rfl]
        rw [hch]
        rw [show GenStatement (Option.some m)
            { st with code := st.code ++ [⟨OpCode.LABEL, f⟩] ++ paramStores cs } =
          GenStatementN m
            { st with code := st.code ++ [⟨OpCode.LABEL, f⟩] ++ paramStores cs } from rfl]
        rw [genStmtN_F m
          { st with code := st.code ++ [⟨OpCode.LABEL, f⟩] ++ paramStores cs }]
        rw [show ({ ({ st with
              code := st.code ++ [⟨OpCode.LABEL, f⟩] ++ paramStores cs } : GenSt) with
            code := ({ st with
              code := st.code ++ [⟨OpCode.LABEL, f⟩] ++ paramStores cs } : GenSt).code ++
                (GenStmtF m
                  ({ st with
                    code := st.code ++ [⟨OpCode.LABEL, f⟩] ++
                      paramStores cs } : GenSt).labelCounter
                  ({ st with
                    code := st.code ++ [⟨OpCode.LABEL, f⟩] ++
                      paramStores cs } : GenSt).breakLabels
                  ({ st with
                    code := st.code ++ [⟨OpCode.LABEL, f⟩] ++
                      paramStores cs } : GenSt).continueLabels).1,
            labelCounter :=
              (GenStmtF m
                ({ st with
                  code := st.code ++ [⟨OpCode.LABEL, f⟩] ++
                    paramStores cs } : GenSt).labelCounter
                ({ st with
                  code := st.code ++ [⟨OpCode.LABEL, f⟩] ++
                    paramStores cs } : GenSt).breakLabels
                ({ st with
                  code := st.code ++ [⟨OpCode.LABEL, f⟩] ++
                    paramStores cs } : GenSt).continueLabels).2 } : GenSt) =
          { st with
            code := st.code ++ [⟨OpCode.LABEL, f⟩] ++ paramStores cs ++
              (GenStmtF m st.labelCounter st.breakLabels st.continueLabels).1,
            labelCounter :=
              (GenStmtF m st.labelCounter st.breakLabels
                st.continueLabels).2 } from rfl]
        rw [hTeq]
        simp [List.append_assoc]
      refine ⟨[⟨OpCode.LABEL, f⟩] ++ paramStores cs ++
          (GenStmtF m st.labelCounter st.breakLabels st.continueLabels).1 ++ T,
        (GenStmtF m st.labelCounter st.breakLabels st.continueLabels).2,
        hcode, hb1, ?_, ?_⟩
      · simp [labelMS_append, labelMS_LABEL, labelMS_cons_LABEL,
              labelMS_noCF (noCF_paramStores cs),
              labelMS_noCF hT, hb2, Multiset.singleton_add]
      · exact jumpOK_append (jumpOK_append (jumpOK_append (jumpOK_LABEL _ _ _ _ _)
          (jumpOK_noCF (noCF_paramStores cs))) hb3) (jumpOK_noCF hT)

end Petukh

namespace Petukh

theorem genNodes_nil (st : GenSt) : GenNodes [] st = st := rfl

theorem genNodes_cons (c : Option ASTNode) (rest : List (Option ASTNode)) (st : GenSt) :
    GenNodes (c :: rest) st = GenNodes rest (GenNode c st) := rfl

/-- The multiset of names of the Function children in a child list (every
function lowers to exactly one `LABEL name`). -/
def fnamesMS : List (Option ASTNode) → Multiset String
  | [] => 0
  | Option.none :: rest => fnamesMS rest
  | Option.some n :: rest =>
    (if n.kind = NodeKind.Function then {n.text} else 0) + fnamesMS rest

/-- No top-level function name starts with the letter L (generated jump
labels are "L" followed by a counter, so such a name could collide). -/
def noLFuncNames (cs : List (Option ASTNode)) : Bool :=
  cs.all (fun c =>
    match c with
    | Option.some n =>
      !(n.kind == NodeKind.Function) || !(n.text.data.head? == Option.some 'L')
    | Option.none => true)

theorem genNodes_lab (cs : List (Option ASTNode)) (st : GenSt) :
    ∃ D lc',
      GenNodes cs st = { st with code := st.code ++ D, labelCounter := lc' } ∧
      st.labelCounter ≤ lc' ∧
      labelMS D = fnamesMS cs + rangeMS st.labelCounter (lc' - st.labelCounter) ∧
      jumpOK st.labelCounter lc' st.breakLabels st.continueLabels D := by
  induction cs generalizing st with
  | nil =>
    refine ⟨[], st.labelCounter, ?_, le_refl _, ?_, jumpOK_nil _ _ _ _⟩
    · simp [genNodes_nil]
    · simp [fnamesMS, labelMS_nil, Nat.sub_self, rangeMS_zero]
  | cons c rest ih =>
    rcases c with _ | ⟨k, t, b, ncs⟩
    · obtain ⟨D, lc', h1, h2, h3, h4⟩ := ih st
      refine ⟨D, lc', ?_, h2, ?_, h4⟩
      · rw [genNodes_cons]
        exact h1
      · simpa [fnamesMS] using h3
    · by_cases hk : k = NodeKind.Function
      · subst hk
        obtain ⟨Df, lcf, hfq, hf1, hf2, hf3⟩ := genFunction_lab t b ncs st
        obtain ⟨Dr, lcr, hr, hr2, hr3, hr4⟩ :=
          ih { st with code := st.code ++ Df, labelCounter := lcf }
        have hr2' : lcf ≤ lcr := hr2
        have hr3' : labelMS Dr = fnamesMS rest + rangeMS lcf (lcr - lcf) := hr3
        have hr4' : jumpOK lcf lcr st.breakLabels st.continueLabels Dr := hr4
        refine ⟨Df ++ Dr, lcr, ?_, by omega, ?_, ?_⟩
        · rw [genNodes_cons,
            show GenNode (Option.some (ASTNode.mk NodeKind.Function t b ncs)) st =
              GenFunction (ASTNode.mk NodeKind.Function t b ncs) st from rfl,
            hfq, hr]
          simp [List.append_assoc]
        · rw [labelMS_append, hf2, hr3',
            show fnamesMS (Option.some (ASTNode.mk NodeKind.Function t b ncs) :: rest) =
              {t} + fnamesMS rest from by simp [fnamesMS, ASTNode.kind, ASTNode.text],
            ← rangeMS_split st.labelCounter lcf lcr hf1 hr2']
          abel
        · exact jumpOK_append (jumpOK_mono hf3 (le_refl _) hr2')
            (jumpOK_mono hr4' hf1 (le_refl _))
      · obtain ⟨hb1, hb2, hb3⟩ := stmtF_lab (ASTNode.mk k t b ncs)
          st.labelCounter st.breakLabels st.continueLabels
        obtain ⟨Dr, lcr, hr, hr2, hr3, hr4⟩ :=
          ih { st with
            code := st.code ++ (GenStmtF (ASTNode.mk k t b ncs)
              st.labelCounter st.breakLabels st.continueLabels).1,
            labelCounter := (GenStmtF (ASTNode.mk k t b ncs)
              st.labelCounter st.breakLabels st.continueLabels).2 }
        have hr2' : (GenStmtF (ASTNode.mk k t b ncs)
            st.labelCounter st.breakLabels st.continueLabels).2 ≤ lcr := hr2
        have hr3' : labelMS Dr = fnamesMS rest +
            rangeMS (GenStmtF (ASTNode.mk k t b ncs)
              st.labelCounter st.breakLabels st.continueLabels).2
              (lcr - (GenStmtF (ASTNode.mk k t b ncs)
                st.labelCounter st.breakLabels st.continueLabels).2) := hr3
        have hr4' : jumpOK (GenStmtF (ASTNode.mk k t b ncs)
            st.labelCounter st.breakLabels st.continueLabels).2 lcr
            st.breakLabels st.continueLabels Dr := hr4
        refine ⟨(GenStmtF (ASTNode.mk k t b ncs)
            st.labelCounter st.breakLabels st.continueLabels).1 ++ Dr, lcr,
          ?_, by omega, ?_, ?_⟩
        · rw [genNodes_cons,
            show GenNode (Option.some (ASTNode.mk k t b ncs)) st =
              GenStatementN (ASTNode.mk k t b ncs) st from by
                simp [GenNode, ASTNode.kind, hk],
            genStmtN_F (ASTNode.mk k t b ncs) st, hr]
          simp [List.append_assoc]
        · rw [labelMS_append, hb2, hr3',
            show fnamesMS (Option.some (ASTNode.mk k t b ncs) :: rest) =
              fnamesMS rest from by simp [fnamesMS, ASTNode.kind, hk],
            ← rangeMS_split st.labelCounter
              ((GenStmtF (ASTNode.mk k t b ncs)
                st.labelCounter st.breakLabels st.continueLabels).2) lcr hb1 hr2']
          abel
        · exact jumpOK_append (jumpOK_mono hb3 (le_refl _) hr2')
            (jumpOK_mono hr4' hb1 (le_refl _))

theorem mem_jumpArgs {D : List Instruction} {i : Instruction} (hi : i ∈ D)
    (hop : i.op = OpCode.JMP ∨ i.op = OpCode.JZ) : i.arg ∈ jumpArgs D := by
  rw [jumpArgs]
  apply List.mem_map_of_mem
  rw [List.mem_filter]
  refine ⟨hi, ?_⟩
  rcases hop with h | h <;> simp [h]

theorem rangeMS_count_one {a n k : Nat} (h1 : a ≤ k) (h2 : k < a + n) :
    Multiset.count (labelName k) (rangeMS a n) = 1 := by
  rw [rangeMS, Multiset.coe_count]
  have hnd : ((List.range' a n).map labelName).Nodup := by
    apply List.Nodup.map
    · intro x y hxy
      exact labelName_inj hxy
    · exact List.nodup_range' a n
  have hmem : labelName k ∈ (List.range' a n).map labelName :=
    List.mem_map_of_mem _ (by rw [List.mem_range'_1]; omega)
  exact List.count_eq_one_of_mem hnd hmem

theorem fnamesMS_count (cs : List (Option ASTNode)) (hf : noLFuncNames cs = true)
    (k : Nat) : Multiset.count (labelName k) (fnamesMS cs) = 0 := by
  induction cs with
  | nil => rfl
  | cons c rest ih =>
    rw [noLFuncNames, List.all_cons, Bool.and_eq_true] at hf
    obtain ⟨hc, hrest⟩ := hf
    have ih' := ih hrest
    rcases c with _ | n
    · simpa [fnamesMS] using ih'
    · rw [show fnamesMS (Option.some n :: rest) =
        (if n.kind = NodeKind.Function then {n.text} else 0) + fnamesMS rest from rfl,
        Multiset.count_add, ih']
      by_cases hk2 : n.kind = NodeKind.Function
      · simp only [hk2, if_true]
        have hhd : ¬(n.text.data.head? = Option.some 'L') := by
          simp [hk2] at hc
          exact hc
        have hne : ¬(labelName k = n.text) := by
          intro he
          rw [← he, labelName_head] at hhd
          exact hhd rfl
        rw [Multiset.count_singleton]
        simp [hne]
      · simp [hk2]

end Petukh

namespace Petukh

/-- A Program whose only statement calls the undefined, non-built-in
function `g`: the generated code is a bare `CALL g` with no `LABEL g`. -/
def c3ast : ASTNode :=
  ASTNode.mk NodeKind.Program "" false
    [Option.some (ASTNode.mk NodeKind.ExprStmt "" false
      [Option.some (ASTNode.mk NodeKind.Call "" false
        [Option.some (ASTNode.mk NodeKind.Identifier "g" false [])])])]

/-- C3 counterexample: `Generate` emits `CALL g` for a call to the
undefined function `g`, which is not a built-in, and the emitted list
contains no defining `LABEL g` at all (count 0, not 1): a CALL argument
other than a built-in name need not have a matching LABEL. -/
theorem C3_counterexample :
    Generate (Option.some c3ast) = [⟨OpCode.CALL, "g"⟩] ∧
    IsBuiltin "g" = false ∧
    (labelArgs (Generate (Option.some c3ast))).count "g" = 0 :=
  ⟨rfl, rfl, rfl⟩

/-- C3 (amended): in `Generate`'s output for any root whose top-level
Function children all have names not starting with 'L', every label that
appears as the argument of a JMP or JZ instruction has exactly one
defining LABEL instruction in that same output.  (CALL arguments are
excluded: a call to an undefined non-built-in name has no matching
LABEL, see the counterexample.) -/
theorem C3_amended (r : ASTNode) (hf : noLFuncNames r.children = true) :
    ∀ i ∈ Generate (Option.some r), i.op = OpCode.JMP ∨ i.op = OpCode.JZ →
      (labelArgs (Generate (Option.some r))).count i.arg = 1 := by
  intro i hi hop
  obtain ⟨D, lc', h1, h2, h3, h4⟩ := genNodes_lab r.children g0
  have h2' : 0 ≤ lc' := h2
  have h3' : labelMS D = fnamesMS r.children + rangeMS 0 (lc' - 0) := h3
  have h4' : jumpOK 0 lc' [] [] D := h4
  have hgen : Generate (Option.some r) = D := by
    rw [show Generate (Option.some r) = (GenNodes r.children g0).code from rfl, h1]
    simp [g0]
  rw [hgen] at hi ⊢
  have harg : i.arg ∈ jumpArgs D := mem_jumpArgs hi hop
  rcases h4' i.arg harg with ⟨k, hk1, hk2, hke⟩ | hB | hC
  · rw [hke]
    have hcnt : (labelArgs D).count (labelName k) =
        Multiset.count (labelName k) (labelMS D) := (Multiset.coe_count _ _).symm
    rw [hcnt, h3', Multiset.count_add, fnamesMS_count r.children hf k,
      rangeMS_count_one (Nat.zero_le k) (by omega)]
  · exact absurd hB (List.not_mem_nil _)
  · exact absurd hC (List.not_mem_nil _)

/-- A Program whose only statement is `while (1) {}`: its lowering emits
`JMP L0` and `JZ L1`, each with exactly one defining LABEL. -/
def c3w : ASTNode :=
  ASTNode.mk NodeKind.Program "" false
    [Option.some (ASTNode.mk NodeKind.While "" false
      [Option.some (ASTNode.mk NodeKind.Number "1" false []),
       Option.some (ASTNode.mk NodeKind.Block "" false [])])]

theorem C3_amended_witness :
    noLFuncNames c3w.children = true ∧
    (⟨OpCode.JMP, "L0"⟩ : Instruction) ∈ Generate (Option.some c3w) ∧
    (labelArgs (Generate (Option.some c3w))).count "L0" = 1 :=
  ⟨rfl, by decide,
   C3_amended c3w rfl ⟨OpCode.JMP, "L0"⟩ (by decide) (Or.inl rfl)⟩

end Petukh
